import Mathlib

/-!
Sharding catalog DDL helpers, DDL coordinator recovery and the migration write observer.

A shallow embedding of
* `src/mongo/db/s/sharding_ddl_util.cpp` (the "drop collection" catalog mutation),
* the DDL coordinator service / DDL lock manager exercised by
  `src/mongo/db/s/sharding_ddl_coordinator_service_test.cpp`,
* `src/mongo/db/s/migration_chunk_cloner_source_op_observer.cpp`.

Definitions come first, theorems afterwards.
-/

namespace mongo

/-! ## Basic vocabulary -/

abbrev DatabaseName := String
abbrev UUID := Nat
abbrev Timestamp := Nat
abbrev ShardId := String
abbrev StmtId := Int
abbrev TxnNumber := Int
abbrev LogicalSessionId := Nat
/-- BSON documents, reduced to an ordered list of integer-valued fields. -/
abbrev BSONObj := List (String × Int)

/-- A namespace: database name and collection name. -/
structure NamespaceString where
  db : DatabaseName
  coll : String
  deriving DecidableEq, Repr

/-- The database name of a namespace (`nss.dbName()`). -/
def NamespaceString.dbName (nss : NamespaceString) : DatabaseName := nss.db

/-- The namespace `config.transactions`. -/
def NamespaceString.kSessionTransactionsTableNamespace : NamespaceString :=
  ⟨"config", "transactions"⟩

/-! The error codes are referred to by name in the sources; the table that numbers them
is not under `src/`, so the numbers below only keep the named codes apart. -/

/-- Modelled from the spec: the error code `InternalError`. -/
def ErrorCodes.InternalError : Nat := 1
/-- Modelled from the spec: the error code `LockTimeout`. -/
def ErrorCodes.LockTimeout : Nat := 24
/-- Modelled from the spec: the error code `ShardKeyNotFound`. -/
def ErrorCodes.ShardKeyNotFound : Nat := 61
/-- Modelled from the spec: the error code `ConflictingOperationInProgress`. -/
def ErrorCodes.ConflictingOperationInProgress : Nat := 117
/-- Modelled from the spec: the error code `NamespaceNotSharded`. -/
def ErrorCodes.NamespaceNotSharded : Nat := 118
/-- Modelled from the spec: the error code raised when a chunk has moved since the
snapshot (`ChunkOwnerMoved` in the spec). -/
def ErrorCodes.MigrationConflict : Nat := 272
/-- Modelled from the spec: the error code `InterruptedDueToReplStateChange`. -/
def ErrorCodes.InterruptedDueToReplStateChange : Nat := 11602
/-- Modelled from the spec: the error code `StaleConfig`. -/
def ErrorCodes.StaleConfig : Nat := 13388
/-- Modelled from the spec: the error code `StaleDbVersion`. -/
def ErrorCodes.StaleDbVersion : Nat := 249
/-- Modelled from the spec: the error code `MovePrimaryInProgress`. -/
def ErrorCodes.MovePrimaryInProgress : Nat := 290
/-- Modelled from the spec: the error code `InvalidUUID`. -/
def ErrorCodes.InvalidUUID : Nat := 205
/-- Modelled from the spec: the error code `NamespaceNotFound`. -/
def ErrorCodes.NamespaceNotFound : Nat := 26
/-- Modelled from the spec: the error code `NamespaceExists`. -/
def ErrorCodes.NamespaceExists : Nat := 48
/-- Modelled from the spec: the error code `InvalidNamespace`. -/
def ErrorCodes.InvalidNamespace : Nat := 73
/-- Modelled from the spec: the error code `CommandFailed`. -/
def ErrorCodes.CommandFailed : Nat := 125
/-- Modelled from the spec: the error code `AlreadyInitialized`. -/
def ErrorCodes.AlreadyInitialized : Nat := 23
/-- Modelled from the spec: the error code `TruncatedSerialization`. -/
def ErrorCodes.TruncatedSerialization : Nat := 301

/-- The `Status` class: either `Status::OK()` or an error code with its reason. -/
inductive Status where
  | OK
  | error (code : Nat) (reason : String)
  deriving DecidableEq, Repr

def Status.isOK : Status → Bool
  | .OK => true
  | .error _ _ => false

/-- Write concern options; `w` is the `w` field (`"majority"` or a node count). -/
structure WriteConcernOptions where
  w : String
  wTimeout : Nat
  deriving DecidableEq, Repr

/-- The type `OperationSessionInfo`: optional session id and transaction number. -/
structure OperationSessionInfo where
  sessionId : Option LogicalSessionId
  txnNumber : Option TxnNumber
  deriving DecidableEq, Repr

/-! ## The sharding catalog held by the config server -/

/-- A `config.collections` document; `nss` is its `_id`. -/
structure CollectionType where
  nss : NamespaceString
  uuid : UUID
  allowMigrations : Bool
  deriving DecidableEq, Repr

/-- A `config.chunks` document. -/
structure ChunkType where
  collectionUUID : UUID
  min : BSONObj
  max : BSONObj
  shard : ShardId
  deriving DecidableEq, Repr

/-- A `config.csrs.indexes` document. -/
structure IndexCatalogType where
  collectionUUID : UUID
  name : String
  deriving DecidableEq, Repr

/-- A `config.placementHistory` document. -/
structure NamespacePlacementType where
  nss : NamespaceString
  timestamp : Timestamp
  shards : List ShardId
  uuid : Option UUID
  deriving DecidableEq, Repr

/-- The four catalog tables touched by the drop. -/
structure ConfigCatalog where
  collections : List CollectionType
  chunks : List ChunkType
  indexes : List IndexCatalogType
  placementHistory : List NamespacePlacementType
  deriving DecidableEq, Repr

/-- The unique index on `_id` of `config.collections`: no two entries share a namespace. -/
def ConfigCatalog.uniqueIds (cat : ConfigCatalog) : Prop :=
  (cat.collections.map CollectionType.nss).Nodup

instance (cat : ConfigCatalog) : Decidable cat.uniqueIds := by
  unfold ConfigCatalog.uniqueIds; infer_instance

inductive ConfigNS where
  | collections
  | chunks
  | indexCatalog
  | placementHistory
  deriving DecidableEq, Repr

/-- The filters built by the helpers: `{_id: nss, uuid: uuid}` or `{uuid: uuid}` /
`{collectionUUID: uuid}`.  A field left `none` is not constrained. -/
structure Query where
  nss : Option NamespaceString
  uuid : Option UUID
  deriving DecidableEq, Repr

/-- The write commands issued by the helpers: a delete command with a single
`DeleteOpEntry` (`q`, `multi`), or an insert into `config.placementHistory`. -/
inductive WriteOp where
  | delete (ns : ConfigNS) (q : Query) (multi : Bool)
  | insertPlacementHistory (doc : NamespacePlacementType)
  deriving DecidableEq, Repr

/-- Whether a write command is an insert into `config.placementHistory`. -/
def WriteOp.isPlacementInsert : WriteOp → Bool
  | .insertPlacementHistory _ => true
  | .delete _ _ _ => false

/-- Whether a write command is a delete on the given table. -/
def WriteOp.isDeleteOn (ns : ConfigNS) : WriteOp → Bool
  | .insertPlacementHistory _ => false
  | .delete ns1 _ _ => ns1 == ns

/-- A write command as it reaches the config server, with its envelope. -/
structure CatalogRequest where
  op : WriteOp
  stmtId : Option StmtId
  writeConcern : WriteConcernOptions
  lsid : Option LogicalSessionId
  txnNumber : Option TxnNumber
  deriving DecidableEq, Repr

/-- The class `BatchedCommandResponse`, reduced to `toStatus()` and `getN()`. -/
structure BatchedCommandResponse where
  status : Status
  n : Nat
  deriving DecidableEq, Repr

def BatchedCommandResponse.toStatus (r : BatchedCommandResponse) : Status := r.status

def BatchedCommandResponse.getN (r : BatchedCommandResponse) : Nat := r.n

/-- A config server: answers a request and moves the catalog. -/
abbrev ConfigServer := CatalogRequest → ConfigCatalog → BatchedCommandResponse × ConfigCatalog

/-- Modelled from the spec: the delete of the document store (not under `src/`).  With
`multi` every matching document is removed, otherwise only the first one; the count of
removed documents is returned. -/
def deleteDocs {α : Type} (p : α → Bool) (multi : Bool) (docs : List α) : List α × Nat :=
  if multi then (docs.filter (fun d => !p d), docs.countP p)
  else (docs.eraseP p, if docs.any p then 1 else 0)

def Query.matchesCollection (q : Query) (d : CollectionType) : Bool :=
  q.nss.all (fun x => x == d.nss) && q.uuid.all (fun u => u == d.uuid)

def Query.matchesChunk (q : Query) (d : ChunkType) : Bool :=
  q.nss.isNone && q.uuid.all (fun u => u == d.collectionUUID)

def Query.matchesIndex (q : Query) (d : IndexCatalogType) : Bool :=
  q.nss.isNone && q.uuid.all (fun u => u == d.collectionUUID)

def Query.matchesPlacement (q : Query) (d : NamespacePlacementType) : Bool :=
  q.nss.all (fun x => x == d.nss) && q.uuid.all (fun u => d.uuid == some u)

/-- Modelled from the spec: the effect of one write command on the catalog tables (the
document store is not under `src/`): a delete removes the matching documents of its
table, an insert appends to the append-only placement history. -/
def applyWriteOp (op : WriteOp) (cat : ConfigCatalog) : BatchedCommandResponse × ConfigCatalog :=
  match op with
  | .delete .collections q multi =>
      let r := deleteDocs q.matchesCollection multi cat.collections
      (⟨.OK, r.2⟩, { cat with collections := r.1 })
  | .delete .chunks q multi =>
      let r := deleteDocs q.matchesChunk multi cat.chunks
      (⟨.OK, r.2⟩, { cat with chunks := r.1 })
  | .delete .indexCatalog q multi =>
      let r := deleteDocs q.matchesIndex multi cat.indexes
      (⟨.OK, r.2⟩, { cat with indexes := r.1 })
  | .delete .placementHistory q multi =>
      let r := deleteDocs q.matchesPlacement multi cat.placementHistory
      (⟨.OK, r.2⟩, { cat with placementHistory := r.1 })
  | .insertPlacementHistory doc =>
      (⟨.OK, 1⟩, { cat with placementHistory := cat.placementHistory ++ [doc] })

/-- Modelled from the spec: the config server as a document store in which a statement
may fail (`fault req = some (code, reason)`); a failed statement changes nothing and
reports that error, a statement that does not fail is applied to the tables. -/
def configServer (fault : CatalogRequest → Option (Nat × String)) : ConfigServer :=
  fun req cat =>
    match fault req with
    | some e => (⟨.error e.1 e.2, 0⟩, cat)
    | none => applyWriteOp req.op cat

/-- What a helper leaves behind: its status (an exception is a non-OK status), the
catalog, and the requests it issued, in order, each with the response it got. -/
structure Outcome where
  status : Status
  catalog : ConfigCatalog
  issued : List (CatalogRequest × BatchedCommandResponse)
  deriving DecidableEq, Repr

namespace sharding_ddl_util

/-- The operation context the transaction runs on: write concern and session. -/
structure TxnOpCtx where
  writeConcern : WriteConcernOptions
  lsid : Option LogicalSessionId
  txnNumber : Option TxnNumber
  deriving DecidableEq, Repr

/-- The call `txnClient.runCRUDOp(op, stmtIds)`: the statement is sent under the session
and write concern of the transaction's operation context. -/
def runCRUDOp (ctx : TxnOpCtx) (op : WriteOp) (stmtId : StmtId) : CatalogRequest :=
  { op := op, stmtId := some stmtId, writeConcern := ctx.writeConcern,
    lsid := ctx.lsid, txnNumber := ctx.txnNumber }

/-- The delete of the `config.collections` entry built by `deleteCollection`:
query by `ns` and `uuid`, `multi = false`. -/
def deleteCollectionOp (nss : NamespaceString) (uuid : UUID) : WriteOp :=
  .delete .collections ⟨some nss, some uuid⟩ false

/-- The placement entry inserted by `deleteCollection`: `nss`, the cluster time, no
shards, and the uuid. -/
def insertPlacementEntryOp (nss : NamespaceString) (uuid : UUID) (clusterTime : Timestamp) :
    WriteOp :=
  .insertPlacementHistory { nss := nss, timestamp := clusterTime, shards := [], uuid := some uuid }

/-- The `transactionChain` lambda of `deleteCollection`. -/
def transactionChain (srv : ConfigServer) (clusterTime : Timestamp) (nss : NamespaceString)
    (uuid : UUID) (ctx : TxnOpCtx) (cat : ConfigCatalog) : Outcome :=
  let deleteReq := runCRUDOp ctx (deleteCollectionOp nss uuid) 0
  let (deleteCollResponse, cat1) := srv deleteReq cat
  match deleteCollResponse.toStatus with
  | .error c r => ⟨.error c r, cat1, [(deleteReq, deleteCollResponse)]⟩
  | .OK =>
    if deleteCollResponse.getN = 0 then
      let noOpResponse : BatchedCommandResponse := ⟨.OK, 0⟩
      ⟨noOpResponse.toStatus, cat1, [(deleteReq, deleteCollResponse)]⟩
    else
      let insertReq := runCRUDOp ctx (insertPlacementEntryOp nss uuid clusterTime) 1
      let (insertPlacementEntryResponse, cat2) := srv insertReq cat1
      ⟨insertPlacementEntryResponse.toStatus, cat2,
        [(deleteReq, deleteCollResponse), (insertReq, insertPlacementEntryResponse)]⟩

/-- Modelled from the spec: `txn_api::SyncTransactionWithRetries::run` (not under `src/`),
one attempt: the statements of the callback take effect together when it ends with
`OK`; when it fails the transaction is aborted, its writes are discarded and the error
is surfaced unchanged. -/
def SyncTransactionWithRetries_run (callback : ConfigCatalog → Outcome) (cat : ConfigCatalog) :
    Outcome :=
  let out := callback cat
  match out.status with
  | .OK => out
  | .error c r => ⟨.error c r, cat, out.issued⟩

/-- The fresh operation context of `runTransactionOnShardingCatalog`: it receives the
session id and transaction number of `osi` when `osi` has a session id, and the write
concern. -/
def newOpCtx (writeConcern : WriteConcernOptions) (osi : OperationSessionInfo) : TxnOpCtx :=
  { writeConcern := writeConcern
    lsid := if osi.sessionId.isSome then osi.sessionId else none
    txnNumber := if osi.sessionId.isSome then osi.txnNumber else none }

/-- The function `runTransactionOnShardingCatalog`: the transaction runs on the fresh
operation context; a local transaction client is only allowed on a config server
(tassert 7591900). -/
def runTransactionOnShardingCatalog (isConfigServer : Bool)
    (transactionChain : TxnOpCtx → ConfigCatalog → Outcome)
    (writeConcern : WriteConcernOptions) (osi : OperationSessionInfo)
    (useClusterTransaction : Bool) (cat : ConfigCatalog) : Outcome :=
  if !useClusterTransaction && !isConfigServer then
    ⟨.error 7591900 "Can only use local transaction client for sharding catalog operations on a config server",
      cat, []⟩
  else
    SyncTransactionWithRetries_run (transactionChain (newOpCtx writeConcern osi)) cat

/-- The function `deleteCollection`. -/
def deleteCollection (srv : ConfigServer) (isConfigServer : Bool) (clusterTime : Timestamp)
    (nss : NamespaceString) (uuid : UUID) (writeConcern : WriteConcernOptions)
    (osi : OperationSessionInfo) (useClusterTransaction : Bool) (cat : ConfigCatalog) : Outcome :=
  runTransactionOnShardingCatalog isConfigServer (transactionChain srv clusterTime nss uuid)
    writeConcern osi useClusterTransaction cat

/-- The call `configShard->runBatchWriteCommand(...)` for a request outside a transaction: no
statement id and no session. -/
def runBatchWriteCommand (op : WriteOp) (writeConcern : WriteConcernOptions) : CatalogRequest :=
  { op := op, stmtId := none, writeConcern := writeConcern, lsid := none, txnNumber := none }

/-- The request of `deleteChunks`: every `config.chunks` entry of the uuid (`multi`). -/
def deleteChunksOp (collectionUUID : UUID) : WriteOp :=
  .delete .chunks ⟨none, some collectionUUID⟩ true

/-- The function `deleteChunks`. -/
def deleteChunks (srv : ConfigServer) (collectionUUID : UUID)
    (writeConcern : WriteConcernOptions) (cat : ConfigCatalog) : Outcome :=
  let request := runBatchWriteCommand (deleteChunksOp collectionUUID) writeConcern
  let (response, cat1) := srv request cat
  ⟨response.toStatus, cat1, [(request, response)]⟩

/-- The request of `deleteShardingIndexCatalogMetadata` (`multi`). -/
def deleteShardingIndexCatalogMetadataOp (uuid : UUID) : WriteOp :=
  .delete .indexCatalog ⟨none, some uuid⟩ true

/-- The function `deleteShardingIndexCatalogMetadata`. -/
def deleteShardingIndexCatalogMetadata (srv : ConfigServer) (uuid : UUID)
    (writeConcern : WriteConcernOptions) (cat : ConfigCatalog) : Outcome :=
  let request := runBatchWriteCommand (deleteShardingIndexCatalogMetadataOp uuid) writeConcern
  let (response, cat1) := srv request cat
  ⟨response.toStatus, cat1, [(request, response)]⟩

/-- Sequencing of two steps where a non-OK status of the first is thrown: the second
step is then not run. -/
def andThen (first : Outcome) (next : ConfigCatalog → Outcome) : Outcome :=
  match first.status with
  | .error c r => ⟨.error c r, first.catalog, first.issued⟩
  | .OK =>
    let second := next first.catalog
    ⟨second.status, second.catalog, first.issued ++ second.issued⟩

/-- The function `removeCollAndChunksMetadataFromConfig`: `deleteCollection`, then
`deleteChunks`, then `deleteShardingIndexCatalogMetadata`. -/
def removeCollAndChunksMetadataFromConfig (srv : ConfigServer) (isConfigServer : Bool)
    (clusterTime : Timestamp) (coll : CollectionType) (writeConcern : WriteConcernOptions)
    (osi : OperationSessionInfo) (useClusterTransaction : Bool) (cat : ConfigCatalog) : Outcome :=
  let nss := coll.nss
  let uuid := coll.uuid
  andThen
    (andThen
      (deleteCollection srv isConfigServer clusterTime nss uuid writeConcern osi
        useClusterTransaction cat)
      (deleteChunks srv uuid writeConcern))
    (deleteShardingIndexCatalogMetadata srv uuid writeConcern)

/-! ### A concrete scenario: dropping `db.orders` -/

/-- The majority write concern used by the DDL coordinators. -/
def kMajorityWriteConcern : WriteConcernOptions := ⟨"majority", 0⟩

/-- A catalog holding the sharded collection `db.orders` (uuid 7) with two chunks and an
index, next to another collection. -/
def ordersCatalog : ConfigCatalog :=
  { collections := [⟨⟨"db", "orders"⟩, 7, true⟩, ⟨⟨"db", "users"⟩, 8, true⟩]
    chunks := [⟨7, [("x", 0)], [("x", 10)], "shard0"⟩, ⟨8, [("y", 0)], [("y", 5)], "shard1"⟩,
      ⟨7, [("x", 10)], [("x", 20)], "shard1"⟩]
    indexes := [⟨7, "x_1"⟩, ⟨8, "y_1"⟩]
    placementHistory := [⟨⟨"db", "orders"⟩, 3, ["shard0", "shard1"], some 7⟩] }

/-- The catalog entry of `db.orders`. -/
def ordersColl : CollectionType := ⟨⟨"db", "orders"⟩, 7, true⟩

/-- Session S, transaction number 7. -/
def ordersOsi : OperationSessionInfo := ⟨some 1, some 7⟩

/-- A document store on which every delete on `config.chunks` fails with
`HostUnreachable` (code 6). -/
def chunkFault : CatalogRequest → Option (Nat × String) :=
  fun req => if req.op.isDeleteOn .chunks then some (6, "host unreachable") else none

/-- A document store on which no statement fails. -/
def noFault : CatalogRequest → Option (Nat × String) := fun _ => none

end sharding_ddl_util

/-! ## The DDL coordinator service and the DDL lock manager -/

namespace ShardingDDLCoordinatorService

/-- The recovery state of the service (`ShardingDDLCoordinatorService::State`). -/
inductive State where
  | kPaused
  | kRecovering
  | kRecovered
  deriving DecidableEq, Repr

/-- Modelled from the spec: the DDL coordinator service (its implementation is not under
`src/`, only its test is): the recovery state, the persisted recovery documents of the
DDL operations that have not completed, and the coordinators rebuilt in memory. -/
structure Service where
  state : State
  persisted : List String
  coordinators : List String
  deriving DecidableEq, Repr

/-- What can happen to the service: a step-down, a step-up, and the end of the rebuild
of the coordinators from the persisted recovery documents. -/
inductive Event where
  | stepDown
  | stepUp
  | recoveryDone
  deriving DecidableEq, Repr

/-- Modelled from the spec: the service at process start: `Paused`, nothing rebuilt. -/
def Service.init (persisted : List String) : Service :=
  { state := .kPaused, persisted := persisted, coordinators := [] }

/-- Modelled from the spec: the transitions of the recovery state machine.  A step-down
leaves the state `Paused` and no coordinator running; a step-up moves `Paused` to
`Recovering`; the end of the rebuild moves `Recovering` to `Recovered`, every persisted
operation being rebuilt as a coordinator.  No other transition exists. -/
def Service.step (s : Service) : Event → Service
  | .stepDown => { s with state := .kPaused, coordinators := [] }
  | .stepUp => if s.state = .kPaused then { s with state := .kRecovering } else s
  | .recoveryDone =>
      if s.state = .kRecovering then
        { s with state := .kRecovered, coordinators := s.persisted }
      else s

/-- The states the service can be in: those reached from the initial one by events. -/
inductive Reachable (persisted : List String) : Service → Prop where
  | init : Reachable persisted (Service.init persisted)
  | step (s : Service) (e : Event) : Reachable persisted s → Reachable persisted (s.step e)

/-- How a wait bounded by a deadline ends: it returned (with the time left and the rest
of the timeline), or it failed. -/
inductive WaitResult where
  | returned (s : Service) (timeLeft : Nat) (rest : List (Option Event))
  | failed (status : Status) (s : Service)
  deriving DecidableEq, Repr

/-- Modelled from the spec: the blocking wait for recovery, bounded by a deadline of
`timeout` ticks.  Each tick of the timeline carries at most one event, and nothing
happens after its end.  The wait returns at once when the state is `Recovered`; it fails
with `LockTimeout` when the deadline is reached first, and it is interrupted when the
node steps down while it waits. -/
def waitForRecovery : Nat → Service → List (Option Event) → WaitResult
  | timeout, s, timeline =>
    if s.state = .kRecovered then .returned s timeout timeline
    else
      match timeout, timeline with
      | 0, _ => .failed (.error ErrorCodes.LockTimeout "timed out waiting for recovery") s
      | t + 1, [] => waitForRecovery t s []
      | t + 1, none :: rest => waitForRecovery t s rest
      | _ + 1, some .stepDown :: _ =>
          .failed (.error ErrorCodes.InterruptedDueToReplStateChange "node stepped down")
            (s.step .stepDown)
      | t + 1, some e :: rest => waitForRecovery t (s.step e) rest

/-- Modelled from the spec: the call `waitForRecoveryCompletion`, a blocking call without
deadline: it returns once the state is `Recovered` and fails when the node steps down
while it waits; `none` stands for a caller that is still blocked when the timeline
ends. -/
def waitForRecoveryCompletion : Service → List (Option Event) → Option (Except Status Service)
  | s, timeline =>
    if s.state = .kRecovered then some (.ok s)
    else
      match timeline with
      | [] => none
      | none :: rest => waitForRecoveryCompletion s rest
      | some .stepDown :: _ =>
          some (.error (.error ErrorCodes.InterruptedDueToReplStateChange "node stepped down"))
      | some e :: rest => waitForRecoveryCompletion (s.step e) rest

/-- The service after the ticks of a timeline have passed. -/
def Service.after : Service → List (Option Event) → Service
  | s, [] => s
  | s, none :: rest => Service.after s rest
  | s, some e :: rest => Service.after (s.step e) rest

/-- Whether recovery completes exactly at the end of the given ticks: the state is not
`Recovered` before any of them, none of them steps the node down, and the state is
`Recovered` after the last one. -/
def completesRecoveryAfter : Service → List (Option Event) → Bool
  | s, [] => decide (s.state = .kRecovered)
  | s, e :: rest =>
    decide (s.state ≠ .kRecovered) && decide (e ≠ some .stepDown) &&
      completesRecoveryAfter (Service.after s [e]) rest

end ShardingDDLCoordinatorService

namespace DDLLockManager

open ShardingDDLCoordinatorService

/-- Lock modes of the resource lock manager. -/
inductive LockMode where
  | MODE_IS
  | MODE_IX
  | MODE_S
  | MODE_X
  deriving DecidableEq, Repr

/-- Modelled from the spec: which lock modes conflict on the same resource (the lock
manager is not under `src/`): the exclusive mode conflicts with every mode, the shared
mode with the intent-exclusive one. -/
def LockMode.conflicts : LockMode → LockMode → Bool
  | .MODE_X, _ => true
  | _, .MODE_X => true
  | .MODE_S, .MODE_IX => true
  | .MODE_IX, .MODE_S => true
  | _, _ => false

/-- The resources of the DDL locks: a database or a namespace. -/
inductive ResourceName where
  | database (db : DatabaseName)
  | collection (nss : NamespaceString)
  deriving DecidableEq, Repr

/-- A held DDL lock. -/
structure DDLLock where
  resource : ResourceName
  mode : LockMode
  reason : String
  deriving DecidableEq, Repr

/-- The node as the lock manager sees it: the coordinator service, the DDL locks held,
and what happens to the service in the ticks to come. -/
structure Node where
  service : Service
  locks : List DDLLock
  timeline : List (Option Event)
  deriving DecidableEq, Repr

/-- A resource is uncontended for a mode when no held lock on it conflicts with it. -/
def uncontended (locks : List DDLLock) (resource : ResourceName) (mode : LockMode) : Bool :=
  locks.all (fun l => !(l.resource == resource && l.mode.conflicts mode))

/-- Modelled from the spec: the constructor of `ScopedBaseDDLLock`, that is `acquire` of
the resource lock manager (not under `src/`).  A caller that waits for recovery blocks,
up to the timeout, until the service is `Recovered`, and fails with `LockTimeout`
otherwise; a caller that bypasses the wait goes straight to the resource.  The resource
is then granted when no held lock conflicts, and the request fails with `LockTimeout`
when one does. -/
def ScopedBaseDDLLock (node : Node) (resource : ResourceName) (reason : String)
    (mode : LockMode) (timeout : Nat) (waitForRecovery : Bool) : Except Status Node :=
  let gate : Except Status Node :=
    if waitForRecovery then
      match ShardingDDLCoordinatorService.waitForRecovery timeout node.service node.timeline with
      | .returned s _ rest => .ok { node with service := s, timeline := rest }
      | .failed _ _ =>
          .error (.error ErrorCodes.LockTimeout "timed out waiting for DDL coordinator recovery")
    else .ok node
  match gate with
  | .error st => .error st
  | .ok node1 =>
    if uncontended node1.locks resource mode then
      .ok { node1 with locks := ⟨resource, mode, reason⟩ :: node1.locks }
    else .error (.error ErrorCodes.LockTimeout "timed out waiting for the DDL lock")

/-- The test helper `acquireDbAndCollDDLLocks`: the database lock, then the collection
lock, both with the same reason, mode, timeout and `waitForRecovery`. -/
def acquireDbAndCollDDLLocks (node : Node) (ns : NamespaceString) (reason : String)
    (mode : LockMode) (timeout : Nat) (waitForRecovery : Bool) : Except Status Node :=
  match ScopedBaseDDLLock node (.database ns.dbName) reason mode timeout waitForRecovery with
  | .error st => .error st
  | .ok node1 => ScopedBaseDDLLock node1 (.collection ns) reason mode timeout waitForRecovery

/-- The test helper `acquireDbAndCollDDLLocksWithoutWaitingForRecovery`. -/
def acquireDbAndCollDDLLocksWithoutWaitingForRecovery (node : Node) (ns : NamespaceString)
    (reason : String) (mode : LockMode) (timeout : Nat) : Except Status Node :=
  acquireDbAndCollDDLLocks node ns reason mode timeout false

/-- Whether an acquisition failed with `LockTimeout`. -/
def failsWithLockTimeout (r : Except Status Node) : Prop :=
  ∃ reason, r = .error (.error ErrorCodes.LockTimeout reason)

/-- Whether an acquisition succeeded. -/
def succeeds (r : Except Status Node) : Prop := ∃ node, r = .ok node

/-- The namespace `test.coll` of the test. -/
def testNss : NamespaceString := ⟨"test", "coll"⟩

/-- A node whose service is in the given state, holding no lock, with nothing to come. -/
def idleNode (state : State) : Node :=
  { service := { state := state, persisted := [], coordinators := [] }, locks := [],
    timeline := [] }

end DDLLockManager

/-! ## The migration write observer -/

namespace repl

/-- The type `repl::OpTime`: a timestamp and a term. -/
structure OpTime where
  timestamp : Timestamp
  term : Int
  deriving DecidableEq, Repr

/-- The default-constructed `OpTime()`: null timestamp, uninitialized term. -/
def OpTime.null : OpTime := ⟨0, -1⟩

def OpTime.isNull (t : OpTime) : Bool := t.timestamp == 0

end repl

/-- A chunk of the routing table with the time of its last move. -/
structure ChunkInfo where
  min : BSONObj
  max : BSONObj
  shard : ShardId
  lastMoved : Timestamp
  deriving DecidableEq, Repr

/-- A routing table, possibly pinned at a cluster time. -/
structure ChunkManager where
  chunks : List ChunkInfo
  clusterTime : Option Timestamp
  deriving DecidableEq, Repr

/-- The simple (non-collation) order on shard-key values: field values are compared in
order, field names are ignored. -/
def simpleLt : List Int → List Int → Bool
  | [], [] => false
  | [], _ :: _ => true
  | _ :: _, [] => false
  | a :: as, b :: bs => decide (a < b) || (a == b && simpleLt as bs)

/-- Whether the range `[min, max)` of a chunk contains a shard-key value. -/
def ChunkInfo.containsKey (c : ChunkInfo) (shardKey : BSONObj) : Bool :=
  !simpleLt (shardKey.map Prod.snd) (c.min.map Prod.snd) &&
    simpleLt (shardKey.map Prod.snd) (c.max.map Prod.snd)

/-- Modelled from the spec: `ChunkManager::makeAtTime` (not under `src/`): the chunk map
as of the given timestamp. -/
def ChunkManager.makeAtTime (cm : ChunkManager) (ts : Timestamp) : ChunkManager :=
  { cm with clusterTime := some ts }

/-- Modelled from the spec: `findIntersectingChunkWithSimpleCollation` (not under
`src/`): the chunk whose range contains the shard key under the simple comparison. -/
def ChunkManager.findIntersectingChunkWithSimpleCollation (cm : ChunkManager)
    (shardKey : BSONObj) : Except Status ChunkInfo :=
  match cm.chunks.find? (fun c => c.containsKey shardKey) with
  | some c => .ok c
  | none => .error (.error ErrorCodes.ShardKeyNotFound "no chunk contains the shard key")

/-- Modelled from the spec: `Chunk::throwIfMoved` (not under `src/`): fails when the last
move of the chunk is later than the cluster time the chunk map is pinned at. -/
def ChunkInfo.throwIfMoved (c : ChunkInfo) (atClusterTime : Option Timestamp) : Status :=
  match atClusterTime with
  | none => .OK
  | some ts =>
    if ts < c.lastMoved then .error ErrorCodes.MigrationConflict "chunk has moved since the snapshot"
    else .OK

/-- The metadata of a collection on this shard; the two extractions of the shard key
pattern (not under `src/`) are parameters. -/
structure CollectionMetadata where
  isSharded : Bool
  chunkManager : ChunkManager
  extractShardKeyFromDocThrows : BSONObj → Except Status BSONObj
  extractShardKeyFromDocumentKeyThrows : BSONObj → Except Status BSONObj

/-- The active cloner of a migration, identified by its migration session. -/
structure MigrationChunkClonerSource where
  sessionId : Nat
  deriving DecidableEq, Repr

/-- The sharding runtime of a collection: the outcome of `checkShardVersionOrThrow` for
the running operation, the metadata if known, and the current cloner if any. -/
structure CollectionShardingRuntime where
  shardVersionCheck : Status
  currentMetadataIfKnown : Option CollectionMetadata
  currentCloner : Option MigrationChunkClonerSource

def CollectionShardingRuntime.getCurrentMetadataIfKnown (csr : CollectionShardingRuntime) :
    Option CollectionMetadata := csr.currentMetadataIfKnown

/-- The call `MigrationSourceManager::getCurrentCloner(*csr)`. -/
def MigrationSourceManager.getCurrentCloner (csr : CollectionShardingRuntime) :
    Option MigrationChunkClonerSource := csr.currentCloner

/-- The router attached to the accumulator by `OpObserverImpl`. -/
structure ShardingWriteRouter where
  css : CollectionShardingRuntime

def ShardingWriteRouter.getCss (r : ShardingWriteRouter) : CollectionShardingRuntime := r.css

/-- The accumulator handed from observer to observer. -/
structure OpStateAccumulator where
  shardingWriteRouter : Option ShardingWriteRouter
  insertOpTimes : List repl.OpTime
  writeOpTime : repl.OpTime

/-- What the hooks read from the operation context and through it: the replication and
transaction state, the read concern, the sharding state of collections and databases,
and the classification of namespaces (`NamespaceString` is not under `src/`). -/
structure OperationContext where
  writesAreReplicated : Bool
  txnParticipant : Bool
  transactionIsOpen : Bool
  hasWriteUnitOfWork : Bool
  argsAtClusterTime : Option Timestamp
  collectionShardingState : NamespaceString → CollectionShardingRuntime
  dbVersionCheck : DatabaseName → Status
  isMovePrimaryInProgress : DatabaseName → Bool
  isNormalCollection : NamespaceString → Bool
  isTimeseriesBucketsCollection : NamespaceString → Bool
  isMigrating : NamespaceString → BSONObj → Bool
  logicalSessionId : Option LogicalSessionId := none

structure CollectionPtr where
  ns : NamespaceString
  deriving DecidableEq, Repr

structure InsertStatement where
  stmtId : StmtId
  doc : BSONObj
  deriving DecidableEq, Repr

inductive OperationSource where
  | kStandard
  | kFromMigrate
  | kTimeseriesInsert
  deriving DecidableEq, Repr

structure CollectionUpdateArgs where
  source : OperationSource
  update : BSONObj
  preImageDoc : BSONObj
  updatedDoc : BSONObj
  deriving DecidableEq, Repr

structure OplogUpdateEntryArgs where
  updateArgs : CollectionUpdateArgs
  coll : CollectionPtr
  deriving DecidableEq, Repr

/-- The document key decoration of a delete. -/
structure DocumentKey where
  shardKeyAndId : BSONObj
  deriving DecidableEq, Repr

def DocumentKey.getShardKeyAndId (k : DocumentKey) : BSONObj := k.shardKeyAndId

/-- The arguments of a delete with their decorations: the flag stored by `aboutToDelete`
and the document key. -/
structure OplogDeleteEntryArgs where
  fromMigrate : Bool
  isMigrating : Bool
  documentKey : Option DocumentKey
  deriving DecidableEq, Repr

/-- What a hook does that can be observed from outside, in order. -/
inductive Effect where
  | checkShardVersionOrThrow (nss : NamespaceString)
  | assertMatchingDbVersion (db : DatabaseName)
  | isMovePrimaryInProgress (db : DatabaseName)
  | assertIntersectingChunkHasNotMoved (shardKey : BSONObj) (atClusterTime : Timestamp)
  | onInsertOp (cloner : MigrationChunkClonerSource) (doc : BSONObj) (opTime : repl.OpTime)
  | onUpdateOp (cloner : MigrationChunkClonerSource) (preImageDoc postImageDoc : BSONObj)
      (opTime : repl.OpTime)
  | onDeleteOp (cloner : MigrationChunkClonerSource) (shardKeyAndId : BSONObj)
      (opTime : repl.OpTime)
  deriving DecidableEq, Repr

/-- Whether an effect is a call on a migration cloner. -/
def Effect.isClonerCall : Effect → Bool
  | .onInsertOp _ _ _ => true
  | .onUpdateOp _ _ _ _ => true
  | .onDeleteOp _ _ _ => true
  | _ => false

/-- Whether an effect is a call of `onInsertOp`. -/
def Effect.isInsertOp : Effect → Bool
  | .onInsertOp _ _ _ => true
  | _ => false

/-- Whether an effect is a call of `onUpdateOp`. -/
def Effect.isUpdateOp : Effect → Bool
  | .onUpdateOp _ _ _ _ => true
  | _ => false

/-- Whether an effect is a call of `onDeleteOp`. -/
def Effect.isDeleteOp : Effect → Bool
  | .onDeleteOp _ _ _ => true
  | _ => false

/-- Whether an effect is a call of `assertIntersectingChunkHasNotMoved`. -/
def Effect.isValidation : Effect → Bool
  | .assertIntersectingChunkHasNotMoved _ _ => true
  | _ => false

/-- The course of a hook: its status (an exception is a non-OK status) and its effects. -/
structure HookOutcome where
  status : Status
  effects : List Effect
  deriving DecidableEq, Repr

namespace MigrationChunkClonerSourceOpObserver

/-- A hook that returns without doing anything. -/
def done : HookOutcome := ⟨.OK, []⟩

/-- A check that throws when its status is not OK; otherwise the hook goes on. -/
def check (e : Effect) (st : Status) (next : HookOutcome) : HookOutcome :=
  match st with
  | .OK => ⟨next.status, e :: next.effects⟩
  | .error c r => ⟨.error c r, [e]⟩

/-- The function `assertIntersectingChunkHasNotMoved`. -/
def assertIntersectingChunkHasNotMoved (metadata : CollectionMetadata) (shardKey : BSONObj)
    (atClusterTime : Timestamp) : Status :=
  let cmAtTimeOfWrite := ChunkManager.makeAtTime metadata.chunkManager atClusterTime
  match cmAtTimeOfWrite.findIntersectingChunkWithSimpleCollation shardKey with
  | .error st => st
  | .ok chunk => chunk.throwIfMoved cmAtTimeOfWrite.clusterTime

/-- The function `assertNoMovePrimaryInProgress`. -/
def assertNoMovePrimaryInProgress (opCtx : OperationContext) (nss : NamespaceString) :
    HookOutcome :=
  if !opCtx.isNormalCollection nss && nss.coll != "system.views" &&
      !opCtx.isTimeseriesBucketsCollection nss then
    done
  else if opCtx.isMovePrimaryInProgress nss.dbName then
    ⟨.error ErrorCodes.MovePrimaryInProgress "movePrimary is in progress for namespace",
      [.isMovePrimaryInProgress nss.dbName]⟩
  else ⟨.OK, [.isMovePrimaryInProgress nss.dbName]⟩

/-- The test `!metadata || !metadata->isSharded()`. -/
def notSharded (metadata : Option CollectionMetadata) : Bool :=
  match metadata with
  | none => true
  | some m => !m.isSharded

/-- The flag `inMultiDocumentTransaction` of the hooks. -/
def inMultiDocumentTransaction (opCtx : OperationContext) : Bool :=
  opCtx.txnParticipant && opCtx.writesAreReplicated && opCtx.transactionIsOpen

/-- The validation made inside a multi-document transaction: with a snapshot timestamp,
the shard key is extracted and the chunk must not have moved. -/
def validateAtClusterTime (opCtx : OperationContext) (metadata : CollectionMetadata)
    (extracted : Except Status BSONObj) : HookOutcome :=
  match opCtx.argsAtClusterTime with
  | none => done
  | some atClusterTime =>
    match extracted with
    | .error st => ⟨st, []⟩
    | .ok shardKey =>
      check (.assertIntersectingChunkHasNotMoved shardKey atClusterTime)
        (assertIntersectingChunkHasNotMoved metadata shardKey atClusterTime) done

/-- The loop of `onInserts` over the batch, from position `index`.  An op time list
that is neither empty nor long enough is read out of bounds: the loop stops there with
an internal error. -/
def onInsertsLoop (opCtx : OperationContext) (csr : CollectionShardingRuntime)
    (metadata : CollectionMetadata) (inMultiDocumentTransaction : Bool)
    (opTimeList : List repl.OpTime) : List InsertStatement → Nat → HookOutcome
  | [], _ => done
  | it :: rest, index =>
    match (if opTimeList.isEmpty then some repl.OpTime.null else opTimeList[index]?) with
    | none => ⟨.error 1 "insertOpTimes read out of bounds", []⟩
    | some opTime =>
      if inMultiDocumentTransaction then
        validateAtClusterTime opCtx metadata (metadata.extractShardKeyFromDocThrows it.doc)
      else
        let next := onInsertsLoop opCtx csr metadata inMultiDocumentTransaction opTimeList rest
          (index + 1)
        match MigrationSourceManager.getCurrentCloner csr with
        | some cloner => ⟨next.status, .onInsertOp cloner it.doc opTime :: next.effects⟩
        | none => next

/-- The hook `onInserts`. -/
def onInserts (opCtx : OperationContext) (coll : CollectionPtr) (docs : List InsertStatement)
    (fromMigrate : List Bool) (defaultFromMigrate : Bool) (opAccumulator : OpStateAccumulator) :
    HookOutcome :=
  match opAccumulator.shardingWriteRouter with
  | none => done
  | some shardingWriteRouter =>
    if defaultFromMigrate then done
    else
      let nss := coll.ns
      if nss = NamespaceString.kSessionTransactionsTableNamespace then done
      else
        let css := shardingWriteRouter.getCss
        check (.checkShardVersionOrThrow nss) css.shardVersionCheck <|
        check (.assertMatchingDbVersion nss.dbName) (opCtx.dbVersionCheck nss.dbName) <|
        let csr := css
        match csr.getCurrentMetadataIfKnown with
        | none => assertNoMovePrimaryInProgress opCtx nss
        | some metadata =>
          if !metadata.isSharded then assertNoMovePrimaryInProgress opCtx nss
          else if inMultiDocumentTransaction opCtx && !opCtx.hasWriteUnitOfWork then done
          else
            onInsertsLoop opCtx csr metadata (inMultiDocumentTransaction opCtx)
              opAccumulator.insertOpTimes docs 0

/-- The hook `onUpdate`. -/
def onUpdate (opCtx : OperationContext) (args : OplogUpdateEntryArgs)
    (opAccumulator : OpStateAccumulator) : HookOutcome :=
  match opAccumulator.shardingWriteRouter with
  | none => done
  | some shardingWriteRouter =>
    if args.updateArgs.source = .kFromMigrate then done
    else if args.updateArgs.update.isEmpty then done
    else
      let nss := args.coll.ns
      if nss = NamespaceString.kSessionTransactionsTableNamespace then done
      else
        let preImageDoc := args.updateArgs.preImageDoc
        let postImageDoc := args.updateArgs.updatedDoc
        let css := shardingWriteRouter.getCss
        check (.checkShardVersionOrThrow nss) css.shardVersionCheck <|
        check (.assertMatchingDbVersion nss.dbName) (opCtx.dbVersionCheck nss.dbName) <|
        let csr := css
        match csr.getCurrentMetadataIfKnown with
        | none => assertNoMovePrimaryInProgress opCtx nss
        | some metadata =>
          if !metadata.isSharded then assertNoMovePrimaryInProgress opCtx nss
          else if inMultiDocumentTransaction opCtx then
            validateAtClusterTime opCtx metadata
              (metadata.extractShardKeyFromDocThrows postImageDoc)
          else
            match MigrationSourceManager.getCurrentCloner csr with
            | some cloner =>
                ⟨.OK, [.onUpdateOp cloner preImageDoc postImageDoc opAccumulator.writeOpTime]⟩
            | none => done

/-- The hook `aboutToDelete`: it stores whether the document is being migrated. -/
def aboutToDelete (opCtx : OperationContext) (coll : CollectionPtr) (docToDelete : BSONObj)
    (args : OplogDeleteEntryArgs) : OplogDeleteEntryArgs :=
  let nss := coll.ns
  { args with isMigrating := opCtx.isMigrating nss docToDelete }

/-- The lambda `getShardKeyAndId` of `onDelete`; a missing document key breaks its
invariant. -/
def getShardKeyAndId (args : OplogDeleteEntryArgs) : Except Status BSONObj :=
  match args.documentKey with
  | none => .error (.error 1 "invariant: document key is missing")
  | some optDocKey => .ok optDocKey.getShardKeyAndId

/-- The hook `onDelete`. -/
def onDelete (opCtx : OperationContext) (coll : CollectionPtr) (stmtId : StmtId)
    (args : OplogDeleteEntryArgs) (opAccumulator : OpStateAccumulator) : HookOutcome :=
  if args.fromMigrate then done
  else
    let nss := coll.ns
    if nss = NamespaceString.kSessionTransactionsTableNamespace then done
    else
      let shardingWriteRouter : ShardingWriteRouter := ⟨opCtx.collectionShardingState nss⟩
      let css := shardingWriteRouter.getCss
      check (.checkShardVersionOrThrow nss) css.shardVersionCheck <|
      check (.assertMatchingDbVersion nss.dbName) (opCtx.dbVersionCheck nss.dbName) <|
      let csr := css
      match csr.getCurrentMetadataIfKnown with
      | none => assertNoMovePrimaryInProgress opCtx nss
      | some metadata =>
        if !metadata.isSharded then assertNoMovePrimaryInProgress opCtx nss
        else if inMultiDocumentTransaction opCtx then
          match opCtx.argsAtClusterTime with
          | none => done
          | some _ =>
            match getShardKeyAndId args with
            | .error st => ⟨st, []⟩
            | .ok key =>
              validateAtClusterTime opCtx metadata
                (metadata.extractShardKeyFromDocumentKeyThrows key)
        else
          match MigrationSourceManager.getCurrentCloner csr with
          | some cloner =>
            if args.isMigrating then
              match getShardKeyAndId args with
              | .error st => ⟨st, []⟩
              | .ok key => ⟨.OK, [.onDeleteOp cloner key opAccumulator.writeOpTime]⟩
            else done
          | none => done

/-! ### A concrete scenario: writes on the sharded collection `db.orders` -/

/-- The metadata of `db.orders`, sharded on `x`, with two chunks. -/
def ordersMetadata : CollectionMetadata :=
  { isSharded := true
    chunkManager := { chunks := [⟨[("x", 0)], [("x", 10)], "shard0", 3⟩,
                                  ⟨[("x", 10)], [("x", 20)], "shard1", 5⟩],
                      clusterTime := none }
    extractShardKeyFromDocThrows := fun doc => .ok (doc.filter (fun f => f.1 == "x"))
    extractShardKeyFromDocumentKeyThrows := fun key => .ok (key.filter (fun f => f.1 == "x")) }

/-- The active cloner of the migration of `db.orders`. -/
def ordersCloner : MigrationChunkClonerSource := ⟨1⟩

/-- The sharding runtime of `db.orders`: version check passing, sharded, cloner active. -/
def ordersCsr : CollectionShardingRuntime :=
  { shardVersionCheck := .OK, currentMetadataIfKnown := some ordersMetadata,
    currentCloner := some ordersCloner }

/-- The same runtime for an operation that carries a stale shard version. -/
def staleOrdersCsr : CollectionShardingRuntime :=
  { ordersCsr with shardVersionCheck := .error ErrorCodes.StaleConfig "stale shard version" }

/-- The runtime of an unsharded collection on which a cloner is nevertheless set. -/
def unshardedCsr : CollectionShardingRuntime :=
  { shardVersionCheck := .OK, currentMetadataIfKnown := none, currentCloner := some ordersCloner }

/-- An operation outside of any multi-document transaction. -/
def plainOpCtx : OperationContext :=
  { writesAreReplicated := true, txnParticipant := false, transactionIsOpen := false,
    hasWriteUnitOfWork := true, argsAtClusterTime := none,
    collectionShardingState := fun _ => ordersCsr,
    dbVersionCheck := fun _ => .OK,
    isMovePrimaryInProgress := fun _ => false,
    isNormalCollection := fun _ => true,
    isTimeseriesBucketsCollection := fun _ => false,
    isMigrating := fun _ _ => true }

/-- The same operation when every collection is unsharded. -/
def unshardedOpCtx : OperationContext :=
  { plainOpCtx with collectionShardingState := fun _ => unshardedCsr }

/-- The collection `db.orders`. -/
def ordersCollPtr : CollectionPtr := ⟨⟨"db", "orders"⟩⟩

/-- A batch of two documents. -/
def ordersBatch : List InsertStatement := [⟨0, [("x", 4), ("_id", 1)]⟩, ⟨1, [("x", 12), ("_id", 2)]⟩]

/-- The accumulator after `OpObserverImpl` attached the router and two op times. -/
def ordersAccumulator : OpStateAccumulator :=
  { shardingWriteRouter := some ⟨ordersCsr⟩, insertOpTimes := [⟨100, 1⟩, ⟨101, 1⟩],
    writeOpTime := ⟨101, 1⟩ }

/-- An accumulator to which no router was attached. -/
def bareAccumulator : OpStateAccumulator :=
  { ordersAccumulator with shardingWriteRouter := none }

/-- An accumulator whose router sees a stale shard version. -/
def staleAccumulator : OpStateAccumulator :=
  { ordersAccumulator with shardingWriteRouter := some ⟨staleOrdersCsr⟩ }

/-- An accumulator whose router sees an unsharded collection. -/
def unshardedAccumulator : OpStateAccumulator :=
  { ordersAccumulator with shardingWriteRouter := some ⟨unshardedCsr⟩ }

/-- An update that changes `y` from 1 to 2. -/
def ordersUpdate : OplogUpdateEntryArgs :=
  { updateArgs := { source := .kStandard, update := [("y", 2)],
                    preImageDoc := [("x", 4), ("_id", 1), ("y", 1)],
                    updatedDoc := [("x", 4), ("_id", 1), ("y", 2)] },
    coll := ordersCollPtr }

/-- An update whose update document is empty. -/
def emptyUpdate : OplogUpdateEntryArgs :=
  { ordersUpdate with updateArgs := { ordersUpdate.updateArgs with update := [] } }

/-- A delete of a document that is being migrated. -/
def ordersDelete : OplogDeleteEntryArgs :=
  { fromMigrate := false, isMigrating := true, documentKey := some ⟨[("x", 4), ("_id", 1)]⟩ }

/-- An operation that carries a stale shard version for every collection. -/
def staleOpCtx : OperationContext :=
  { plainOpCtx with collectionShardingState := fun _ => staleOrdersCsr }

/-- A delete of a document that is not being migrated. -/
def idleDelete : OplogDeleteEntryArgs :=
  { fromMigrate := false, isMigrating := false, documentKey := some ⟨[("x", 4), ("_id", 1)]⟩ }

/-- An operation inside an open multi-document transaction that reads at cluster time 4. -/
def txnOpCtx : OperationContext :=
  { plainOpCtx with txnParticipant := true, transactionIsOpen := true,
                    argsAtClusterTime := some 4, logicalSessionId := some 9 }

/-- The same operation when the database of the collection is being moved and every
collection is unsharded. -/
def movePrimaryOpCtx : OperationContext :=
  { unshardedOpCtx with isMovePrimaryInProgress := fun _ => true }

/-- An operation for which the database version check fails. -/
def staleDbOpCtx : OperationContext :=
  { plainOpCtx with
    dbVersionCheck := fun _ => .error ErrorCodes.StaleDbVersion "stale database version" }

/-! ### The hand-off at commit and at prepare -/

/-- An operation of a transaction (`repl::ReplOperation`). -/
structure ReplOperation where
  opType : String
  nss : NamespaceString
  object : BSONObj
  deriving DecidableEq, Repr

/-- The operations of a transaction. -/
structure TransactionOperations where
  operations : List ReplOperation
  deriving DecidableEq, Repr

def TransactionOperations.getOperationsForOpObserver (t : TransactionOperations) :
    List ReplOperation := t.operations

/-- The deferred handler `LogTransactionOperationsForShardingHandler`: the session id, the
operations and the op time it was built with. -/
structure LogTransactionOperationsForShardingHandler where
  lsid : LogicalSessionId
  stmts : List ReplOperation
  prepareOrCommitOpTime : repl.OpTime
  deriving DecidableEq, Repr

/-- The course of a commit or prepare hook: its status and the changes it registered on
the recovery unit, in order. -/
structure RegisterOutcome where
  status : Status
  registered : List LogTransactionOperationsForShardingHandler
  deriving DecidableEq, Repr

/-- The call `registerChange` with a handler built from the session id of the operation;
an operation without session id cannot build it. -/
def registerChange (opCtx : OperationContext) (stmts : List ReplOperation)
    (opTime : repl.OpTime) : RegisterOutcome :=
  match opCtx.logicalSessionId with
  | none => ⟨.error ErrorCodes.InternalError "the operation has no logical session id", []⟩
  | some lsid => ⟨.OK, [⟨lsid, stmts, opTime⟩]⟩

/-- The hook `onUnpreparedTransactionCommit`. -/
def onUnpreparedTransactionCommit (opCtx : OperationContext)
    (transactionOperations : TransactionOperations) (opAccumulator : Option OpStateAccumulator) :
    RegisterOutcome :=
  if !opCtx.writesAreReplicated then ⟨.OK, []⟩
  else
    let statements := transactionOperations.getOperationsForOpObserver
    if statements.isEmpty then ⟨.OK, []⟩
    else
      match opAccumulator with
      | none => ⟨.OK, []⟩
      | some acc =>
        let commitOpTime := acc.writeOpTime
        if commitOpTime.isNull then
          ⟨.error ErrorCodes.InternalError "invariant: commit op time is null", []⟩
        else registerChange opCtx statements commitOpTime

/-- The hook `onTransactionPrepare`. -/
def onTransactionPrepare (opCtx : OperationContext) (reservedSlots : List repl.OpTime)
    (transactionOperations : TransactionOperations) (numberOfPrePostImagesToWrite : Nat)
    (wallClockTime : Nat) : RegisterOutcome :=
  if !opCtx.writesAreReplicated then ⟨.OK, []⟩
  else
    match reservedSlots.getLast? with
    | none => ⟨.OK, []⟩
    | some prepareOpTime =>
      if prepareOpTime.isNull then
        ⟨.error ErrorCodes.InternalError "invariant: prepare op time is null", []⟩
      else
        let statements := transactionOperations.getOperationsForOpObserver
        registerChange opCtx statements prepareOpTime

/-- The operations of a transaction on `db.orders`: an insert, an update, a delete. -/
def ordersTxnOps : TransactionOperations :=
  ⟨[⟨"i", ⟨"db", "orders"⟩, [("x", 4), ("_id", 1)]⟩, ⟨"u", ⟨"db", "orders"⟩, [("x", 4), ("y", 2)]⟩,
    ⟨"d", ⟨"db", "orders"⟩, [("x", 12), ("_id", 2)]⟩]⟩

end MigrationChunkClonerSourceOpObserver

/-! ## More helpers of `sharding_ddl_util` -/

namespace sharding_ddl_util

/-- The text of a namespace in error messages. -/
def toStringForErrorMsg (nss : NamespaceString) : String := nss.db ++ "." ++ nss.coll

/-- The command `_configsvrSetAllowMigrations` as it is sent to the config server. -/
structure ConfigsvrSetAllowMigrations where
  nss : NamespaceString
  allowMigrations : Bool
  collectionUUID : Option UUID
  osi : Option OperationSessionInfo
  writeConcern : WriteConcernOptions
  deriving DecidableEq, Repr

/-- The course of `setAllowMigrations`: its status and the commands it sent. -/
structure SetAllowMigrationsOutcome where
  status : Status
  sent : List ConfigsvrSetAllowMigrations
  deriving DecidableEq, Repr

/-- The macro `uassertStatusOKWithContext`: the context is put in front of the reason, the
code is kept. -/
def withContext (st : Status) (context : String) : Status :=
  match st with
  | .OK => .OK
  | .error c r => .error c (context ++ " :: caused by :: " ++ r)

/-- The function `setAllowMigrations`; `configsvr` gives the effective status of the
response of the config server to the command. -/
def setAllowMigrations (configsvr : ConfigsvrSetAllowMigrations → Status)
    (nss : NamespaceString) (expectedCollectionUUID : Option UUID)
    (osi : Option OperationSessionInfo) (allowMigrations : Bool) : SetAllowMigrationsOutcome :=
  let configsvrSetAllowMigrationsCmd : ConfigsvrSetAllowMigrations :=
    { nss := nss, allowMigrations := allowMigrations, collectionUUID := expectedCollectionUUID,
      osi := osi, writeConcern := kMajorityWriteConcern }
  let swSetAllowMigrationsResult := configsvr configsvrSetAllowMigrationsCmd
  match withContext swSetAllowMigrationsResult
      ("Error setting allowMigrations to " ++ (if allowMigrations then "1" else "0") ++
        " for collection " ++ toStringForErrorMsg nss) with
  | .OK => ⟨.OK, [configsvrSetAllowMigrationsCmd]⟩
  | .error c r =>
    if c = ErrorCodes.NamespaceNotSharded then ⟨.OK, [configsvrSetAllowMigrationsCmd]⟩
    else if c = ErrorCodes.ConflictingOperationInProgress then
      ⟨.OK, [configsvrSetAllowMigrationsCmd]⟩
    else ⟨.error c r, [configsvrSetAllowMigrationsCmd]⟩

/-- The function `stopMigrations`. -/
def stopMigrations (configsvr : ConfigsvrSetAllowMigrations → Status) (nss : NamespaceString)
    (expectedCollectionUUID : Option UUID) (osi : Option OperationSessionInfo) :
    SetAllowMigrationsOutcome :=
  setAllowMigrations configsvr nss expectedCollectionUUID osi false

/-- The function `resumeMigrations`. -/
def resumeMigrations (configsvr : ConfigsvrSetAllowMigrations → Status) (nss : NamespaceString)
    (expectedCollectionUUID : Option UUID) (osi : Option OperationSessionInfo) :
    SetAllowMigrationsOutcome :=
  setAllowMigrations configsvr nss expectedCollectionUUID osi true

/-- A config server that answers `NamespaceNotSharded` to every command. -/
def notShardedConfigsvr : ConfigsvrSetAllowMigrations → Status :=
  fun _ => .error ErrorCodes.NamespaceNotSharded "collection is not sharded"

/-- A config server that cannot be reached. -/
def unreachableConfigsvr : ConfigsvrSetAllowMigrations → Status :=
  fun _ => .error 6 "host unreachable"

/-- An entry of the `firstBatch` of a `listCollections` response. -/
structure ListCollectionsEntry where
  name : String
  uuid : UUID
  deriving DecidableEq, Repr

/-- The response of one shard (`AsyncRequestsSender::Response`): the shard and either a
failure or the `firstBatch` of its reply. -/
structure AsyncResponse where
  shardId : ShardId
  swResponse : Except Status (List ListCollectionsEntry)

/-- The local struct `MismatchedShard`. -/
structure MismatchedShard where
  shardId : String
  uuid : String
  deriving DecidableEq, Repr

/-- The message built from the mismatches by `checkCollectionUUIDConsistencyAcrossShards`;
the text of a uuid is a parameter. -/
def mismatchMessage (uuidToString : UUID → String) (nss : NamespaceString)
    (collectionUuid : UUID) (mismatches : List MismatchedShard) : String :=
  "The collection " ++ toStringForErrorMsg nss ++ " with expected UUID: " ++
    uuidToString collectionUuid ++ " has different UUIDs on the following shards: [" ++
    String.join (mismatches.map (fun mismatch =>
      "\x7b " ++ mismatch.shardId ++ ":" ++ mismatch.uuid ++ " \x7d,")) ++ "]"

/-- The first loop of `checkCollectionUUIDConsistencyAcrossShards` over the responses: a
failed response is thrown, an empty collection list is skipped, a first entry with another
uuid is appended to the mismatches. -/
def collectMismatches (uuidToString : UUID → String) (collectionUuid : UUID) :
    List AsyncResponse → List MismatchedShard → Except Status (List MismatchedShard)
  | [], mismatches => .ok mismatches
  | cmdResponse :: rest, mismatches =>
    match cmdResponse.swResponse with
    | .error st => .error st
    | .ok collectionVector =>
      match collectionVector with
      | [] => collectMismatches uuidToString collectionUuid rest mismatches
      | front :: _ =>
        if collectionUuid ≠ front.uuid then
          collectMismatches uuidToString collectionUuid rest
            (mismatches ++ [⟨cmdResponse.shardId, uuidToString front.uuid⟩])
        else collectMismatches uuidToString collectionUuid rest mismatches

/-- The function `checkCollectionUUIDConsistencyAcrossShards`; `responses` is what
`sendAuthenticatedCommandToShards` returned for the `listCollections` command. -/
def checkCollectionUUIDConsistencyAcrossShards (uuidToString : UUID → String)
    (nss : NamespaceString) (collectionUuid : UUID) (responses : List AsyncResponse) : Status :=
  match collectMismatches uuidToString collectionUuid responses [] with
  | .error st => st
  | .ok mismatches =>
    if !mismatches.isEmpty then
      .error ErrorCodes.InvalidUUID (mismatchMessage uuidToString nss collectionUuid mismatches)
    else .OK

/-- The shards whose reply is a non-empty collection list with a first entry of another
uuid than the expected one, in response order, following the words of the
specification. -/
def mismatchingShards (uuidToString : UUID → String) (collectionUuid : UUID)
    (responses : List AsyncResponse) : List MismatchedShard :=
  responses.filterMap (fun r =>
    match r.swResponse with
    | .ok (front :: _) =>
        if front.uuid ≠ collectionUuid then some ⟨r.shardId, uuidToString front.uuid⟩ else none
    | _ => none)

/-- Whether every response is a successful one. -/
def allSuccessful (responses : List AsyncResponse) : Prop :=
  ∀ r ∈ responses, ∃ batch, r.swResponse = .ok batch

/-- Three replies for `db.orders` (uuid 7): one shard agrees, one does not have the
collection, one has it under uuid 9. -/
def ordersResponses : List AsyncResponse :=
  [⟨"shard0", .ok [⟨"orders", 7⟩]⟩, ⟨"shard1", .ok []⟩, ⟨"shard2", .ok [⟨"orders", 9⟩]⟩]

/-- A text for uuids used in the examples. -/
def exampleUuidText : UUID → String := fun u => if u = 7 then "uuid7" else "uuid9"

/-! ### Rename preconditions -/

/-- The message of `checkTargetCollectionDoesNotExistInCluster`; every shard id is followed
by `", "` (the `ostream_iterator` delimiter). -/
def targetExistsMessage (toNss : NamespaceString)
    (shardsContainingTargetCollection : List String) : String :=
  "The collection " ++ toStringForErrorMsg toNss ++ " already exists in the following shards: ["
    ++ String.join (shardsContainingTargetCollection.map (fun shardId => shardId ++ ", "))
    ++ "]"

/-- The loop of `checkTargetCollectionDoesNotExistInCluster` over the responses: a failed
response is thrown, the shard of a non-empty collection list is appended. -/
def collectShardsContainingTarget :
    List AsyncResponse → List String → Except Status (List String)
  | [], shardsContainingTargetCollection => .ok shardsContainingTargetCollection
  | cmdResponse :: rest, shardsContainingTargetCollection =>
    match cmdResponse.swResponse with
    | .error st => .error st
    | .ok collectionVector =>
      if !collectionVector.isEmpty then
        collectShardsContainingTarget rest
          (shardsContainingTargetCollection ++ [cmdResponse.shardId])
      else collectShardsContainingTarget rest shardsContainingTargetCollection

/-- The function `checkTargetCollectionDoesNotExistInCluster`; `responses` is what
`sendAuthenticatedCommandToShards` returned for the `listCollections` command filtered on
the name of the target. -/
def checkTargetCollectionDoesNotExistInCluster (toNss : NamespaceString)
    (responses : List AsyncResponse) : Status :=
  match collectShardsContainingTarget responses [] with
  | .error st => st
  | .ok shardsContainingTargetCollection =>
    if !shardsContainingTargetCollection.isEmpty then
      .error ErrorCodes.NamespaceExists
        (targetExistsMessage toNss shardsContainingTargetCollection)
    else .OK

/-- The function `checkCatalogConsistencyAcrossShardsForRename`. `sourceCollUuid` is the
result of `getCollectionUUID` on the source (dereferenced without a test by the code: an
absent value is an internal error here), `sourceResponses` and `targetResponses` are the
replies of the shards to the two `listCollections` commands. -/
def checkCatalogConsistencyAcrossShardsForRename (uuidToString : UUID → String)
    (fromNss toNss : NamespaceString) (dropTarget : Bool) (sourceCollUuid : Option UUID)
    (sourceResponses targetResponses : List AsyncResponse) : Status :=
  match sourceCollUuid with
  | none => .error ErrorCodes.InternalError "source collection has no uuid"
  | some uuid =>
    match checkCollectionUUIDConsistencyAcrossShards uuidToString fromNss uuid
        sourceResponses with
    | .error c r => .error c r
    | .OK =>
      if !dropTarget then checkTargetCollectionDoesNotExistInCluster toNss targetResponses
      else .OK

/-- The shards whose reply for the target name is a non-empty collection list, in response
order, following the words of the specification. -/
def shardsWithTarget (responses : List AsyncResponse) : List String :=
  responses.filterMap (fun r =>
    match r.swResponse with
    | .ok (_ :: _) => some r.shardId
    | _ => none)

/-- Replies for the target `db.archive`: only the second shard has it. -/
def archiveResponses : List AsyncResponse :=
  [⟨"shard0", .ok []⟩, ⟨"shard1", .ok [⟨"archive", 11⟩]⟩, ⟨"shard2", .ok []⟩]

/-- Replies of shards that all agree on uuid 7 for the source. -/
def agreeingResponses : List AsyncResponse :=
  [⟨"shard0", .ok [⟨"orders", 7⟩]⟩, ⟨"shard1", .ok []⟩, ⟨"shard2", .ok [⟨"orders", 7⟩]⟩]

/-- The size of a namespace (`NamespaceString::size`): the number of bytes of `db.coll`. -/
def NamespaceString_size (nss : NamespaceString) : Nat :=
  (toStringForErrorMsg nss).utf8ByteSize

/-- A document of `config.tags`. -/
structure TagsType where
  nss : NamespaceString
  tag : String
  deriving DecidableEq, Repr

/-- What `checkRenamePreconditions` reads from its surroundings: the constant
`NamespaceString::MaxNsShardedCollectionLen`, the sharded-catalog lookup
`catalogClient->getCollection` (which throws on failure), the local lookup
`lookupCollectionByNamespace` and `catalogClient->getTagsForCollection`; a failure is
given by its error code and reason. -/
structure RenameEnvironment where
  MaxNsShardedCollectionLen : Nat
  getCollection : NamespaceString → Except (Nat × String) CollectionType
  lookupCollectionByNamespace : NamespaceString → Option UUID
  getTagsForCollection : NamespaceString → Except (Nat × String) (List TagsType)

/-- The `try`/`catch` block of `checkRenamePreconditions`: the `uasserted` of a successful
lookup is thrown inside the `try`, so it passes through the same `catch` as a failure of
the lookup; `none` when the block completes. -/
def checkShardedTargetDoesNotExist (env : RenameEnvironment) (toNss : NamespaceString) :
    Option Status :=
  let ex : Nat × String :=
    match env.getCollection toNss with
    | .ok _ =>
      (ErrorCodes.NamespaceExists,
        "Sharded target collection " ++ toStringForErrorMsg toNss ++
          " exists but dropTarget is not set")
    | .error ex => ex
  let code := ex.1
  if code ≠ ErrorCodes.NamespaceNotFound ∧ code ≠ ErrorCodes.NamespaceNotSharded then
    some (.error code ex.2)
  else none

/-- The check of the tags at the end of `checkRenamePreconditions`. -/
def checkNoTags (env : RenameEnvironment) (toNss : NamespaceString) : Status :=
  match env.getTagsForCollection toNss with
  | .error st => .error st.1 st.2
  | .ok tags =>
    if tags.isEmpty then .OK
    else .error ErrorCodes.CommandFailed
      ("Can't rename to target collection " ++ toStringForErrorMsg toNss ++
        " because it must not have associated tags")

/-- The function `checkRenamePreconditions`. -/
def checkRenamePreconditions (env : RenameEnvironment) (sourceIsSharded : Bool)
    (toNss : NamespaceString) (dropTarget : Bool) : Status :=
  if sourceIsSharded ∧ ¬ NamespaceString_size toNss ≤ env.MaxNsShardedCollectionLen then
    .error ErrorCodes.InvalidNamespace
      ("Namespace of target collection too long. Namespace: " ++ toStringForErrorMsg toNss ++
        " Max: " ++ toString env.MaxNsShardedCollectionLen)
  else if !dropTarget then
    match checkShardedTargetDoesNotExist env toNss with
    | some st => st
    | none =>
      let targetColl := env.lookupCollectionByNamespace toNss
      if targetColl.isSome then
        .error ErrorCodes.NamespaceExists
          ("Target collection " ++ toStringForErrorMsg toNss ++
            " exists but dropTarget is not set")
      else checkNoTags env toNss
  else checkNoTags env toNss

/-- An environment in which the target exists nowhere and has no tags. -/
def freeTargetEnvironment : RenameEnvironment :=
  { MaxNsShardedCollectionLen := 235
    getCollection := fun _ => .error (ErrorCodes.NamespaceNotFound, "collection not found")
    lookupCollectionByNamespace := fun _ => none
    getTagsForCollection := fun _ => .ok [] }

/-- An environment in which the lookup of the tags fails. -/
def tagsUnreachableEnvironment : RenameEnvironment :=
  { freeTargetEnvironment with
    getTagsForCollection := fun _ => .error (6, "host unreachable") }

/-! ### Already sharded collections -/

/-- What `checkIfCollectionAlreadySharded` reads from the routing table (`cri.cm`). -/
structure RoutingTable where
  isSharded : Bool
  getShardKeyPattern : BSONObj
  getDefaultCollator : Option BSONObj
  isUnique : Bool
  getUUID : UUID
  deriving DecidableEq, Repr

/-- The routing information of a collection (`CollectionRoutingInfo`). -/
structure CollectionRoutingInfo where
  cm : RoutingTable
  getCollectionVersion : Nat
  deriving DecidableEq, Repr

/-- The response `CreateCollectionResponse`. -/
structure CreateCollectionResponse where
  collectionVersion : Nat
  collectionUUID : Option UUID
  deriving DecidableEq, Repr

/-- The function `checkIfCollectionAlreadySharded`, from the routing information that
`getCollectionRoutingInfoWithRefresh` returned. -/
def checkIfCollectionAlreadySharded (cri : CollectionRoutingInfo) (nss : NamespaceString)
    (key : BSONObj) (collation : BSONObj) (unique : Bool) :
    Except Status (Option CreateCollectionResponse) :=
  let cm := cri.cm
  if !cm.isSharded then .ok none
  else
    let defaultCollator : BSONObj :=
      match cm.getDefaultCollator with
      | some spec => spec
      | none => []
    if ¬ (cm.getShardKeyPattern = key ∧ defaultCollator = collation ∧ cm.isUnique = unique) then
      .error (.error ErrorCodes.AlreadyInitialized
        ("sharding already enabled for collection " ++ toStringForErrorMsg nss))
    else
      let response : CreateCollectionResponse := ⟨cri.getCollectionVersion, none⟩
      .ok (some { response with collectionUUID := some cm.getUUID })

/-- Routing information of `db.orders`, sharded on `x` without a default collator. -/
def ordersRoutingInfo : CollectionRoutingInfo :=
  ⟨⟨true, [("x", 1)], none, false, 7⟩, 3⟩

/-! ### Commands with majority write concern -/

/-- A command as it is sent to the config server or to the shards: its name, the namespace
it is about, and the fields the helpers of this file set on it. -/
structure CommandObj where
  commandName : String
  dbName : DatabaseName
  nss : NamespaceString
  q : BSONObj := []
  multi : Bool := false
  fromMigrate : Option Bool := none
  osi : Option OperationSessionInfo := none
  writeConcern : Option WriteConcernOptions := none
  deriving DecidableEq, Repr

/-- Modelled from the spec: `CommandHelpers::appendMajorityWriteConcern` ("all
administrative writes to the catalog request majority durability"): the write concern of
the command becomes `majority`, the timeout of a write concern already on the command is
kept. -/
def appendMajorityWriteConcern (cmdObj : CommandObj) : CommandObj :=
  match cmdObj.writeConcern with
  | some wc => { cmdObj with writeConcern := some { wc with w := "majority" } }
  | none => { cmdObj with writeConcern := some kMajorityWriteConcern }

/-- The course of a helper that sends commands: its status and the commands it sent. -/
structure CommandOutcome where
  status : Status
  sent : List CommandObj
  deriving DecidableEq, Repr

/-- The function `removeTagsMetadataFromConfig`; `configsvr` gives the effective status of
the response of the config server. -/
def removeTagsMetadataFromConfig (configsvr : CommandObj → Status) (nss : NamespaceString)
    (osi : OperationSessionInfo) : CommandOutcome :=
  let configsvrRemoveTagsCmd : CommandObj :=
    { commandName := "_configsvrRemoveTags", dbName := "admin", nss := nss }
  let cmdObj := appendMajorityWriteConcern { configsvrRemoveTagsCmd with osi := some osi }
  let swRemoveTagsResult := configsvr cmdObj
  ⟨withContext swRemoveTagsResult
      ("Error removing tags for collection " ++ toStringForErrorMsg nss), [cmdObj]⟩

/-- The namespace `NamespaceString::kConfigQueryAnalyzersNamespace`. -/
def kConfigQueryAnalyzersNamespace : NamespaceString := ⟨"config", "queryAnalyzers"⟩

/-- The function `removeQueryAnalyzerMetadataFromConfig`; `filterText` is the text of the
filter in the error message. -/
def removeQueryAnalyzerMetadataFromConfig (configsvr : CommandObj → Status)
    (filterText : BSONObj → String) (filter : BSONObj) : CommandOutcome :=
  let deleteCmd : CommandObj :=
    { commandName := "delete", dbName := "config", nss := kConfigQueryAnalyzersNamespace,
      q := filter, multi := true }
  let cmdObj := appendMajorityWriteConcern deleteCmd
  let deleteResult := configsvr cmdObj
  ⟨withContext deleteResult
      ("Failed to remove query analyzer documents that match the filter" ++ filterText filter),
    [cmdObj]⟩

/-- The function `sendDropCollectionParticipantCommandToShards`: the command goes to every
shard of `shardIds`; the log holds the shard together with the command. -/
def sendDropCollectionParticipantCommandToShards (nss : NamespaceString)
    (shardIds : List ShardId) (osi : OperationSessionInfo) (fromMigrate : Bool) :
    List (ShardId × CommandObj) :=
  let dropCollectionParticipant : CommandObj :=
    { commandName := "_shardsvrDropCollectionParticipant", dbName := nss.db, nss := nss,
      fromMigrate := some fromMigrate }
  let cmdObj := appendMajorityWriteConcern dropCollectionParticipant
  shardIds.map (fun shardId => (shardId, { cmdObj with osi := some osi }))

/-- Whether a write concern asks for majority. -/
def isMajority (wc : WriteConcernOptions) : Prop := wc.w = "majority"

instance (wc : WriteConcernOptions) : Decidable (isMajority wc) := by
  unfold isMajority; infer_instance

/-- A write concern that is not majority. -/
def kLocalWriteConcern : WriteConcernOptions := ⟨"1", 0⟩

end sharding_ddl_util

/-! ### Serialization of an error status -/

/-- Modelled from the spec: the error code `OK`. -/
def ErrorCodes.OK : Nat := 0
/-- Modelled from the spec: the error code `NoSuchKey`. -/
def ErrorCodes.NoSuchKey : Nat := 4
/-- Modelled from the spec: the error code `TypeMismatch`. -/
def ErrorCodes.TypeMismatch : Nat := 14

/-- The values of the fields of a serialized status. -/
inductive BSONValue where
  | numberInt (n : Int)
  | string (s : String)
  deriving DecidableEq, Repr

/-- A BSON element holding an object: its field name and the fields of the object. -/
structure BSONElement where
  fieldName : String
  obj : List (String × BSONValue)
  deriving DecidableEq, Repr

/-- The constant `kSerializedErrorStatusMaxSize`. -/
def kSerializedErrorStatusMaxSize : Nat := 1024 * 2

/-- Modelled from the spec: the size in bytes of a BSON object (`objsize`; the BSON layer
is not under `src/`): four bytes of length, the elements, a closing byte; an element is
a type byte, its name with a closing byte, and a 32-bit number or a string with its
length and a closing byte. -/
def objsize (obj : List (String × BSONValue)) : Nat :=
  4 + (obj.map (fun field =>
    1 + field.1.utf8ByteSize + 1 +
      match field.2 with
      | .numberInt _ => 4
      | .string s => 4 + s.utf8ByteSize + 1)).sum + 1

/-- Modelled from the spec: `Status::serialize` and `Status::serializeErrorToBSON` (the
class `Status` is not under `src/`): the code, its name and the reason; `errorString`
gives the name of a code. -/
def Status.serialize (errorString : Nat → String) : Status → List (String × BSONValue)
  | .OK => [("code", .numberInt 0), ("codeName", .string (errorString 0))]
  | .error code reason =>
    [("code", .numberInt code), ("codeName", .string (errorString code)),
     ("errmsg", .string reason)]

/-- Modelled from the spec: `Status::toString`: the name of the code, then the reason. -/
def Status.toString (errorString : Nat → String) : Status → String
  | .OK => "OK"
  | .error code reason => errorString code ++ ": " ++ reason

/-- The longest prefix of whole characters that fits in `maxLen` bytes of UTF-8. -/
def UTF8SafeTruncationChars : List Char → Nat → List Char
  | [], _ => []
  | c :: cs, maxLen =>
    if c.utf8Size ≤ maxLen then c :: UTF8SafeTruncationChars cs (maxLen - c.utf8Size) else []

/-- Modelled from the spec: `str::UTF8SafeTruncation` (not under `src/`): the input cut to
at most `maxLen` bytes without splitting a character. -/
def UTF8SafeTruncation (input : String) (maxLen : Nat) : String :=
  String.mk (UTF8SafeTruncationChars input.data maxLen)

/-- The function `sharding_ddl_util_serializeErrorStatusToBSON`; the result is the element
appended to the builder. -/
def sharding_ddl_util_serializeErrorStatusToBSON (errorString : Nat → String)
    (status : Status) (fieldName : String) : Except Status BSONElement :=
  if ¬ !status.isOK then .error (.error 7418500 "Status must be an error")
  else
    let tmpBuilder := status.serialize errorString
    let isTruncatedSerialization : Bool :=
      match status with
      | .OK => false
      | .error code _ => code == ErrorCodes.TruncatedSerialization
    if !isTruncatedSerialization ∧ objsize tmpBuilder > kSerializedErrorStatusMaxSize then
      let statusStr := status.toString errorString
      let truncatedStatusStr := UTF8SafeTruncation statusStr kSerializedErrorStatusMaxSize
      let truncatedStatus : Status :=
        .error ErrorCodes.TruncatedSerialization truncatedStatusStr
      .ok ⟨fieldName, truncatedStatus.serialize errorString⟩
    else .ok ⟨fieldName, tmpBuilder⟩

/-- Modelled from the spec: `bsonExtractIntegerField`: the first field of that name, which
must be a number. -/
def bsonExtractIntegerField (obj : List (String × BSONValue)) (fieldName : String) :
    Except Status Int :=
  match obj.find? (fun field => field.1 == fieldName) with
  | none => .error (.error ErrorCodes.NoSuchKey ("Missing expected field " ++ fieldName))
  | some (_, .numberInt n) => .ok n
  | some (_, .string _) =>
    .error (.error ErrorCodes.TypeMismatch ("Expected a number in field " ++ fieldName))

/-- Modelled from the spec: `bsonExtractStringField`: the first field of that name, which
must be a string. -/
def bsonExtractStringField (obj : List (String × BSONValue)) (fieldName : String) :
    Except Status String :=
  match obj.find? (fun field => field.1 == fieldName) with
  | none => .error (.error ErrorCodes.NoSuchKey ("Missing expected field " ++ fieldName))
  | some (_, .string s) => .ok s
  | some (_, .numberInt _) =>
    .error (.error ErrorCodes.TypeMismatch ("Expected a string in field " ++ fieldName))

/-- The function `sharding_ddl_util_deserializeErrorStatusFromBSON`. -/
def sharding_ddl_util_deserializeErrorStatusFromBSON (bsonElem : BSONElement) :
    Except Status Status :=
  let bsonObj := bsonElem.obj
  match bsonExtractIntegerField bsonObj "code" with
  | .error st => .error st
  | .ok code =>
    if ¬ code ≠ (ErrorCodes.OK : Int) then .error (.error 7418501 "Status must be an error")
    else
      match bsonExtractStringField bsonObj "errmsg" with
      | .error st => .error st
      | .ok errmsg => .ok (.error code.toNat errmsg)

/-- Names for the codes used in the examples. -/
def exampleErrorString : Nat → String :=
  fun code => if code = ErrorCodes.TruncatedSerialization then "TruncatedSerialization"
    else "Location"


/-! ## Truncate markers of the pre-images collection -/

/-- A point in time (`Date_t`), in milliseconds. -/
abbrev Date_t := Int
/-- A record id of the pre-images collection, in key order. -/
abbrev RecordId := Nat
/-- A tenant id. -/
abbrev TenantId := Nat

/-- What `isExpired` reads from its surroundings: the current time for the removal of
pre-images, `expireAfterSeconds` of a tenant, the expiration time of pre-images for the
current time (absent when no `expireAfterSeconds` is configured), the timestamp of the
earliest oplog entry and the timestamp held in a record id. -/
structure PreImageContext where
  getCurrentTimeForPreImageRemoval : Date_t
  getExpireAfterSeconds : TenantId → Int
  getPreImageExpirationTime : Date_t → Option Date_t
  getEarliestOplogTimestamp : Timestamp
  getPreImageTimestamp : RecordId → Timestamp

/-- A truncate marker (`CollectionTruncateMarkers::Marker`). -/
structure Marker where
  records : Int
  bytes : Int
  lastRecord : RecordId
  wallTime : Date_t
  deriving DecidableEq, Repr

/-- The function `isExpired`; `Seconds` are turned into milliseconds. -/
def isExpired (opCtx : PreImageContext) (tenantId : Option TenantId)
    (highestRecordId : RecordId) (highestWallTime : Date_t) : Bool :=
  let currentTimeForTimeBasedExpiration := opCtx.getCurrentTimeForPreImageRemoval
  match tenantId with
  | some tenant =>
    let expireAfterSeconds := opCtx.getExpireAfterSeconds tenant
    let preImageExpirationTime := currentTimeForTimeBasedExpiration - 1000 * expireAfterSeconds
    decide (highestWallTime ≤ preImageExpirationTime)
  | none =>
    let preImageExpirationTime :=
      opCtx.getPreImageExpirationTime currentTimeForTimeBasedExpiration
    let expiredByTimeBasedExpiration : Bool :=
      match preImageExpirationTime with
      | some expirationTime => decide (highestWallTime ≤ expirationTime)
      | none => false
    let currentEarliestOplogEntryTs := opCtx.getEarliestOplogTimestamp
    let highestRecordTimestamp := opCtx.getPreImageTimestamp highestRecordId
    expiredByTimeBasedExpiration || decide (highestRecordTimestamp < currentEarliestOplogEntryTs)

/-- How the initial markers were made (`MarkersCreationMethod`). -/
inductive MarkersCreationMethod where
  | EmptyCollection
  | Scanning
  | Sampling
  deriving DecidableEq, Repr

/-- The struct `InitialSetOfMarkers`, without the time taken. -/
structure InitialSetOfMarkers where
  markers : List Marker
  leftoverRecordsCount : Int
  leftoverRecordsBytes : Int
  methodUsed : MarkersCreationMethod
  deriving DecidableEq, Repr

/-- The markers of one collection (`PreImagesTruncateMarkersPerNsUUID`). -/
structure PreImagesTruncateMarkersPerNsUUID where
  tenantId : Option TenantId
  markers : List Marker
  deriving DecidableEq, Repr

/-- The method `_hasExcessMarkers`. -/
def PreImagesTruncateMarkersPerNsUUID._hasExcessMarkers (opCtx : PreImageContext)
    (self : PreImagesTruncateMarkersPerNsUUID) : Bool :=
  match self.markers with
  | [] => false
  | oldestMarker :: _ =>
    isExpired opCtx self.tenantId oldestMarker.lastRecord oldestMarker.wallTime

/-- A record of the pre-images collection: its id, the size of its data and the operation
time of the pre-image. -/
structure Record where
  id : RecordId
  size : Nat
  operationTime : Date_t
  deriving DecidableEq, Repr

/-- The record store as its forward cursor walks it: the records in key order. -/
abbrev RecordStore := List Record

/-- The key order of a record store: strictly ascending ids. -/
def RecordStore.ordered (rs : RecordStore) : Prop := rs.Pairwise (fun a b => a.id < b.id)

/-- Modelled from the spec: `seekNear` of a forward cursor (the record store is not under
`src/`), after the comment in `createInitialMarkersScanning`: the cursor is left on the
record of that id or, when there is none, on the previous record (on the first record
when there is no previous one); the result is the record under the cursor followed by
those after it. -/
def seekNear : RecordStore → RecordId → List Record
  | [], _ => []
  | [record], _ => [record]
  | record :: following :: rest, target =>
    if following.id ≤ target then seekNear (following :: rest) target
    else record :: following :: rest

/-- The first loop of `createInitialMarkersScanning`: `next` while the record is below
`minRecordId`. -/
def skipBelow (minRecordId : RecordId) : List Record → List Record
  | [] => []
  | record :: rest =>
    if record.id < minRecordId then skipBelow minRecordId rest else record :: rest

/-- The second loop of `createInitialMarkersScanning`. -/
def scanRecords (minBytesPerMarker : Int) (maxRecordId : RecordId) :
    List Record → Int → Int → List Marker → InitialSetOfMarkers
  | [], currentRecords, currentBytes, markers =>
    ⟨markers, currentRecords, currentBytes, .Scanning⟩
  | record :: rest, currentRecords, currentBytes, markers =>
    if record.id < maxRecordId then
      let currentRecords := currentRecords + 1
      let currentBytes := currentBytes + record.size
      if currentBytes ≥ minBytesPerMarker then
        scanRecords minBytesPerMarker maxRecordId rest 0 0
          (markers ++ [⟨currentRecords, currentBytes, record.id, record.operationTime⟩])
      else scanRecords minBytesPerMarker maxRecordId rest currentRecords currentBytes markers
    else ⟨markers, currentRecords, currentBytes, .Scanning⟩

/-- The function `createInitialMarkersScanning`; `minRecordId` and `maxRecordId` are the
absolute bounds of the record ids of the collection `nsUUID`. -/
def createInitialMarkersScanning (rs : RecordStore) (minRecordId maxRecordId : RecordId)
    (minBytesPerMarker : Int) : InitialSetOfMarkers :=
  let record := skipBelow minRecordId (seekNear rs minRecordId)
  match record with
  | [] => ⟨[], 0, 0, .EmptyCollection⟩
  | first :: _ =>
    if first.id > maxRecordId then ⟨[], 0, 0, .EmptyCollection⟩
    else scanRecords minBytesPerMarker maxRecordId record 0 0 []

/-- The records a scan has to account for: those with an id in
`[minRecordId, maxRecordId)`. -/
def scannedRecords (rs : RecordStore) (minRecordId maxRecordId : RecordId) : List Record :=
  rs.filter (fun record => decide (minRecordId ≤ record.id ∧ record.id < maxRecordId))

/-- The bytes of a list of records. -/
def totalSize (records : List Record) : Int := (records.map (fun r => (r.size : Int))).sum

/-- The marker closed by a record after the records `pending` since the last marker: the
number and the bytes of the records of the segment, the id and the time of the closing
record. -/
def markerClosedBy (segment : List Record × Record) : Marker :=
  ⟨segment.1.length + 1, totalSize segment.1 + segment.2.size,
    segment.2.id, segment.2.operationTime⟩

/-- The records of a segment: the pending ones, then the closing one. -/
def segmentRecords (segment : List Record × Record) : List Record := segment.1 ++ [segment.2]

/-- A store with records of two collections; the ids 10 to 19 belong to the first. -/
def exampleStore : RecordStore :=
  [⟨3, 40, 100⟩, ⟨10, 60, 110⟩, ⟨12, 50, 120⟩, ⟨15, 30, 130⟩, ⟨17, 20, 140⟩, ⟨25, 70, 150⟩]

/-- A context without tenant-independent expiration time, whose oplog starts at 50. -/
def exampleContext : PreImageContext :=
  { getCurrentTimeForPreImageRemoval := 100000
    getExpireAfterSeconds := fun _ => 60
    getPreImageExpirationTime := fun _ => none
    getEarliestOplogTimestamp := 50
    getPreImageTimestamp := fun rid => rid }

/-! ## The window function `$addToSet` -/

namespace WindowFunctionAddToSet

/-- A value; the comparator of the expression context is the order of the integers. -/
abbrev Value := Int

/-- The state of `WindowFunctionAddToSet`: the ordered multiset `_values`, as the list of
its elements in comparator order, and the memory counter. -/
structure State where
  _values : List Value
  _memUsageBytes : Int
  deriving DecidableEq, Repr

/-- The value `kDefault`: the empty array. -/
def kDefault : List Value := []

/-- The insertion of an ordered multiset: before the first greater element. -/
def multisetInsert (value : Value) : List Value → List Value
  | [] => [value]
  | front :: rest =>
    if value < front then value :: front :: rest else front :: multisetInsert value rest

/-- The constructor: no value; `sizeofThis` is `sizeof(*this)`. -/
def create (sizeofThis : Int) : State := ⟨[], sizeofThis⟩

/-- The method `add`. -/
def add (getApproximateSize : Value → Int) (self : State) (value : Value) : State :=
  { _memUsageBytes := self._memUsageBytes + getApproximateSize value
    _values := multisetInsert value self._values }

/-- The method `remove`: `find`, the assertion 5423800, then `erase` of the element
found. -/
def remove (getApproximateSize : Value → Int) (self : State) (value : Value) :
    Except Status State :=
  if ¬ value ∈ self._values then
    .error (.error 5423800 "Can't remove from an empty WindowFunctionAddToSet")
  else
    .ok { _memUsageBytes := self._memUsageBytes - getApproximateSize value
          _values := self._values.erase value }

/-- The method `reset`. -/
def reset (sizeofThis : Int) (_self : State) : State := ⟨[], sizeofThis⟩

/-- The loop of `getValue`, from the position of the iterator: the element under the
iterator is pushed, the iterator moves to `upper_bound` of it, the first greater element.
The number of iterations is bounded by `fuel`; the size of the multiset is enough, as
each iteration moves the iterator forward. -/
def getValueLoop : Nat → List Value → List Value
  | 0, _ => []
  | _ + 1, [] => []
  | fuel + 1, it :: rest =>
    it :: getValueLoop fuel (rest.dropWhile (fun v => decide (v ≤ it)))

/-- The method `getValue`. -/
def getValue (self : State) : List Value :=
  if self._values.isEmpty then kDefault
  else getValueLoop self._values.length self._values

/-- A call on the window function. -/
inductive Call where
  | add (value : Value)
  | remove (value : Value)
  | reset
  deriving DecidableEq, Repr

/-- A sequence of calls on a state; it stops at the first failed assertion. -/
def run (getApproximateSize : Value → Int) (sizeofThis : Int) :
    State → List Call → Except Status State
  | self, [] => .ok self
  | self, .add value :: calls =>
    run getApproximateSize sizeofThis (add getApproximateSize self value) calls
  | self, .remove value :: calls =>
    match remove getApproximateSize self value with
    | .error st => .error st
    | .ok next => run getApproximateSize sizeofThis next calls
  | self, .reset :: calls => run getApproximateSize sizeofThis (reset sizeofThis self) calls

/-- The values in the window after a sequence of calls, following the words of the
specification: `add` puts a value in, `remove` takes one occurrence out, `reset` empties
the window. -/
def window : List Value → List Call → List Value
  | w, [] => w
  | w, .add value :: calls => window (value :: w) calls
  | w, .remove value :: calls => window (w.erase value) calls
  | _, .reset :: calls => window [] calls

/-- Whether each `remove` of a sequence of calls targets a value that is in the window at
that moment. -/
def removesTargetWindow : List Value → List Call → Prop
  | _, [] => True
  | w, .add value :: calls => removesTargetWindow (value :: w) calls
  | w, .remove value :: calls => value ∈ w ∧ removesTargetWindow (w.erase value) calls
  | _, .reset :: calls => removesTargetWindow [] calls

end WindowFunctionAddToSet

end mongo

namespace mongo

/-! ## Lemmas on the document store -/

theorem deleteDocs_multi_none {α : Type} (p : α → Bool) (docs : List α) :
    ∀ d ∈ (deleteDocs p true docs).1, p d = false := by
  intro d hd
  simp [deleteDocs] at hd
  exact hd.2

theorem deleteDocs_of_none {α : Type} (p : α → Bool) (multi : Bool) (docs : List α)
    (h : ∀ d ∈ docs, p d = false) : deleteDocs p multi docs = (docs, 0) := by
  unfold deleteDocs
  cases multi
  · have h1 : docs.eraseP p = docs := by
      apply List.eraseP_of_forall_not
      intro a ha; simp [h a ha]
    have h2 : docs.any p = false := by
      simp only [List.any_eq_false]
      intro a ha; simp [h a ha]
    simp [h1, h2]
  · have h1 : docs.filter (fun d => !p d) = docs := by
      apply List.filter_eq_self.2
      intro a ha; simp [h a ha]
    have h2 : docs.countP p = 0 := by
      rw [List.countP_eq_zero]
      intro a ha; simp [h a ha]
    simp [h1, h2]

theorem eraseP_none_of_nodup_key {α κ : Type} (f : α → κ) (k : κ) (p : α → Bool)
    (hp : ∀ d, p d = true → f d = k) :
    ∀ docs : List α, (docs.map f).Nodup → ∀ d ∈ docs.eraseP p, p d = false := by
  intro docs
  induction docs with
  | nil => intro _ d hd; simp at hd
  | cons a l ih =>
    intro hnd d hd
    rw [List.map_cons, List.nodup_cons] at hnd
    by_cases hpa : p a = true
    · rw [List.eraseP_cons_of_pos hpa] at hd
      by_contra hpd
      have hpd1 : p d = true := by simpa using hpd
      apply hnd.1
      have hk : f a = f d := (hp a hpa).trans (hp d hpd1).symm
      rw [hk]
      exact List.mem_map_of_mem f hd
    · rw [List.eraseP_cons_of_neg hpa] at hd
      rcases List.mem_cons.1 hd with h | h
      · subst h; simpa using hpa
      · exact ih hnd.2 d h

/-! ## Lemmas on the drop of a collection -/

namespace sharding_ddl_util

theorem andThen_ok_iff (first : Outcome) (next : ConfigCatalog → Outcome) :
    (andThen first next).status = .OK ↔
      first.status = .OK ∧ (next first.catalog).status = .OK := by
  unfold andThen
  cases h : first.status <;> simp

theorem andThen_of_ok (first : Outcome) (next : ConfigCatalog → Outcome)
    (h : first.status = .OK) :
    andThen first next =
      ⟨(next first.catalog).status, (next first.catalog).catalog,
        first.issued ++ (next first.catalog).issued⟩ := by
  unfold andThen
  rw [h]

theorem andThen_of_error (first : Outcome) (next : ConfigCatalog → Outcome) (c : Nat)
    (r : String) (h : first.status = .error c r) :
    andThen first next = ⟨.error c r, first.catalog, first.issued⟩ := by
  unfold andThen
  rw [h]

/-- The catalog after a `deleteChunks` that succeeded on the document store. -/
theorem deleteChunks_ok (fault : CatalogRequest → Option (Nat × String)) (uuid : UUID)
    (wc : WriteConcernOptions) (cat : ConfigCatalog)
    (h : (deleteChunks (configServer fault) uuid wc cat).status = .OK) :
    (deleteChunks (configServer fault) uuid wc cat).catalog =
      { cat with chunks := (deleteDocs (Query.matchesChunk ⟨none, some uuid⟩) true cat.chunks).1 } := by
  revert h
  simp only [deleteChunks, configServer, BatchedCommandResponse.toStatus]
  cases fault (runBatchWriteCommand (deleteChunksOp uuid) wc) with
  | some e => simp
  | none => simp [applyWriteOp, runBatchWriteCommand, deleteChunksOp]

/-- The catalog after a `deleteShardingIndexCatalogMetadata` that succeeded. -/
theorem deleteShardingIndexCatalogMetadata_ok (fault : CatalogRequest → Option (Nat × String))
    (uuid : UUID) (wc : WriteConcernOptions) (cat : ConfigCatalog)
    (h : (deleteShardingIndexCatalogMetadata (configServer fault) uuid wc cat).status = .OK) :
    (deleteShardingIndexCatalogMetadata (configServer fault) uuid wc cat).catalog =
      { cat with
        indexes := (deleteDocs (Query.matchesIndex ⟨none, some uuid⟩) true cat.indexes).1 } := by
  revert h
  simp only [deleteShardingIndexCatalogMetadata, configServer, BatchedCommandResponse.toStatus]
  cases fault (runBatchWriteCommand (deleteShardingIndexCatalogMetadataOp uuid) wc) with
  | some e => simp
  | none => simp [applyWriteOp, runBatchWriteCommand, deleteShardingIndexCatalogMetadataOp]

theorem transactionChain_of_error (srv : ConfigServer) (t : Timestamp) (nss : NamespaceString)
    (uuid : UUID) (ctx : TxnOpCtx) (cat : ConfigCatalog) (c : Nat) (r : String)
    (h : (srv (runCRUDOp ctx (deleteCollectionOp nss uuid) 0) cat).1.status = .error c r) :
    transactionChain srv t nss uuid ctx cat =
      ⟨.error c r, (srv (runCRUDOp ctx (deleteCollectionOp nss uuid) 0) cat).2,
        [(runCRUDOp ctx (deleteCollectionOp nss uuid) 0,
          (srv (runCRUDOp ctx (deleteCollectionOp nss uuid) 0) cat).1)]⟩ := by
  simp only [transactionChain, BatchedCommandResponse.toStatus, h]

theorem transactionChain_of_zero (srv : ConfigServer) (t : Timestamp) (nss : NamespaceString)
    (uuid : UUID) (ctx : TxnOpCtx) (cat : ConfigCatalog)
    (h : (srv (runCRUDOp ctx (deleteCollectionOp nss uuid) 0) cat).1.status = .OK)
    (hn : (srv (runCRUDOp ctx (deleteCollectionOp nss uuid) 0) cat).1.n = 0) :
    transactionChain srv t nss uuid ctx cat =
      ⟨.OK, (srv (runCRUDOp ctx (deleteCollectionOp nss uuid) 0) cat).2,
        [(runCRUDOp ctx (deleteCollectionOp nss uuid) 0,
          (srv (runCRUDOp ctx (deleteCollectionOp nss uuid) 0) cat).1)]⟩ := by
  simp only [transactionChain, BatchedCommandResponse.toStatus, BatchedCommandResponse.getN, h,
    hn, if_true]

theorem transactionChain_of_removed (srv : ConfigServer) (t : Timestamp) (nss : NamespaceString)
    (uuid : UUID) (ctx : TxnOpCtx) (cat : ConfigCatalog)
    (h : (srv (runCRUDOp ctx (deleteCollectionOp nss uuid) 0) cat).1.status = .OK)
    (hn : (srv (runCRUDOp ctx (deleteCollectionOp nss uuid) 0) cat).1.n ≠ 0) :
    transactionChain srv t nss uuid ctx cat =
      ⟨(srv (runCRUDOp ctx (insertPlacementEntryOp nss uuid t) 1)
          (srv (runCRUDOp ctx (deleteCollectionOp nss uuid) 0) cat).2).1.status,
        (srv (runCRUDOp ctx (insertPlacementEntryOp nss uuid t) 1)
          (srv (runCRUDOp ctx (deleteCollectionOp nss uuid) 0) cat).2).2,
        [(runCRUDOp ctx (deleteCollectionOp nss uuid) 0,
          (srv (runCRUDOp ctx (deleteCollectionOp nss uuid) 0) cat).1),
         (runCRUDOp ctx (insertPlacementEntryOp nss uuid t) 1,
          (srv (runCRUDOp ctx (insertPlacementEntryOp nss uuid t) 1)
            (srv (runCRUDOp ctx (deleteCollectionOp nss uuid) 0) cat).2).1)]⟩ := by
  simp only [transactionChain, BatchedCommandResponse.toStatus, BatchedCommandResponse.getN, h,
    hn, if_false]

theorem configServer_of_fault (fault : CatalogRequest → Option (Nat × String))
    (req : CatalogRequest) (cat : ConfigCatalog) (e : Nat × String) (h : fault req = some e) :
    configServer fault req cat = (⟨.error e.1 e.2, 0⟩, cat) := by
  simp only [configServer, h]

theorem configServer_of_no_fault (fault : CatalogRequest → Option (Nat × String))
    (req : CatalogRequest) (cat : ConfigCatalog) (h : fault req = none) :
    configServer fault req cat = applyWriteOp req.op cat := by
  simp only [configServer, h]

/-- The catalog after a transaction chain that succeeded on the document store. -/
theorem transactionChain_ok (fault : CatalogRequest → Option (Nat × String))
    (t : Timestamp) (nss : NamespaceString) (uuid : UUID) (ctx : TxnOpCtx) (cat : ConfigCatalog)
    (h : (transactionChain (configServer fault) t nss uuid ctx cat).status = .OK) :
    (transactionChain (configServer fault) t nss uuid ctx cat).catalog =
      { cat with
        collections := cat.collections.eraseP (Query.matchesCollection ⟨some nss, some uuid⟩)
        placementHistory :=
          if cat.collections.any (Query.matchesCollection ⟨some nss, some uuid⟩) then
            cat.placementHistory ++ [⟨nss, t, [], some uuid⟩]
          else cat.placementHistory } := by
  cases hf : fault (runCRUDOp ctx (deleteCollectionOp nss uuid) 0) with
  | some e =>
    have h0 := configServer_of_fault fault _ cat e hf
    rw [transactionChain_of_error (configServer fault) t nss uuid ctx cat e.1 e.2 (by rw [h0])] at h
    simp at h
  | none =>
    have h0 := configServer_of_no_fault fault _ cat hf
    have hop : (runCRUDOp ctx (deleteCollectionOp nss uuid) 0).op
        = .delete .collections ⟨some nss, some uuid⟩ false := rfl
    rw [hop] at h0
    by_cases hany : cat.collections.any (Query.matchesCollection ⟨some nss, some uuid⟩) = true
    · have hst : (configServer fault (runCRUDOp ctx (deleteCollectionOp nss uuid) 0) cat).1.status
          = .OK := by rw [h0]; rfl
      have hn : (configServer fault (runCRUDOp ctx (deleteCollectionOp nss uuid) 0) cat).1.n ≠ 0 := by
        rw [h0]; simp [applyWriteOp, deleteDocs, hany]
      rw [transactionChain_of_removed _ t nss uuid ctx cat hst hn] at h ⊢
      cases hf1 : fault (runCRUDOp ctx (insertPlacementEntryOp nss uuid t) 1) with
      | some e1 =>
        rw [configServer_of_fault fault _ _ e1 hf1] at h
        simp at h
      | none =>
        rw [configServer_of_no_fault fault _ _ hf1, h0]
        simp [applyWriteOp, deleteDocs, hany, runCRUDOp, insertPlacementEntryOp]
    · have hst : (configServer fault (runCRUDOp ctx (deleteCollectionOp nss uuid) 0) cat).1.status
          = .OK := by rw [h0]; rfl
      have hn : (configServer fault (runCRUDOp ctx (deleteCollectionOp nss uuid) 0) cat).1.n = 0 := by
        rw [h0]; simp [applyWriteOp, deleteDocs, hany]
      rw [transactionChain_of_zero _ t nss uuid ctx cat hst hn, h0]
      simp [applyWriteOp, deleteDocs, hany]

theorem runTransaction_ok (isConfigServer : Bool) (chain : TxnOpCtx → ConfigCatalog → Outcome)
    (wc : WriteConcernOptions) (osi : OperationSessionInfo) (uct : Bool) (cat : ConfigCatalog)
    (h : (runTransactionOnShardingCatalog isConfigServer chain wc osi uct cat).status = .OK) :
    (chain (newOpCtx wc osi) cat).status = .OK ∧
      runTransactionOnShardingCatalog isConfigServer chain wc osi uct cat
        = chain (newOpCtx wc osi) cat := by
  revert h
  simp only [runTransactionOnShardingCatalog]
  split
  · simp
  · simp only [SyncTransactionWithRetries_run]
    split
    · intro _; exact ⟨by assumption, rfl⟩
    · simp

/-- The catalog after a `deleteCollection` that succeeded on the document store. -/
theorem deleteCollection_ok (fault : CatalogRequest → Option (Nat × String))
    (isConfigServer : Bool) (t : Timestamp) (nss : NamespaceString) (uuid : UUID)
    (wc : WriteConcernOptions) (osi : OperationSessionInfo) (uct : Bool) (cat : ConfigCatalog)
    (h : (deleteCollection (configServer fault) isConfigServer t nss uuid wc osi uct cat).status
      = .OK) :
    (deleteCollection (configServer fault) isConfigServer t nss uuid wc osi uct cat).catalog =
      { cat with
        collections := cat.collections.eraseP (Query.matchesCollection ⟨some nss, some uuid⟩)
        placementHistory :=
          if cat.collections.any (Query.matchesCollection ⟨some nss, some uuid⟩) then
            cat.placementHistory ++ [⟨nss, t, [], some uuid⟩]
          else cat.placementHistory } := by
  unfold deleteCollection at h ⊢
  obtain ⟨hok, heq⟩ := runTransaction_ok _ _ _ _ _ _ h
  rw [heq]
  exact transactionChain_ok fault t nss uuid _ cat hok

/-- The catalog after a `removeCollAndChunksMetadataFromConfig` that succeeded on the
document store. -/
theorem removeCollAndChunksMetadataFromConfig_ok (fault : CatalogRequest → Option (Nat × String))
    (isConfigServer : Bool) (t : Timestamp) (coll : CollectionType)
    (wc : WriteConcernOptions) (osi : OperationSessionInfo) (uct : Bool) (cat : ConfigCatalog)
    (h : (removeCollAndChunksMetadataFromConfig (configServer fault) isConfigServer t coll wc osi
      uct cat).status = .OK) :
    (removeCollAndChunksMetadataFromConfig (configServer fault) isConfigServer t coll wc osi
      uct cat).catalog =
      { collections :=
          cat.collections.eraseP (Query.matchesCollection ⟨some coll.nss, some coll.uuid⟩)
        placementHistory :=
          if cat.collections.any (Query.matchesCollection ⟨some coll.nss, some coll.uuid⟩) then
            cat.placementHistory ++ [⟨coll.nss, t, [], some coll.uuid⟩]
          else cat.placementHistory
        chunks := cat.chunks.filter (fun d => !Query.matchesChunk ⟨none, some coll.uuid⟩ d)
        indexes := cat.indexes.filter (fun d => !Query.matchesIndex ⟨none, some coll.uuid⟩ d) } := by
  simp only [removeCollAndChunksMetadataFromConfig] at h ⊢
  simp only [andThen_ok_iff] at h
  obtain ⟨⟨h1, h2⟩, h3⟩ := h
  rw [andThen_of_ok _ _ h1] at h3 ⊢
  simp only at h3
  rw [andThen_of_ok _ _ (by simpa using h2)]
  simp only
  rw [deleteShardingIndexCatalogMetadata_ok fault _ _ _ h3, deleteChunks_ok fault _ _ _ h2,
    deleteCollection_ok fault _ _ _ _ _ _ _ _ h1]
  simp [deleteDocs]

/-- A delete that matches no document of its table changes nothing and reports zero
(or fails, which changes nothing either). -/
theorem configServer_delete_collections_noop (fault : CatalogRequest → Option (Nat × String))
    (req : CatalogRequest) (q : Query) (multi : Bool) (cat : ConfigCatalog)
    (hop : req.op = .delete .collections q multi)
    (h : ∀ d ∈ cat.collections, q.matchesCollection d = false) :
    (configServer fault req cat).2 = cat ∧ (configServer fault req cat).1.n = 0 := by
  cases hf : fault req with
  | some e => rw [configServer_of_fault fault req cat e hf]; exact ⟨rfl, rfl⟩
  | none =>
    rw [configServer_of_no_fault fault req cat hf, hop]
    simp only [applyWriteOp, deleteDocs_of_none _ multi _ h]
    simp

theorem configServer_delete_chunks_noop (fault : CatalogRequest → Option (Nat × String))
    (req : CatalogRequest) (q : Query) (multi : Bool) (cat : ConfigCatalog)
    (hop : req.op = .delete .chunks q multi)
    (h : ∀ d ∈ cat.chunks, q.matchesChunk d = false) :
    (configServer fault req cat).2 = cat := by
  cases hf : fault req with
  | some e => rw [configServer_of_fault fault req cat e hf]
  | none =>
    rw [configServer_of_no_fault fault req cat hf, hop]
    simp only [applyWriteOp, deleteDocs_of_none _ multi _ h]

theorem configServer_delete_indexes_noop (fault : CatalogRequest → Option (Nat × String))
    (req : CatalogRequest) (q : Query) (multi : Bool) (cat : ConfigCatalog)
    (hop : req.op = .delete .indexCatalog q multi)
    (h : ∀ d ∈ cat.indexes, q.matchesIndex d = false) :
    (configServer fault req cat).2 = cat := by
  cases hf : fault req with
  | some e => rw [configServer_of_fault fault req cat e hf]
  | none =>
    rw [configServer_of_no_fault fault req cat hf, hop]
    simp only [applyWriteOp, deleteDocs_of_none _ multi _ h]

/-- On a catalog without an entry for `(nss, uuid)` the transaction of `deleteCollection`
changes nothing and issues no placement-history insert, whether or not it fails. -/
theorem deleteCollection_noop (fault : CatalogRequest → Option (Nat × String))
    (isConfigServer : Bool) (t : Timestamp) (nss : NamespaceString) (uuid : UUID)
    (wc : WriteConcernOptions) (osi : OperationSessionInfo) (uct : Bool) (cat : ConfigCatalog)
    (h : ∀ d ∈ cat.collections, Query.matchesCollection ⟨some nss, some uuid⟩ d = false) :
    (deleteCollection (configServer fault) isConfigServer t nss uuid wc osi uct cat).catalog = cat ∧
    ∀ e ∈ (deleteCollection (configServer fault) isConfigServer t nss uuid wc osi uct cat).issued,
      e.1.op.isPlacementInsert = false := by
  obtain ⟨hc, hn⟩ := configServer_delete_collections_noop fault
    (runCRUDOp (newOpCtx wc osi) (deleteCollectionOp nss uuid) 0) _ false cat rfl h
  simp only [deleteCollection, runTransactionOnShardingCatalog]
  split
  · simp
  · simp only [SyncTransactionWithRetries_run]
    cases hst : (configServer fault (runCRUDOp (newOpCtx wc osi) (deleteCollectionOp nss uuid) 0)
        cat).1.status with
    | OK =>
      rw [transactionChain_of_zero _ t nss uuid _ cat hst hn]
      refine ⟨hc, ?_⟩
      simp [runCRUDOp, deleteCollectionOp, WriteOp.isPlacementInsert]
    | error c r =>
      rw [transactionChain_of_error _ t nss uuid _ cat c r hst]
      simp [runCRUDOp, deleteCollectionOp, WriteOp.isPlacementInsert]

theorem deleteChunks_issued (srv : ConfigServer) (uuid : UUID) (wc : WriteConcernOptions)
    (cat : ConfigCatalog) :
    ∀ e ∈ (deleteChunks srv uuid wc cat).issued, e.1.op = deleteChunksOp uuid := by
  simp [deleteChunks, runBatchWriteCommand]

theorem deleteShardingIndexCatalogMetadata_issued (srv : ConfigServer) (uuid : UUID)
    (wc : WriteConcernOptions) (cat : ConfigCatalog) :
    ∀ e ∈ (deleteShardingIndexCatalogMetadata srv uuid wc cat).issued,
      e.1.op = deleteShardingIndexCatalogMetadataOp uuid := by
  simp [deleteShardingIndexCatalogMetadata, runBatchWriteCommand]

theorem andThen_issued_mem (first : Outcome) (next : ConfigCatalog → Outcome)
    (e : CatalogRequest × BatchedCommandResponse) (h : e ∈ (andThen first next).issued) :
    e ∈ first.issued ∨ e ∈ (next first.catalog).issued := by
  unfold andThen at h
  cases hs : first.status with
  | OK => rw [hs] at h; simpa using h
  | error c r => rw [hs] at h; exact Or.inl h

theorem andThen_catalog_noop (first : Outcome) (next : ConfigCatalog → Outcome)
    (cat : ConfigCatalog) (h1 : first.catalog = cat) (h2 : (next cat).catalog = cat) :
    (andThen first next).catalog = cat := by
  unfold andThen
  cases hs : first.status with
  | OK => simp only [h1, h2]
  | error c r => exact h1

/-- On a catalog without entry, chunk or index of the collection, a run of
`removeCollAndChunksMetadataFromConfig` changes nothing and issues no placement-history
insert, whether or not it fails. -/
theorem removeCollAndChunksMetadataFromConfig_noop
    (fault : CatalogRequest → Option (Nat × String))
    (isConfigServer : Bool) (t : Timestamp) (coll : CollectionType)
    (wc : WriteConcernOptions) (osi : OperationSessionInfo) (uct : Bool) (cat : ConfigCatalog)
    (h1 : ∀ d ∈ cat.collections,
      Query.matchesCollection ⟨some coll.nss, some coll.uuid⟩ d = false)
    (h2 : ∀ d ∈ cat.chunks, Query.matchesChunk ⟨none, some coll.uuid⟩ d = false)
    (h3 : ∀ d ∈ cat.indexes, Query.matchesIndex ⟨none, some coll.uuid⟩ d = false) :
    (removeCollAndChunksMetadataFromConfig (configServer fault) isConfigServer t coll wc osi
      uct cat).catalog = cat ∧
    ∀ e ∈ (removeCollAndChunksMetadataFromConfig (configServer fault) isConfigServer t coll wc
      osi uct cat).issued, e.1.op.isPlacementInsert = false := by
  obtain ⟨hc, hi⟩ := deleteCollection_noop fault isConfigServer t coll.nss coll.uuid wc osi uct
    cat h1
  have hch : (deleteChunks (configServer fault) coll.uuid wc cat).catalog = cat :=
    configServer_delete_chunks_noop fault _ _ true cat rfl h2
  have hix : (deleteShardingIndexCatalogMetadata (configServer fault) coll.uuid wc cat).catalog
      = cat := configServer_delete_indexes_noop fault _ _ true cat rfl h3
  simp only [removeCollAndChunksMetadataFromConfig]
  constructor
  · exact andThen_catalog_noop _ _ cat (andThen_catalog_noop _ _ cat hc hch) hix
  · intro e he
    rcases andThen_issued_mem _ _ e he with he | he
    · rcases andThen_issued_mem _ _ e he with he | he
      · exact hi e he
      · rw [deleteChunks_issued _ _ _ _ e he]; rfl
    · rw [deleteShardingIndexCatalogMetadata_issued _ _ _ _ e he]; rfl

theorem matchesCollection_iff (nss : NamespaceString) (uuid : UUID) (d : CollectionType) :
    Query.matchesCollection ⟨some nss, some uuid⟩ d = true ↔ d.nss = nss ∧ d.uuid = uuid := by
  simp only [Query.matchesCollection, Option.all, Bool.and_eq_true, beq_iff_eq]
  constructor <;> rintro ⟨h1, h2⟩ <;> exact ⟨h1.symm, h2.symm⟩

theorem matchesChunk_iff (uuid : UUID) (d : ChunkType) :
    Query.matchesChunk ⟨none, some uuid⟩ d = true ↔ d.collectionUUID = uuid := by
  simp only [Query.matchesChunk, Option.all, Option.isNone, Bool.true_and, beq_iff_eq]
  exact eq_comm

theorem matchesIndex_iff (uuid : UUID) (d : IndexCatalogType) :
    Query.matchesIndex ⟨none, some uuid⟩ d = true ↔ d.collectionUUID = uuid := by
  simp only [Query.matchesIndex, Option.all, Option.isNone, Bool.true_and, beq_iff_eq]
  exact eq_comm

/-- With unique `_id`s, no entry for `(nss, uuid)` is left once the first match is gone. -/
theorem eraseP_collections_none (nss : NamespaceString) (uuid : UUID) (cat : ConfigCatalog)
    (hu : cat.uniqueIds) :
    ∀ d ∈ cat.collections.eraseP (Query.matchesCollection ⟨some nss, some uuid⟩),
      Query.matchesCollection ⟨some nss, some uuid⟩ d = false :=
  eraseP_none_of_nodup_key CollectionType.nss nss _
    (fun d hd => ((matchesCollection_iff nss uuid d).1 hd).1) cat.collections hu

/-- The possible courses of `deleteCollection` against any config server. -/
theorem deleteCollection_shape (srv : ConfigServer) (isConfigServer : Bool) (t : Timestamp)
    (nss : NamespaceString) (uuid : UUID) (wc : WriteConcernOptions)
    (osi : OperationSessionInfo) (uct : Bool) (cat : ConfigCatalog) :
    let o := deleteCollection srv isConfigServer t nss uuid wc osi uct cat
    let d := runCRUDOp (newOpCtx wc osi) (deleteCollectionOp nss uuid) 0
    let i := runCRUDOp (newOpCtx wc osi) (insertPlacementEntryOp nss uuid t) 1
    (o.issued = [] ∧ o.status ≠ .OK) ∨
    (∃ rd, o.issued = [(d, rd)] ∧ rd = (srv d cat).1 ∧ rd.status ≠ .OK ∧ o.status = rd.status) ∨
    (∃ rd, o.issued = [(d, rd)] ∧ rd = (srv d cat).1 ∧ rd.status = .OK ∧ rd.n = 0 ∧
      o.status = .OK) ∨
    (∃ rd rp, o.issued = [(d, rd), (i, rp)] ∧ rd = (srv d cat).1 ∧ rd.status = .OK ∧ rd.n ≠ 0 ∧
      o.status = rp.status) := by
  intro o d i
  simp only [o, deleteCollection, runTransactionOnShardingCatalog]
  split
  · left; simp
  · right
    simp only [SyncTransactionWithRetries_run]
    cases hst : (srv d cat).1.status with
    | error c r =>
      left
      rw [transactionChain_of_error srv t nss uuid _ cat c r hst]
      exact ⟨_, rfl, rfl, by rw [hst]; simp, by rw [hst]⟩
    | OK =>
      right
      by_cases hn : (srv d cat).1.n = 0
      · left
        rw [transactionChain_of_zero srv t nss uuid _ cat hst hn]
        exact ⟨_, rfl, rfl, hst, hn, rfl⟩
      · right
        rw [transactionChain_of_removed srv t nss uuid _ cat hst hn]
        refine ⟨(srv d cat).1, (srv i (srv d cat).2).1, ?_, rfl, hst, hn, ?_⟩
        · simp only
          split <;> rfl
        · simp only
          split
          · rfl
          · next c r h => exact h.symm

/-- The possible courses of `removeCollAndChunksMetadataFromConfig` after its
`deleteCollection` step. -/
theorem removeCollAndChunksMetadataFromConfig_shape (srv : ConfigServer) (isConfigServer : Bool)
    (t : Timestamp) (coll : CollectionType) (wc : WriteConcernOptions)
    (osi : OperationSessionInfo) (uct : Bool) (cat : ConfigCatalog) :
    let o := removeCollAndChunksMetadataFromConfig srv isConfigServer t coll wc osi uct cat
    let dc := deleteCollection srv isConfigServer t coll.nss coll.uuid wc osi uct cat
    let c := runBatchWriteCommand (deleteChunksOp coll.uuid) wc
    let x := runBatchWriteCommand (deleteShardingIndexCatalogMetadataOp coll.uuid) wc
    (dc.status ≠ .OK ∧ o.status = dc.status ∧ o.issued = dc.issued) ∨
    (dc.status = .OK ∧ ∃ rc, rc.status ≠ .OK ∧ o.status = rc.status ∧
      o.issued = dc.issued ++ [(c, rc)]) ∨
    (dc.status = .OK ∧ ∃ rc rx, rc.status = .OK ∧ o.status = rx.status ∧
      o.issued = dc.issued ++ [(c, rc), (x, rx)]) := by
  intro o dc c x
  simp only [o, removeCollAndChunksMetadataFromConfig]
  cases hdc : dc.status with
  | error c1 r1 =>
    left
    rw [andThen_of_error _ _ c1 r1 (by rw [andThen_of_error _ _ c1 r1 hdc])]
    rw [andThen_of_error _ _ c1 r1 hdc]
    simp
  | OK =>
    right
    rw [andThen_of_ok _ (deleteChunks srv coll.uuid wc) hdc]
    cases hch : (deleteChunks srv coll.uuid wc dc.catalog).status with
    | error c2 r2 =>
      left
      simp only [andThen]
      refine ⟨trivial, (srv c dc.catalog).1, ?_, ?_, rfl⟩
      · have : (srv c dc.catalog).1.status = .error c2 r2 := hch
        rw [this]; simp
      · exact (show (srv c dc.catalog).1.status = .error c2 r2 from hch).symm
    | OK =>
      right
      simp only [andThen]
      refine ⟨trivial, (srv c dc.catalog).1,
        (srv x (deleteChunks srv coll.uuid wc dc.catalog).catalog).1, hch, rfl, ?_⟩
      simp [deleteChunks, deleteShardingIndexCatalogMetadata, c, x]

/-! ## The drop of a collection: the claims -/

/-- C1. Idempotent drop: on every catalog (with the unique `_id` index of
`config.collections`), after a successful `removeCollAndChunksMetadataFromConfig` a
second run with the same session info leaves `config.collections`, `config.chunks` and
the index catalog as the first run left them, leaves the placement history as the first
run left it and issues no placement-history insert; when the entry existed initially,
exactly one placement-history entry has been appended overall. -/
theorem removeCollAndChunksMetadataFromConfig_idempotent
    (fault1 fault2 : CatalogRequest → Option (Nat × String)) (isConfigServer : Bool)
    (t1 t2 : Timestamp) (coll : CollectionType) (wc : WriteConcernOptions)
    (osi : OperationSessionInfo) (uct : Bool) (cat : ConfigCatalog)
    (hu : cat.uniqueIds)
    (hok : (removeCollAndChunksMetadataFromConfig (configServer fault1) isConfigServer t1 coll wc
      osi uct cat).status = .OK) :
    let once := removeCollAndChunksMetadataFromConfig (configServer fault1) isConfigServer t1
      coll wc osi uct cat
    let twice := removeCollAndChunksMetadataFromConfig (configServer fault2) isConfigServer t2
      coll wc osi uct once.catalog
    twice.catalog.collections = once.catalog.collections ∧
    twice.catalog.chunks = once.catalog.chunks ∧
    twice.catalog.indexes = once.catalog.indexes ∧
    twice.catalog.placementHistory = once.catalog.placementHistory ∧
    (∀ e ∈ twice.issued, e.1.op.isPlacementInsert = false) ∧
    ((∃ d ∈ cat.collections, d.nss = coll.nss ∧ d.uuid = coll.uuid) →
      twice.catalog.placementHistory =
        cat.placementHistory ++ [⟨coll.nss, t1, [], some coll.uuid⟩]) := by
  intro once twice
  have hcat := removeCollAndChunksMetadataFromConfig_ok fault1 isConfigServer t1 coll wc osi uct
    cat hok
  have hnoop := removeCollAndChunksMetadataFromConfig_noop fault2 isConfigServer t2 coll wc osi
    uct once.catalog
    (by
      show ∀ d ∈ (removeCollAndChunksMetadataFromConfig (configServer fault1) isConfigServer t1
        coll wc osi uct cat).catalog.collections, _
      rw [hcat]
      exact eraseP_collections_none coll.nss coll.uuid cat hu)
    (by
      show ∀ d ∈ (removeCollAndChunksMetadataFromConfig (configServer fault1) isConfigServer t1
        coll wc osi uct cat).catalog.chunks, _
      rw [hcat]
      intro d hd
      simpa using (List.mem_filter.1 hd).2)
    (by
      show ∀ d ∈ (removeCollAndChunksMetadataFromConfig (configServer fault1) isConfigServer t1
        coll wc osi uct cat).catalog.indexes, _
      rw [hcat]
      intro d hd
      simpa using (List.mem_filter.1 hd).2)
  have heq : twice.catalog = once.catalog := hnoop.1
  refine ⟨by rw [heq], by rw [heq], by rw [heq], by rw [heq], hnoop.2, ?_⟩
  rintro ⟨d, hd, hnss, huuid⟩
  have hany : cat.collections.any (Query.matchesCollection ⟨some coll.nss, some coll.uuid⟩)
      = true :=
    List.any_eq_true.2 ⟨d, hd, (matchesCollection_iff _ _ d).2 ⟨hnss, huuid⟩⟩
  rw [heq]
  show (removeCollAndChunksMetadataFromConfig (configServer fault1) isConfigServer t1
        coll wc osi uct cat).catalog.placementHistory = _
  rw [hcat]
  simp only [hany, if_true]

/-- Witness of C1: the drop of `db.orders`, run twice with session S, transaction 7. -/
theorem removeCollAndChunksMetadataFromConfig_idempotent_witness :
    ordersCatalog.uniqueIds ∧
    (removeCollAndChunksMetadataFromConfig (configServer noFault) true 42 ordersColl
      kMajorityWriteConcern ordersOsi false ordersCatalog).status = .OK ∧
    (removeCollAndChunksMetadataFromConfig (configServer noFault) true 43 ordersColl
      kMajorityWriteConcern ordersOsi false
      (removeCollAndChunksMetadataFromConfig (configServer noFault) true 42 ordersColl
        kMajorityWriteConcern ordersOsi false ordersCatalog).catalog).catalog.placementHistory
      = [⟨⟨"db", "orders"⟩, 3, ["shard0", "shard1"], some 7⟩, ⟨⟨"db", "orders"⟩, 42, [], some 7⟩] :=
  ⟨by decide, by decide,
    (removeCollAndChunksMetadataFromConfig_idempotent noFault noFault true 42 43 ordersColl
      kMajorityWriteConcern ordersOsi false ordersCatalog (by decide) (by decide)).2.2.2.2.2
      ⟨ordersColl, by decide, rfl, rfl⟩⟩

/-- C3. Drop postcondition: on every catalog (with the unique `_id` index) that holds
an entry for `(nss, uuid)`, a successful `removeCollAndChunksMetadataFromConfig` leaves
no `config.collections` entry for `(nss, uuid)`, appends exactly one placement-history
row carrying `nss`, `uuid`, the current cluster time and no shards, and leaves neither a
chunk row nor an index-catalog row of that uuid. -/
theorem removeCollAndChunksMetadataFromConfig_postcondition
    (fault : CatalogRequest → Option (Nat × String)) (isConfigServer : Bool)
    (clusterTime : Timestamp) (coll : CollectionType) (wc : WriteConcernOptions)
    (osi : OperationSessionInfo) (uct : Bool) (cat : ConfigCatalog)
    (hu : cat.uniqueIds)
    (hmem : ∃ d ∈ cat.collections, d.nss = coll.nss ∧ d.uuid = coll.uuid)
    (hok : (removeCollAndChunksMetadataFromConfig (configServer fault) isConfigServer clusterTime
      coll wc osi uct cat).status = .OK) :
    let out := removeCollAndChunksMetadataFromConfig (configServer fault) isConfigServer
      clusterTime coll wc osi uct cat
    (∀ d ∈ out.catalog.collections, ¬ (d.nss = coll.nss ∧ d.uuid = coll.uuid)) ∧
    out.catalog.placementHistory =
      cat.placementHistory ++
        [{ nss := coll.nss, timestamp := clusterTime, shards := [], uuid := some coll.uuid }] ∧
    (∀ c ∈ out.catalog.chunks, c.collectionUUID ≠ coll.uuid) ∧
    (∀ i ∈ out.catalog.indexes, i.collectionUUID ≠ coll.uuid) := by
  intro out
  have hcat : out.catalog = _ :=
    removeCollAndChunksMetadataFromConfig_ok fault isConfigServer clusterTime coll wc osi uct
      cat hok
  obtain ⟨d0, hd0, hnss, huuid⟩ := hmem
  have hany : cat.collections.any (Query.matchesCollection ⟨some coll.nss, some coll.uuid⟩)
      = true :=
    List.any_eq_true.2 ⟨d0, hd0, (matchesCollection_iff _ _ d0).2 ⟨hnss, huuid⟩⟩
  rw [hcat]
  refine ⟨?_, ?_, ?_, ?_⟩
  · intro d hd hm
    have := eraseP_collections_none coll.nss coll.uuid cat hu d hd
    rw [(matchesCollection_iff _ _ d).2 hm] at this
    exact Bool.noConfusion this
  · simp only [hany, if_true]
  · intro c hc hm
    have := (List.mem_filter.1 hc).2
    rw [(matchesChunk_iff _ c).2 hm] at this
    exact Bool.noConfusion this
  · intro i hi hm
    have := (List.mem_filter.1 hi).2
    rw [(matchesIndex_iff _ i).2 hm] at this
    exact Bool.noConfusion this

/-- Witness of C3: the drop of `db.orders` at cluster time 42. -/
theorem removeCollAndChunksMetadataFromConfig_postcondition_witness :
    ordersCatalog.uniqueIds ∧
    (∃ d ∈ ordersCatalog.collections, d.nss = ordersColl.nss ∧ d.uuid = ordersColl.uuid) ∧
    (removeCollAndChunksMetadataFromConfig (configServer noFault) true 42 ordersColl
      kMajorityWriteConcern ordersOsi false ordersCatalog).status = .OK ∧
    (removeCollAndChunksMetadataFromConfig (configServer noFault) true 42 ordersColl
      kMajorityWriteConcern ordersOsi false ordersCatalog).catalog.placementHistory
      = ordersCatalog.placementHistory ++ [⟨⟨"db", "orders"⟩, 42, [], some 7⟩] :=
  ⟨by decide, ⟨ordersColl, by decide, rfl, rfl⟩, by decide,
    (removeCollAndChunksMetadataFromConfig_postcondition noFault true 42 ordersColl
      kMajorityWriteConcern ordersOsi false ordersCatalog (by decide)
      ⟨ordersColl, by decide, rfl, rfl⟩ (by decide)).2.1⟩

/-- C2. Idempotency short-circuit of the transaction chain of `deleteCollection`: against
every config server and on every catalog, the chain first issues the delete on
`config.collections` filtered by namespace and uuid with `multi = false` under statement
id 0; when that delete succeeds and reports `n = 0`, no placement-history insert is issued
and the chain completes with `OK`; when it succeeds and reports `n > 0`, exactly one
placement-history insert is issued. -/
theorem transactionChain_short_circuit (srv : ConfigServer) (clusterTime : Timestamp)
    (nss : NamespaceString) (uuid : UUID) (ctx : TxnOpCtx) (cat : ConfigCatalog)
    (hok : (srv (runCRUDOp ctx (.delete .collections ⟨some nss, some uuid⟩ false) 0) cat).1.toStatus
      = .OK) :
    let deleteCollResponse :=
      (srv (runCRUDOp ctx (.delete .collections ⟨some nss, some uuid⟩ false) 0) cat).1
    let out := transactionChain srv clusterTime nss uuid ctx cat
    out.issued.head? =
      some (runCRUDOp ctx (.delete .collections ⟨some nss, some uuid⟩ false) 0,
        deleteCollResponse) ∧
    (deleteCollResponse.getN = 0 →
      out.issued.countP (fun e => e.1.op.isPlacementInsert) = 0 ∧ out.status = .OK) ∧
    (0 < deleteCollResponse.getN →
      out.issued.countP (fun e => e.1.op.isPlacementInsert) = 1) := by
  intro deleteCollResponse out
  have hst : (srv (runCRUDOp ctx (deleteCollectionOp nss uuid) 0) cat).1.status = .OK := hok
  by_cases hn : (srv (runCRUDOp ctx (deleteCollectionOp nss uuid) 0) cat).1.n = 0
  · have hout : out = _ := transactionChain_of_zero srv clusterTime nss uuid ctx cat hst hn
    rw [hout]
    refine ⟨rfl, fun _ => ⟨?_, rfl⟩, fun hpos => ?_⟩
    · simp [runCRUDOp, deleteCollectionOp, WriteOp.isPlacementInsert]
    · exact absurd hn (Nat.pos_iff_ne_zero.1 hpos)
  · have hout : out = _ := transactionChain_of_removed srv clusterTime nss uuid ctx cat hst hn
    rw [hout]
    refine ⟨rfl, fun h0 => absurd h0 hn, fun _ => ?_⟩
    simp [runCRUDOp, deleteCollectionOp, insertPlacementEntryOp, WriteOp.isPlacementInsert]

/-- Witness of C2: the chain on the catalog holding `db.orders`. -/
theorem transactionChain_short_circuit_witness :
    (configServer noFault
      (runCRUDOp (newOpCtx kMajorityWriteConcern ordersOsi)
        (.delete .collections ⟨some ⟨"db", "orders"⟩, some 7⟩ false) 0) ordersCatalog).1.toStatus = .OK ∧
    (transactionChain (configServer noFault) 42 ⟨"db", "orders"⟩ 7
      (newOpCtx kMajorityWriteConcern ordersOsi) ordersCatalog).issued.countP
        (fun e => e.1.op.isPlacementInsert) = 1 :=
  ⟨by decide,
    (transactionChain_short_circuit (configServer noFault) 42 ⟨"db", "orders"⟩ 7
      (newOpCtx kMajorityWriteConcern ordersOsi) ordersCatalog (by decide)).2.2 (by decide)⟩

/-- The complete list of courses of `removeCollAndChunksMetadataFromConfig`. -/
theorem removeCollAndChunksMetadataFromConfig_courses (srv : ConfigServer)
    (isConfigServer : Bool) (t : Timestamp) (coll : CollectionType) (wc : WriteConcernOptions)
    (osi : OperationSessionInfo) (uct : Bool) (cat : ConfigCatalog) :
    let o := removeCollAndChunksMetadataFromConfig srv isConfigServer t coll wc osi uct cat
    let d := runCRUDOp (newOpCtx wc osi) (deleteCollectionOp coll.nss coll.uuid) 0
    let i := runCRUDOp (newOpCtx wc osi) (insertPlacementEntryOp coll.nss coll.uuid t) 1
    let c := runBatchWriteCommand (deleteChunksOp coll.uuid) wc
    let x := runBatchWriteCommand (deleteShardingIndexCatalogMetadataOp coll.uuid) wc
    (o.issued = [] ∧ o.status ≠ .OK) ∨
    (∃ rd, o.issued = [(d, rd)] ∧ rd = (srv d cat).1 ∧ rd.status ≠ .OK ∧ o.status = rd.status) ∨
    (∃ rd rp, o.issued = [(d, rd), (i, rp)] ∧ rd = (srv d cat).1 ∧ rd.status = .OK ∧
      rd.n ≠ 0 ∧ rp.status ≠ .OK ∧ o.status = rp.status) ∨
    (∃ rd rc, o.issued = [(d, rd), (c, rc)] ∧ rd = (srv d cat).1 ∧ rd.status = .OK ∧
      rd.n = 0 ∧ rc.status ≠ .OK ∧ o.status = rc.status) ∨
    (∃ rd rp rc, o.issued = [(d, rd), (i, rp), (c, rc)] ∧ rd = (srv d cat).1 ∧
      rd.status = .OK ∧ rd.n ≠ 0 ∧ rp.status = .OK ∧ rc.status ≠ .OK ∧ o.status = rc.status) ∨
    (∃ rd rc rx, o.issued = [(d, rd), (c, rc), (x, rx)] ∧ rd = (srv d cat).1 ∧
      rd.status = .OK ∧ rd.n = 0 ∧ rc.status = .OK ∧ o.status = rx.status) ∨
    (∃ rd rp rc rx, o.issued = [(d, rd), (i, rp), (c, rc), (x, rx)] ∧ rd = (srv d cat).1 ∧
      rd.status = .OK ∧ rd.n ≠ 0 ∧ rp.status = .OK ∧ rc.status = .OK ∧
      o.status = rx.status) := by
  intro o d i c x
  have h1 := deleteCollection_shape srv isConfigServer t coll.nss coll.uuid wc osi uct cat
  have h2 := removeCollAndChunksMetadataFromConfig_shape srv isConfigServer t coll wc osi uct cat
  simp only at h1 h2
  rcases h2 with ⟨hne, hs, hi⟩ | ⟨hdc, rc, hrc, hs, hi⟩ | ⟨hdc, rc, rx, hrc, hs, hi⟩
  · rcases h1 with ⟨h1i, _⟩ | ⟨rd, h1i, hrd, hrdne, h1s⟩ | ⟨rd, h1i, hrd, hrdok, hn, h1s⟩ |
      ⟨rd, rp, h1i, hrd, hrdok, hn, h1s⟩
    · left; exact ⟨by rw [hi, h1i], by rw [hs]; exact hne⟩
    · right; left; exact ⟨rd, by rw [hi, h1i], hrd, hrdne, by rw [hs, h1s]⟩
    · exact absurd h1s hne
    · right; right; left
      exact ⟨rd, rp, by rw [hi, h1i], hrd, hrdok, hn, by rw [← h1s]; exact hne, by rw [hs, h1s]⟩
  · rcases h1 with ⟨_, h1s⟩ | ⟨rd, h1i, hrd, hrdne, h1s⟩ | ⟨rd, h1i, hrd, hrdok, hn, h1s⟩ |
      ⟨rd, rp, h1i, hrd, hrdok, hn, h1s⟩
    · exact absurd hdc h1s
    · rw [h1s] at hdc; exact absurd hdc hrdne
    · right; right; right; left
      exact ⟨rd, rc, by rw [hi, h1i]; rfl, hrd, hrdok, hn, hrc, hs⟩
    · right; right; right; right; left
      exact ⟨rd, rp, rc, by rw [hi, h1i]; rfl, hrd, hrdok, hn, by rw [← h1s]; exact hdc, hrc, hs⟩
  · rcases h1 with ⟨_, h1s⟩ | ⟨rd, h1i, hrd, hrdne, h1s⟩ | ⟨rd, h1i, hrd, hrdok, hn, h1s⟩ |
      ⟨rd, rp, h1i, hrd, hrdok, hn, h1s⟩
    · exact absurd hdc h1s
    · rw [h1s] at hdc; exact absurd hdc hrdne
    · right; right; right; right; right; left
      exact ⟨rd, rc, rx, by rw [hi, h1i]; rfl, hrd, hrdok, hn, hrc, hs⟩
    · right; right; right; right; right; right
      exact ⟨rd, rp, rc, rx, by rw [hi, h1i]; rfl, hrd, hrdok, hn, by rw [← h1s]; exact hdc,
        hrc, hs⟩

theorem split_cons {α : Type} (a e : α) (l pre post : List α) (h : a :: l = pre ++ e :: post) :
    (pre = [] ∧ e = a ∧ post = l) ∨ ∃ pre1, pre = a :: pre1 ∧ l = pre1 ++ e :: post := by
  cases pre with
  | nil => simp at h; exact Or.inl ⟨rfl, h.1.symm, h.2.symm⟩
  | cons b l1 => simp at h; exact Or.inr ⟨l1, by rw [h.1], h.2⟩

/-- A log whose entries before the last one all succeeded stops at its first failure. -/
theorem failfast_of_concat (status : Status)
    (init : List (CatalogRequest × BatchedCommandResponse))
    (last : CatalogRequest × BatchedCommandResponse)
    (h1 : ∀ e ∈ init, e.2.status = .OK)
    (h2 : last.2.status ≠ .OK → status = last.2.status) :
    ∀ pre e post, init ++ [last] = pre ++ e :: post → e.2.status ≠ .OK →
      post = [] ∧ status = e.2.status := by
  intro pre e post h hne
  rcases List.eq_nil_or_concat post with hp | ⟨post1, z, hp⟩
  · subst hp
    have h3 : init ++ [last] = pre ++ [e] := h
    have h4 := List.append_inj' h3 rfl
    have h5 : last = e := by simpa using h4.2
    subst h5
    exact ⟨rfl, h2 hne⟩
  · subst hp
    have h3 : init ++ [last] = (pre ++ e :: post1) ++ [z] := by
      rw [h]; simp
    have h4 := List.append_inj' h3 rfl
    have h5 : e ∈ init := by rw [h4.1]; simp
    exact absurd (h1 e h5) hne

/-- C5. Abort on failure: against every config server and on every catalog, in a run
of `removeCollAndChunksMetadataFromConfig` a step (collection-entry delete,
placement-history insert, chunk delete, index-catalog delete) that returns a non-OK
status is the last step issued and the call fails with exactly that status; in
particular, when the collection-entry delete fails no placement-history insert is
issued. -/
theorem removeCollAndChunksMetadataFromConfig_abort_on_failure (srv : ConfigServer)
    (isConfigServer : Bool) (clusterTime : Timestamp) (coll : CollectionType)
    (wc : WriteConcernOptions) (osi : OperationSessionInfo) (uct : Bool) (cat : ConfigCatalog) :
    let out :=
      removeCollAndChunksMetadataFromConfig srv isConfigServer clusterTime coll wc osi uct cat
    (∀ pre e post, out.issued = pre ++ e :: post → e.2.toStatus ≠ .OK →
      post = [] ∧ out.status = e.2.toStatus) ∧
    ((srv (runCRUDOp (newOpCtx wc osi) (.delete .collections ⟨some coll.nss, some coll.uuid⟩ false)
        0) cat).1.toStatus ≠ .OK →
      ∀ e ∈ out.issued, e.1.op.isPlacementInsert = false) := by
  intro out
  have h := removeCollAndChunksMetadataFromConfig_courses srv isConfigServer clusterTime coll wc
    osi uct cat
  simp only at h
  rcases h with ⟨hi, _⟩ | ⟨rd, hi, hrd, hrdne, hs⟩ | ⟨rd, rp, hi, hrd, hrdok, hn, hrp, hs⟩ |
    ⟨rd, rc, hi, hrd, hrdok, hn, hrc, hs⟩ | ⟨rd, rp, rc, hi, hrd, hrdok, hn, hrp, hrc, hs⟩ |
    ⟨rd, rc, rx, hi, hrd, hrdok, hn, hrc, hs⟩ | ⟨rd, rp, rc, rx, hi, hrd, hrdok, hn, hrp, hrc, hs⟩
  · refine ⟨?_, ?_⟩
    · intro pre e post h; rw [hi] at h; simp at h
    · intro _ e he; rw [hi] at he; simp at he
  · refine ⟨?_, ?_⟩
    · rw [hi]
      exact failfast_of_concat out.status [] _ (by simp) (fun _ => hs)
    · intro _ e he
      rw [hi] at he
      simp at he
      rw [he]; rfl
  · refine ⟨?_, fun hf => absurd (hrd ▸ hrdok) hf⟩
    rw [hi]
    exact failfast_of_concat out.status [_] _ (by simpa using hrdok) (fun _ => hs)
  · refine ⟨?_, fun hf => absurd (hrd ▸ hrdok) hf⟩
    rw [hi]
    exact failfast_of_concat out.status [_] _ (by simpa using hrdok) (fun _ => hs)
  · refine ⟨?_, fun hf => absurd (hrd ▸ hrdok) hf⟩
    rw [hi]
    exact failfast_of_concat out.status [_, _] _ (by simp [hrdok, hrp]) (fun _ => hs)
  · refine ⟨?_, fun hf => absurd (hrd ▸ hrdok) hf⟩
    rw [hi]
    exact failfast_of_concat out.status [_, _] _ (by simp [hrdok, hrc]) (fun _ => hs)
  · refine ⟨?_, fun hf => absurd (hrd ▸ hrdok) hf⟩
    rw [hi]
    exact failfast_of_concat out.status [_, _, _] _ (by simp [hrdok, hrp, hrc]) (fun _ => hs)

/-- Witness of C5: the chunk delete of the drop of `db.orders` fails; it is the last
step issued and the call fails with its status. -/
theorem removeCollAndChunksMetadataFromConfig_abort_on_failure_witness :
    (removeCollAndChunksMetadataFromConfig (configServer chunkFault) true 42 ordersColl
      kMajorityWriteConcern ordersOsi false ordersCatalog).issued =
      [(runCRUDOp (newOpCtx kMajorityWriteConcern ordersOsi)
          (.delete .collections ⟨some ⟨"db", "orders"⟩, some 7⟩ false) 0, ⟨.OK, 1⟩),
        (runCRUDOp (newOpCtx kMajorityWriteConcern ordersOsi)
          (.insertPlacementHistory ⟨⟨"db", "orders"⟩, 42, [], some 7⟩) 1, ⟨.OK, 1⟩)] ++
        (runBatchWriteCommand (.delete .chunks ⟨none, some 7⟩ true) kMajorityWriteConcern,
          ⟨.error 6 "host unreachable", 0⟩) :: [] ∧
    (removeCollAndChunksMetadataFromConfig (configServer chunkFault) true 42 ordersColl
      kMajorityWriteConcern ordersOsi false ordersCatalog).status
      = .error 6 "host unreachable" :=
  ⟨by decide,
    ((removeCollAndChunksMetadataFromConfig_abort_on_failure (configServer chunkFault) true 42
      ordersColl kMajorityWriteConcern ordersOsi false ordersCatalog).1
      [(runCRUDOp (newOpCtx kMajorityWriteConcern ordersOsi)
          (.delete .collections ⟨some ⟨"db", "orders"⟩, some 7⟩ false) 0, ⟨.OK, 1⟩),
        (runCRUDOp (newOpCtx kMajorityWriteConcern ordersOsi)
          (.insertPlacementHistory ⟨⟨"db", "orders"⟩, 42, [], some 7⟩) 1, ⟨.OK, 1⟩)]
      (runBatchWriteCommand (.delete .chunks ⟨none, some 7⟩ true) kMajorityWriteConcern,
          ⟨.error 6 "host unreachable", 0⟩) [] (by decide) (by decide)).2⟩

/-- C4. Ordering of the drop: against every config server and on every catalog, a
successful run of `removeCollAndChunksMetadataFromConfig` issues exactly, in this order,
the delete of the `config.collections` entry under statement id 0, the placement-history
insert under statement id 1 (exactly when the delete reported a removed document), the
multi-delete of the chunk entries of the uuid and the multi-delete of the index-catalog
entries of the uuid; and in every run, successful or not, a chunk or index-catalog delete
is preceded by the collection-entry delete, which returned `OK`. -/
theorem removeCollAndChunksMetadataFromConfig_ordering (srv : ConfigServer)
    (isConfigServer : Bool) (clusterTime : Timestamp) (coll : CollectionType)
    (wc : WriteConcernOptions) (osi : OperationSessionInfo) (uct : Bool) (cat : ConfigCatalog) :
    let out :=
      removeCollAndChunksMetadataFromConfig srv isConfigServer clusterTime coll wc osi uct cat
    (out.status = .OK →
      ∃ rd, out.issued.head?.map Prod.snd = some rd ∧ rd.toStatus = .OK ∧
        out.issued.map (fun e => (e.1.op, e.1.stmtId)) =
          [(WriteOp.delete .collections ⟨some coll.nss, some coll.uuid⟩ false, some 0)] ++
          (if rd.getN = 0 then []
           else [(WriteOp.insertPlacementHistory ⟨coll.nss, clusterTime, [], some coll.uuid⟩,
                  some 1)]) ++
          [(WriteOp.delete .chunks ⟨none, some coll.uuid⟩ true, none),
           (WriteOp.delete .indexCatalog ⟨none, some coll.uuid⟩ true, none)]) ∧
    (∀ pre e post, out.issued = pre ++ e :: post →
      (e.1.op.isDeleteOn .chunks = true ∨ e.1.op.isDeleteOn .indexCatalog = true) →
      ∃ first rest, pre = first :: rest ∧
        first.1.op = WriteOp.delete .collections ⟨some coll.nss, some coll.uuid⟩ false ∧
        first.1.stmtId = some 0 ∧ first.2.toStatus = .OK) := by
  intro out
  have h := removeCollAndChunksMetadataFromConfig_courses srv isConfigServer clusterTime coll wc
    osi uct cat
  simp only at h
  have key : ∀ (rd : BatchedCommandResponse)
      (tail : List (CatalogRequest × BatchedCommandResponse)),
      out.issued = (runCRUDOp (newOpCtx wc osi) (deleteCollectionOp coll.nss coll.uuid) 0, rd)
        :: tail → (tail ≠ [] → rd.status = .OK) →
      ∀ pre e post, out.issued = pre ++ e :: post →
      (e.1.op.isDeleteOn .chunks = true ∨ e.1.op.isDeleteOn .indexCatalog = true) →
      ∃ first rest, pre = first :: rest ∧
        first.1.op = WriteOp.delete .collections ⟨some coll.nss, some coll.uuid⟩ false ∧
        first.1.stmtId = some 0 ∧ first.2.toStatus = .OK := by
    intro rd tail hi hok pre e post hsplit he
    rw [hi] at hsplit
    rcases split_cons _ _ _ _ _ hsplit with ⟨_, hee, _⟩ | ⟨pre1, hpre, htail⟩
    · subst hee
      simp [runCRUDOp, deleteCollectionOp, WriteOp.isDeleteOn] at he
    · refine ⟨_, pre1, hpre, rfl, rfl, hok ?_⟩
      rw [htail]; simp
  rcases h with ⟨hi, hs⟩ | ⟨rd, hi, hrd, hrdne, hs⟩ | ⟨rd, rp, hi, hrd, hrdok, hn, hrp, hs⟩ |
    ⟨rd, rc, hi, hrd, hrdok, hn, hrc, hs⟩ | ⟨rd, rp, rc, hi, hrd, hrdok, hn, hrp, hrc, hs⟩ |
    ⟨rd, rc, rx, hi, hrd, hrdok, hn, hrc, hs⟩ | ⟨rd, rp, rc, rx, hi, hrd, hrdok, hn, hrp, hrc, hs⟩
  · refine ⟨fun hok => absurd hok hs, ?_⟩
    intro pre e post h; rw [hi] at h; simp at h
  · refine ⟨fun hok => absurd (hs ▸ hok) hrdne, key rd [] hi (fun h => absurd rfl h)⟩
  · refine ⟨fun hok => absurd (hs ▸ hok) hrp, key rd _ hi (fun _ => hrdok)⟩
  · refine ⟨fun hok => absurd (hs ▸ hok) hrc, key rd _ hi (fun _ => hrdok)⟩
  · refine ⟨fun hok => absurd (hs ▸ hok) hrc, key rd _ hi (fun _ => hrdok)⟩
  · refine ⟨fun _ => ⟨rd, by rw [hi]; rfl, hrdok, ?_⟩, key rd _ hi (fun _ => hrdok)⟩
    rw [hi]
    simp [BatchedCommandResponse.getN, hn, runCRUDOp, runBatchWriteCommand, deleteCollectionOp,
      deleteChunksOp, deleteShardingIndexCatalogMetadataOp]
  · refine ⟨fun _ => ⟨rd, by rw [hi]; rfl, hrdok, ?_⟩, key rd _ hi (fun _ => hrdok)⟩
    rw [hi]
    simp [BatchedCommandResponse.getN, hn, runCRUDOp, runBatchWriteCommand, deleteCollectionOp,
      deleteChunksOp, deleteShardingIndexCatalogMetadataOp, insertPlacementEntryOp]

/-- Witness of C4: the four writes of the drop of `db.orders`, in order. -/
theorem removeCollAndChunksMetadataFromConfig_ordering_witness :
    (removeCollAndChunksMetadataFromConfig (configServer noFault) true 42 ordersColl
      kMajorityWriteConcern ordersOsi false ordersCatalog).status = .OK ∧
    ∃ rd, (removeCollAndChunksMetadataFromConfig (configServer noFault) true 42 ordersColl
        kMajorityWriteConcern ordersOsi false ordersCatalog).issued.head?.map Prod.snd
        = some rd ∧ rd.toStatus = .OK ∧
      (removeCollAndChunksMetadataFromConfig (configServer noFault) true 42 ordersColl
        kMajorityWriteConcern ordersOsi false ordersCatalog).issued.map
          (fun e => (e.1.op, e.1.stmtId)) =
        [(WriteOp.delete .collections ⟨some ordersColl.nss, some ordersColl.uuid⟩ false,
            some 0)] ++
        (if rd.getN = 0 then []
         else [(WriteOp.insertPlacementHistory ⟨ordersColl.nss, 42, [], some ordersColl.uuid⟩,
                some 1)]) ++
        [(WriteOp.delete .chunks ⟨none, some ordersColl.uuid⟩ true, none),
         (WriteOp.delete .indexCatalog ⟨none, some ordersColl.uuid⟩ true, none)] :=
  ⟨by decide,
    (removeCollAndChunksMetadataFromConfig_ordering (configServer noFault) true 42 ordersColl
      kMajorityWriteConcern ordersOsi false ordersCatalog).1 (by decide)⟩

end sharding_ddl_util

end mongo

namespace mongo

/-! ## The DDL coordinator service and the DDL locks: the claims -/

namespace ShardingDDLCoordinatorService

theorem waitForRecovery_zero (s : Service) (timeline : List (Option Event)) :
    waitForRecovery 0 s timeline =
      if s.state = .kRecovered then .returned s 0 timeline
      else .failed (.error ErrorCodes.LockTimeout "timed out waiting for recovery") s := by
  unfold waitForRecovery
  split <;> rfl

theorem waitForRecovery_recovered (timeout : Nat) (s : Service) (timeline : List (Option Event))
    (h : s.state = .kRecovered) : waitForRecovery timeout s timeline = .returned s timeout timeline := by
  unfold waitForRecovery
  simp [h]

theorem waitForRecoveryCompletion_state (timeline : List (Option Event)) :
    ∀ (s s1 : Service), waitForRecoveryCompletion s timeline = some (.ok s1) →
      s1.state = .kRecovered := by
  induction timeline with
  | nil =>
    intro s s1 h
    unfold waitForRecoveryCompletion at h
    by_cases hs : s.state = .kRecovered
    · simp [hs] at h; rw [← h]; exact hs
    · simp [hs] at h
  | cons e rest ih =>
    intro s s1 h
    unfold waitForRecoveryCompletion at h
    by_cases hs : s.state = .kRecovered
    · simp [hs] at h; rw [← h]; exact hs
    · simp only [hs, if_false] at h
      cases e with
      | none => exact ih s s1 h
      | some ev =>
        cases ev with
        | stepDown => simp at h
        | stepUp => exact ih _ s1 h
        | recoveryDone => exact ih _ s1 h

/-- C7. Recovery state machine: in every state of the DDL coordinator service (the
initial one is `Paused`), a step-down leaves the state `Paused`, a step-up moves `Paused`
to `Recovering`, an event that makes the state `Recovered` is the end of the rebuild in
state `Recovering`, and whenever `waitForRecoveryCompletion` returns successfully the
state is `Recovered`; it does return when the rebuild ends while it waits in
`Recovering`. -/
theorem recovery_state_machine (s : Service) :
    (∀ persisted, (Service.init persisted).state = .kPaused) ∧
    (s.step .stepDown).state = .kPaused ∧
    (s.state = .kPaused → (s.step .stepUp).state = .kRecovering) ∧
    (∀ e, (s.step e).state = .kRecovered → s.state ≠ .kRecovered →
      s.state = .kRecovering ∧ e = .recoveryDone) ∧
    (∀ timeline s1, waitForRecoveryCompletion s timeline = some (.ok s1) →
      s1.state = .kRecovered) ∧
    (s.state = .kRecovering → ∀ rest,
      waitForRecoveryCompletion s (some .recoveryDone :: rest)
        = some (.ok (s.step .recoveryDone))) := by
  refine ⟨fun _ => rfl, rfl, ?_, ?_, ?_, ?_⟩
  · intro h
    simp [Service.step, h]
  · intro e he hne
    cases e with
    | stepDown => simp [Service.step] at he
    | stepUp =>
      by_cases hp : s.state = .kPaused
      · simp [Service.step, hp] at he
      · simp [Service.step, hp] at he
        exact absurd he hne
    | recoveryDone =>
      by_cases hr : s.state = .kRecovering
      · exact ⟨hr, rfl⟩
      · simp [Service.step, hr] at he
        exact absurd he hne
  · intro timeline s1 h
    exact waitForRecoveryCompletion_state timeline s s1 h
  · intro h rest
    unfold waitForRecoveryCompletion
    simp only [h, if_false, reduceCtorEq]
    unfold waitForRecoveryCompletion
    simp [Service.step, h]

/-- Witness of C7: the test `StateTransitions`: after a step-down the state is `Paused`;
after a step-up and the end of the rebuild `waitForRecoveryCompletion` returns in state
`Recovered`. -/
theorem recovery_state_machine_witness :
    ((Service.init ["dropCollection db.orders"]).step .stepDown).state = .kPaused ∧
    (((Service.init ["dropCollection db.orders"]).step .stepDown).step .stepUp).state
      = .kRecovering ∧
    ∃ s1, waitForRecoveryCompletion
        (((Service.init ["dropCollection db.orders"]).step .stepDown).step .stepUp)
        [none, some .recoveryDone] = some (.ok s1) ∧ s1.state = .kRecovered :=
  ⟨(recovery_state_machine (Service.init ["dropCollection db.orders"])).2.1,
    (recovery_state_machine ((Service.init ["dropCollection db.orders"]).step .stepDown)).2.2.1
      (by decide),
    ⟨⟨.kRecovered, ["dropCollection db.orders"], ["dropCollection db.orders"]⟩, rfl,
      (recovery_state_machine
        (((Service.init ["dropCollection db.orders"]).step .stepDown).step .stepUp)).2.2.2.2.1
        [none, some .recoveryDone]
        ⟨.kRecovered, ["dropCollection db.orders"], ["dropCollection db.orders"]⟩ rfl⟩⟩

end ShardingDDLCoordinatorService

namespace DDLLockManager

open ShardingDDLCoordinatorService

/-- A request that bypasses the recovery wait is granted on an uncontended resource. -/
theorem ScopedBaseDDLLock_bypass (node : Node) (resource : ResourceName) (reason : String)
    (mode : LockMode) (timeout : Nat) (h : uncontended node.locks resource mode = true) :
    ScopedBaseDDLLock node resource reason mode timeout false =
      .ok { node with locks := ⟨resource, mode, reason⟩ :: node.locks } := by
  simp [ScopedBaseDDLLock, h]

/-- A request that waits for recovery is granted at once on an uncontended resource
when the service is `Recovered`. -/
theorem ScopedBaseDDLLock_recovered (node : Node) (resource : ResourceName) (reason : String)
    (mode : LockMode) (timeout : Nat) (h : uncontended node.locks resource mode = true)
    (hs : node.service.state = .kRecovered) :
    ScopedBaseDDLLock node resource reason mode timeout true =
      .ok { node with locks := ⟨resource, mode, reason⟩ :: node.locks } := by
  simp [ScopedBaseDDLLock, waitForRecovery_recovered timeout node.service node.timeline hs, h]

/-- A request that waits for recovery with zero timeout fails with `LockTimeout` when the
service is not `Recovered`. -/
theorem ScopedBaseDDLLock_gated (node : Node) (resource : ResourceName) (reason : String)
    (mode : LockMode) (hs : node.service.state ≠ .kRecovered) :
    ScopedBaseDDLLock node resource reason mode 0 true =
      .error (.error ErrorCodes.LockTimeout "timed out waiting for DDL coordinator recovery") := by
  simp [ScopedBaseDDLLock, waitForRecovery_zero, hs]

/-- A database lock does not contend with a collection lock. -/
theorem uncontended_after_database (locks : List DDLLock) (db : DatabaseName)
    (ns : NamespaceString) (reason : String) (m mode : LockMode)
    (h : uncontended locks (.collection ns) mode = true) :
    uncontended (⟨.database db, m, reason⟩ :: locks) (.collection ns) mode = true := by
  simp only [uncontended, List.all_cons] at h ⊢
  rw [h]
  simp

/-- C6. Lock gating: for every database/collection resource pair that is uncontended,
while the service is `Paused` or `Recovering` a request that waits for recovery with
zero timeout fails with `LockTimeout` and a request that does not wait for recovery
succeeds; once the service is `Recovered` both kinds of request succeed.  A request that
succeeds leaves the node as it was, with the database lock and the collection lock of the
request added to the locks held. -/
theorem ddl_lock_gating (node : Node) (ns : NamespaceString) (reason : String) (mode : LockMode)
    (hdb : uncontended node.locks (.database ns.dbName) mode = true)
    (hcoll : uncontended node.locks (.collection ns) mode = true) :
    ((node.service.state = .kPaused ∨ node.service.state = .kRecovering) →
      failsWithLockTimeout (acquireDbAndCollDDLLocks node ns reason mode 0 true) ∧
      acquireDbAndCollDDLLocksWithoutWaitingForRecovery node ns reason mode 0 =
        .ok { node with
          locks := ⟨.collection ns, mode, reason⟩ :: ⟨.database ns.dbName, mode, reason⟩ ::
            node.locks }) ∧
    (node.service.state = .kRecovered →
      acquireDbAndCollDDLLocks node ns reason mode 0 true =
        .ok { node with
          locks := ⟨.collection ns, mode, reason⟩ :: ⟨.database ns.dbName, mode, reason⟩ ::
            node.locks } ∧
      acquireDbAndCollDDLLocksWithoutWaitingForRecovery node ns reason mode 0 =
        .ok { node with
          locks := ⟨.collection ns, mode, reason⟩ :: ⟨.database ns.dbName, mode, reason⟩ ::
            node.locks }) := by
  have hbypass : acquireDbAndCollDDLLocksWithoutWaitingForRecovery node ns reason mode 0 =
      .ok { node with
        locks := ⟨.collection ns, mode, reason⟩ :: ⟨.database ns.dbName, mode, reason⟩ ::
          node.locks } := by
    unfold acquireDbAndCollDDLLocksWithoutWaitingForRecovery acquireDbAndCollDDLLocks
    rw [ScopedBaseDDLLock_bypass node _ reason mode 0 hdb]
    simp only
    exact ScopedBaseDDLLock_bypass
      { node with locks := ⟨.database ns.dbName, mode, reason⟩ :: node.locks } _ reason mode 0
      (uncontended_after_database node.locks ns.dbName ns reason mode mode hcoll)
  refine ⟨fun hs => ⟨?_, hbypass⟩, fun hs => ⟨?_, hbypass⟩⟩
  · have hne : node.service.state ≠ .kRecovered := by
      rcases hs with h | h <;> rw [h] <;> decide
    unfold acquireDbAndCollDDLLocks
    rw [ScopedBaseDDLLock_gated node _ reason mode hne]
    exact ⟨_, rfl⟩
  · unfold acquireDbAndCollDDLLocks
    rw [ScopedBaseDDLLock_recovered node _ reason mode 0 hdb hs]
    simp only
    exact ScopedBaseDDLLock_recovered
      { node with locks := ⟨.database ns.dbName, mode, reason⟩ :: node.locks } _ reason mode 0
      (uncontended_after_database node.locks ns.dbName ns reason mode mode hcoll) hs

/-- Witness of C6: the test on `test.coll` in mode X right after a step-down: the request
that waits for recovery fails with `LockTimeout`, the one that does not is granted the
lock on `test` and the lock on `test.coll`. -/
theorem ddl_lock_gating_witness :
    uncontended (idleNode .kPaused).locks (.database testNss.dbName) .MODE_X = true ∧
    uncontended (idleNode .kPaused).locks (.collection testNss) .MODE_X = true ∧
    failsWithLockTimeout
      (acquireDbAndCollDDLLocks (idleNode .kPaused) testNss "dummyReason" .MODE_X 0 true) ∧
    acquireDbAndCollDDLLocksWithoutWaitingForRecovery (idleNode .kPaused) testNss
        "dummyReason" .MODE_X 0 =
      .ok { service := { state := .kPaused, persisted := [], coordinators := [] }
            locks := [⟨.collection ⟨"test", "coll"⟩, .MODE_X, "dummyReason"⟩,
                      ⟨.database "test", .MODE_X, "dummyReason"⟩]
            timeline := [] } :=
  ⟨by decide, by decide,
    (ddl_lock_gating (idleNode .kPaused) testNss "dummyReason" .MODE_X (by decide)
      (by decide)).1 (Or.inl rfl)⟩

end DDLLockManager

/-! ## The migration write observer: the claims -/

namespace MigrationChunkClonerSourceOpObserver

theorem check_no_cloner (e : Effect) (st : Status) (next : HookOutcome)
    (he : e.isClonerCall = false) (hn : ∀ x ∈ next.effects, x.isClonerCall = false) :
    ∀ x ∈ (check e st next).effects, x.isClonerCall = false := by
  intro x hx
  cases st with
  | OK =>
    simp only [check, List.mem_cons] at hx
    rcases hx with h | h
    · rw [h]; exact he
    · exact hn x h
  | error c r =>
    simp only [check, List.mem_singleton] at hx
    rw [hx]; exact he

theorem assertNoMovePrimaryInProgress_no_cloner (opCtx : OperationContext)
    (nss : NamespaceString) :
    ∀ x ∈ (assertNoMovePrimaryInProgress opCtx nss).effects, x.isClonerCall = false := by
  intro x hx
  unfold assertNoMovePrimaryInProgress at hx
  split at hx
  · simp [done] at hx
  · split at hx <;> simp at hx <;> rw [hx] <;> rfl

theorem done_no_cloner : ∀ x ∈ done.effects, x.isClonerCall = false := by
  intro x hx
  simp [done] at hx

/-- C8. Unsharded writes never touch the cloner: when the metadata of the collection, as
seen through the sharding runtime the hook consults, is unknown or not sharded,
`onInserts`, `onUpdate` and `onDelete` call none of `onInsertOp`, `onUpdateOp`,
`onDeleteOp`, whatever the other inputs are. -/
theorem unsharded_writes_never_touch_cloner (opCtx : OperationContext) (coll : CollectionPtr)
    (docs : List InsertStatement) (fromMigrate : List Bool) (defaultFromMigrate : Bool)
    (updateArgs : CollectionUpdateArgs) (stmtId : StmtId) (deleteArgs : OplogDeleteEntryArgs)
    (opAccumulator : OpStateAccumulator)
    (hrouter : ∀ r, opAccumulator.shardingWriteRouter = some r →
      notSharded r.getCss.getCurrentMetadataIfKnown = true)
    (hcss : notSharded (opCtx.collectionShardingState coll.ns).getCurrentMetadataIfKnown
      = true) :
    (∀ e ∈ (onInserts opCtx coll docs fromMigrate defaultFromMigrate opAccumulator).effects,
      e.isClonerCall = false) ∧
    (∀ e ∈ (onUpdate opCtx ⟨updateArgs, coll⟩ opAccumulator).effects,
      e.isClonerCall = false) ∧
    (∀ e ∈ (onDelete opCtx coll stmtId deleteArgs opAccumulator).effects,
      e.isClonerCall = false) := by
  refine ⟨?_, ?_, ?_⟩
  · unfold onInserts
    cases hr : opAccumulator.shardingWriteRouter with
    | none => exact done_no_cloner
    | some r =>
      have hns := hrouter r hr
      simp only
      by_cases h1 : defaultFromMigrate = true
      · simp only [h1, if_true]; exact done_no_cloner
      · simp only [h1, if_false]
        by_cases h2 : coll.ns = NamespaceString.kSessionTransactionsTableNamespace
        · simp only [h2, if_true]; exact done_no_cloner
        · simp only [h2, if_false]
          refine check_no_cloner _ _ _ ?_ (check_no_cloner _ _ _ ?_ ?_)
          · rfl
          · rfl
          · cases hm : r.getCss.getCurrentMetadataIfKnown with
            | none => exact assertNoMovePrimaryInProgress_no_cloner _ _
            | some m =>
              rw [hm] at hns
              simp only [notSharded] at hns
              simp only [hns, if_true]
              exact assertNoMovePrimaryInProgress_no_cloner _ _
  · unfold onUpdate
    cases hr : opAccumulator.shardingWriteRouter with
    | none => exact done_no_cloner
    | some r =>
      have hns := hrouter r hr
      simp only
      by_cases h1 : updateArgs.source = .kFromMigrate
      · simp only [h1, if_true]; exact done_no_cloner
      · simp only [h1, if_false]
        by_cases h0 : updateArgs.update.isEmpty = true
        · simp only [h0, if_true]; exact done_no_cloner
        · simp only [h0, if_false]
          by_cases h2 : coll.ns = NamespaceString.kSessionTransactionsTableNamespace
          · simp only [h2, if_true]; exact done_no_cloner
          · simp only [h2, if_false]
            refine check_no_cloner _ _ _ ?_ (check_no_cloner _ _ _ ?_ ?_)
            · rfl
            · rfl
            · cases hm : r.getCss.getCurrentMetadataIfKnown with
              | none => exact assertNoMovePrimaryInProgress_no_cloner _ _
              | some m =>
                rw [hm] at hns
                simp only [notSharded] at hns
                simp only [hns, if_true]
                exact assertNoMovePrimaryInProgress_no_cloner _ _
  · unfold onDelete
    by_cases h1 : deleteArgs.fromMigrate = true
    · simp only [h1, if_true]; exact done_no_cloner
    · simp only [h1, if_false]
      by_cases h2 : coll.ns = NamespaceString.kSessionTransactionsTableNamespace
      · simp only [h2, if_true]; exact done_no_cloner
      · simp only [h2, if_false]
        refine check_no_cloner _ _ _ ?_ (check_no_cloner _ _ _ ?_ ?_)
        · rfl
        · rfl
        · simp only [ShardingWriteRouter.getCss]
          cases hm : (opCtx.collectionShardingState coll.ns).getCurrentMetadataIfKnown with
          | none => exact assertNoMovePrimaryInProgress_no_cloner _ _
          | some m =>
            rw [hm] at hcss
            simp only [notSharded] at hcss
            simp only [hcss, if_true]
            exact assertNoMovePrimaryInProgress_no_cloner _ _

/-- Witness of C8: writes on an unsharded collection on which a cloner is set. -/
theorem unsharded_writes_never_touch_cloner_witness :
    (∀ r, unshardedAccumulator.shardingWriteRouter = some r →
      notSharded r.getCss.getCurrentMetadataIfKnown = true) ∧
    notSharded
      (unshardedOpCtx.collectionShardingState ordersCollPtr.ns).getCurrentMetadataIfKnown
      = true ∧
    (∀ e ∈ (onInserts unshardedOpCtx ordersCollPtr ordersBatch [] false
      unshardedAccumulator).effects, e.isClonerCall = false) :=
  ⟨fun r hr => by cases hr; rfl, rfl,
    (unsharded_writes_never_touch_cloner unshardedOpCtx ordersCollPtr ordersBatch [] false
      ordersUpdate.updateArgs 0 ordersDelete unshardedAccumulator
      (fun r hr => by cases hr; rfl) rfl).1⟩

theorem check_ok (e : Effect) (next : HookOutcome) :
    check e .OK next = ⟨next.status, e :: next.effects⟩ := rfl

/-- Outside a transaction and with a cloner, the loop of `onInserts` forwards every
document of the batch with its op time. -/
theorem onInsertsLoop_forwards (opCtx : OperationContext) (csr : CollectionShardingRuntime)
    (metadata : CollectionMetadata) (cloner : MigrationChunkClonerSource)
    (opTimeList : List repl.OpTime)
    (hc : MigrationSourceManager.getCurrentCloner csr = some cloner) :
    ∀ (docs : List InsertStatement) (index : Nat),
      (opTimeList = [] ∨ index + docs.length ≤ opTimeList.length) →
      onInsertsLoop opCtx csr metadata false opTimeList docs index =
        ⟨.OK,
          if opTimeList.isEmpty then
            docs.map (fun it => Effect.onInsertOp cloner it.doc repl.OpTime.null)
          else
            List.zipWith (fun it t => Effect.onInsertOp cloner it.doc t) docs
              (opTimeList.drop index)⟩ := by
  intro docs
  induction docs with
  | nil =>
    intro index _
    simp [onInsertsLoop, done]
  | cons it rest ih =>
    intro index h
    rcases h with h | h
    · subst h
      have := ih (index + 1) (Or.inl rfl)
      simp only [onInsertsLoop, List.isEmpty_nil, if_true, hc, this]
      simp
    · have hlen : index < opTimeList.length := by
        simp only [List.length_cons] at h; omega
      have hne : opTimeList.isEmpty = false := by
        cases opTimeList with
        | nil => simp at hlen
        | cons a l => rfl
      have hrest := ih (index + 1) (Or.inr (by simp only [List.length_cons] at h; omega))
      have hdrop : opTimeList.drop index = opTimeList[index] :: opTimeList.drop (index + 1) :=
        List.drop_eq_getElem_cons hlen
      simp only [onInsertsLoop, hne, hc, hrest, List.getElem?_eq_getElem hlen]
      rw [hdrop, List.zipWith_cons_cons]
      rfl

/-- The amended C9. Insert mirroring: for every insert batch on a sharded collection with
an active cloner, outside a multi-document transaction and with `defaultFromMigrate`
false, provided a `ShardingWriteRouter` is attached to the accumulator, the namespace is
not the session-transactions table, the shard-version and database-version checks pass
and `insertOpTimes` is empty or holds an op time for every document, `onInserts` returns
normally and calls `onInsertOp` once per document, in batch order, with the full document
and its op time (`insertOpTimes[i]`, or the null op time when there are no op times), and
makes no other cloner call. -/
theorem onInserts_mirrors_batch (opCtx : OperationContext) (coll : CollectionPtr)
    (docs : List InsertStatement) (fromMigrate : List Bool) (opAccumulator : OpStateAccumulator)
    (router : ShardingWriteRouter) (metadata : CollectionMetadata)
    (cloner : MigrationChunkClonerSource)
    (hrouter : opAccumulator.shardingWriteRouter = some router)
    (hns : coll.ns ≠ NamespaceString.kSessionTransactionsTableNamespace)
    (hsv : router.getCss.shardVersionCheck = .OK)
    (hdbv : opCtx.dbVersionCheck coll.ns.dbName = .OK)
    (hmeta : router.getCss.getCurrentMetadataIfKnown = some metadata)
    (hsharded : metadata.isSharded = true)
    (hcloner : MigrationSourceManager.getCurrentCloner router.getCss = some cloner)
    (htxn : inMultiDocumentTransaction opCtx = false)
    (htimes : opAccumulator.insertOpTimes = [] ∨
      docs.length ≤ opAccumulator.insertOpTimes.length) :
    let out := onInserts opCtx coll docs fromMigrate false opAccumulator
    out.status = .OK ∧
    out.effects.filter Effect.isClonerCall =
      (if opAccumulator.insertOpTimes.isEmpty then
        docs.map (fun it => Effect.onInsertOp cloner it.doc repl.OpTime.null)
       else
        List.zipWith (fun it t => Effect.onInsertOp cloner it.doc t) docs
          opAccumulator.insertOpTimes) ∧
    out.effects.countP Effect.isInsertOp = docs.length := by
  intro out
  have hloop := onInsertsLoop_forwards opCtx router.getCss metadata cloner
    opAccumulator.insertOpTimes hcloner docs 0
    (by rcases htimes with h | h
        · exact Or.inl h
        · exact Or.inr (by omega))
  have hout : out = ⟨.OK,
      Effect.checkShardVersionOrThrow coll.ns :: Effect.assertMatchingDbVersion coll.ns.dbName ::
        (if opAccumulator.insertOpTimes.isEmpty then
          docs.map (fun it => Effect.onInsertOp cloner it.doc repl.OpTime.null)
         else
          List.zipWith (fun it t => Effect.onInsertOp cloner it.doc t) docs
            opAccumulator.insertOpTimes)⟩ := by
    simp only [out, onInserts, hrouter, hns, if_false, hsv, hdbv, check_ok, hmeta, hsharded,
      htxn, hloop, List.drop_zero, Bool.false_and, Bool.not_true, Bool.false_eq_true]
  rw [hout]
  refine ⟨rfl, ?_, ?_⟩
  · split
    · simp [List.filter_cons, Effect.isClonerCall, List.filter_map, Function.comp_def]
    · simp only [List.filter_cons, Effect.isClonerCall, Bool.false_eq_true, if_false]
      apply List.filter_eq_self.2
      intro e he
      obtain ⟨i, hi, rfl⟩ := List.mem_iff_get.1 he
      simp [Effect.isClonerCall]
  · split
    · simp [List.countP_cons, Effect.isInsertOp, List.countP_map, Function.comp_def]
    · next hne =>
      have hlen : (List.zipWith (fun it t => Effect.onInsertOp cloner it.doc t) docs
          opAccumulator.insertOpTimes).length = docs.length := by
        rcases htimes with h | h
        · rw [h] at hne; simp at hne
        · simp [List.length_zipWith, h]
      have hall : ∀ e ∈ List.zipWith (fun it t => Effect.onInsertOp cloner it.doc t) docs
          opAccumulator.insertOpTimes, Effect.isInsertOp e = true := by
        intro e he
        obtain ⟨i, hi, rfl⟩ := List.mem_iff_get.1 he
        simp [Effect.isInsertOp]
      simp only [List.countP_cons, Effect.isInsertOp, Bool.false_eq_true, if_false, Nat.add_zero]
      rw [List.countP_eq_length.2 hall, hlen]

/-- Witness of the amended C9: a batch of two documents on `db.orders`. -/
theorem onInserts_mirrors_batch_witness :
    (onInserts plainOpCtx ordersCollPtr ordersBatch [false, false] false
      ordersAccumulator).effects.filter Effect.isClonerCall =
      [Effect.onInsertOp ordersCloner [("x", 4), ("_id", 1)] ⟨100, 1⟩,
       Effect.onInsertOp ordersCloner [("x", 12), ("_id", 2)] ⟨101, 1⟩] :=
  (onInserts_mirrors_batch plainOpCtx ordersCollPtr ordersBatch [false, false]
    ordersAccumulator ⟨ordersCsr⟩ ordersMetadata ordersCloner rfl (by decide) rfl rfl rfl rfl
    rfl rfl (Or.inr (by decide))).2.1

/-- Counterexample to C9 as stated: a batch of two documents on the sharded collection
`db.orders` with an active cloner, outside a transaction and not from a migration.
With no `ShardingWriteRouter` attached to the accumulator, and also with a router whose
shard-version check fails, `onInserts` calls `onInsertOp` zero times, not twice. -/
theorem onInserts_mirrors_batch_counterexample :
    ((plainOpCtx.collectionShardingState ordersCollPtr.ns).getCurrentMetadataIfKnown.map
      (fun m => m.isSharded) = some true ∧
     MigrationSourceManager.getCurrentCloner (plainOpCtx.collectionShardingState ordersCollPtr.ns)
      = some ordersCloner ∧
     inMultiDocumentTransaction plainOpCtx = false ∧
     ordersBatch.length = 2) ∧
    (bareAccumulator.shardingWriteRouter.isNone = true ∧
     (onInserts plainOpCtx ordersCollPtr ordersBatch [false, false] false
      bareAccumulator).effects.countP Effect.isInsertOp ≠ ordersBatch.length) ∧
    (staleAccumulator.shardingWriteRouter.map
        (fun r => (r.getCss.getCurrentMetadataIfKnown.map (fun m => m.isSharded),
          MigrationSourceManager.getCurrentCloner r.getCss))
        = some (some true, some ordersCloner) ∧
     (onInserts plainOpCtx ordersCollPtr ordersBatch [false, false] false
      staleAccumulator).effects.countP Effect.isInsertOp ≠ ordersBatch.length) := by
  refine ⟨⟨rfl, rfl, rfl, rfl⟩, ⟨rfl, ?_⟩, ⟨rfl, ?_⟩⟩ <;> decide

/-- The amended C10. Update mirroring: for every update on a sharded collection with an
active cloner, outside a multi-document transaction and not from a migration, provided a
`ShardingWriteRouter` is attached to the accumulator, the update document is not empty,
the namespace is not the session-transactions table and the shard-version and
database-version checks pass, `onUpdate` returns normally and calls `onUpdateOp` exactly
once, with the pre-image, the post-image and the op time of the write, and makes no
other cloner call. -/
theorem onUpdate_mirrors (opCtx : OperationContext) (args : OplogUpdateEntryArgs)
    (opAccumulator : OpStateAccumulator) (router : ShardingWriteRouter)
    (metadata : CollectionMetadata) (cloner : MigrationChunkClonerSource)
    (hrouter : opAccumulator.shardingWriteRouter = some router)
    (hsource : args.updateArgs.source ≠ .kFromMigrate)
    (hupdate : args.updateArgs.update.isEmpty = false)
    (hns : args.coll.ns ≠ NamespaceString.kSessionTransactionsTableNamespace)
    (hsv : router.getCss.shardVersionCheck = .OK)
    (hdbv : opCtx.dbVersionCheck args.coll.ns.dbName = .OK)
    (hmeta : router.getCss.getCurrentMetadataIfKnown = some metadata)
    (hsharded : metadata.isSharded = true)
    (hcloner : MigrationSourceManager.getCurrentCloner router.getCss = some cloner)
    (htxn : inMultiDocumentTransaction opCtx = false) :
    let out := onUpdate opCtx args opAccumulator
    out.status = .OK ∧
    out.effects.filter Effect.isClonerCall =
      [Effect.onUpdateOp cloner args.updateArgs.preImageDoc args.updateArgs.updatedDoc
        opAccumulator.writeOpTime] ∧
    out.effects.countP Effect.isUpdateOp = 1 := by
  intro out
  have hout : out = ⟨.OK,
      [Effect.checkShardVersionOrThrow args.coll.ns,
        Effect.assertMatchingDbVersion args.coll.ns.dbName,
        Effect.onUpdateOp cloner args.updateArgs.preImageDoc args.updateArgs.updatedDoc
          opAccumulator.writeOpTime]⟩ := by
    simp only [out, onUpdate, hrouter, hsource, hupdate, hns, if_false, hsv, hdbv, check_ok,
      hmeta, hsharded, htxn, hcloner, Bool.not_true, Bool.false_eq_true]
  rw [hout]
  exact ⟨rfl, rfl, rfl⟩

/-- Witness of the amended C10: an update on `db.orders`. -/
theorem onUpdate_mirrors_witness :
    (onUpdate plainOpCtx ordersUpdate ordersAccumulator).effects.filter Effect.isClonerCall =
      [Effect.onUpdateOp ordersCloner [("x", 4), ("_id", 1), ("y", 1)]
        [("x", 4), ("_id", 1), ("y", 2)] ⟨101, 1⟩] :=
  (onUpdate_mirrors plainOpCtx ordersUpdate ordersAccumulator ⟨ordersCsr⟩ ordersMetadata
    ordersCloner rfl (by decide) rfl (by decide) rfl rfl rfl rfl rfl rfl).2.1

/-- Counterexample to C10 as stated: an update with an empty update document on the
sharded collection `db.orders` with an active cloner, outside a transaction and not from
a migration: `onUpdate` calls `onUpdateOp` zero times, not once; the same holds when no
`ShardingWriteRouter` is attached to the accumulator. -/
theorem onUpdate_mirrors_counterexample :
    (ordersAccumulator.shardingWriteRouter.map
        (fun r => (r.getCss.getCurrentMetadataIfKnown.map (fun m => m.isSharded),
          MigrationSourceManager.getCurrentCloner r.getCss))
        = some (some true, some ordersCloner) ∧
     inMultiDocumentTransaction plainOpCtx = false ∧
     emptyUpdate.updateArgs.source ≠ .kFromMigrate ∧
     ordersUpdate.updateArgs.source ≠ .kFromMigrate) ∧
    (onUpdate plainOpCtx emptyUpdate ordersAccumulator).effects.countP Effect.isUpdateOp ≠ 1 ∧
    (onUpdate plainOpCtx ordersUpdate bareAccumulator).effects.countP Effect.isUpdateOp ≠ 1 := by
  refine ⟨⟨rfl, rfl, ?_, ?_⟩, ?_, ?_⟩ <;> decide

/-- The amended C11. Delete mirroring: for every delete on a sharded collection outside a
multi-document transaction and not from a migration, provided the namespace is not the
session-transactions table, the shard-version and database-version checks pass and the
delete carries its document key, `onDelete` returns normally and calls `onDeleteOp`
exactly once, with the shard-key-and-id of the document key and the op time of the write,
when an active cloner exists and `aboutToDelete` stored `isMigrating = true`, and makes no
cloner call otherwise; the flag stored by `aboutToDelete` is
`MigrationSourceManager::isMigrating` of the document about to be deleted. -/
theorem onDelete_mirrors (opCtx : OperationContext) (coll : CollectionPtr) (stmtId : StmtId)
    (args0 : OplogDeleteEntryArgs) (docToDelete : BSONObj) (opAccumulator : OpStateAccumulator)
    (metadata : CollectionMetadata) (key : DocumentKey)
    (hfrom : args0.fromMigrate = false)
    (hns : coll.ns ≠ NamespaceString.kSessionTransactionsTableNamespace)
    (hsv : (opCtx.collectionShardingState coll.ns).shardVersionCheck = .OK)
    (hdbv : opCtx.dbVersionCheck coll.ns.dbName = .OK)
    (hmeta : (opCtx.collectionShardingState coll.ns).getCurrentMetadataIfKnown = some metadata)
    (hsharded : metadata.isSharded = true)
    (htxn : inMultiDocumentTransaction opCtx = false)
    (hkey : args0.documentKey = some key) :
    let args := aboutToDelete opCtx coll docToDelete args0
    let out := onDelete opCtx coll stmtId args opAccumulator
    args.isMigrating = opCtx.isMigrating coll.ns docToDelete ∧
    out.status = .OK ∧
    (∀ cloner,
      MigrationSourceManager.getCurrentCloner (opCtx.collectionShardingState coll.ns)
        = some cloner →
      args.isMigrating = true →
      out.effects.filter Effect.isClonerCall =
        [Effect.onDeleteOp cloner key.getShardKeyAndId opAccumulator.writeOpTime]) ∧
    ((MigrationSourceManager.getCurrentCloner (opCtx.collectionShardingState coll.ns) = none ∨
        args.isMigrating = false) →
      out.effects.filter Effect.isClonerCall = []) := by
  intro args out
  have hargs : args = { args0 with isMigrating := opCtx.isMigrating coll.ns docToDelete } := rfl
  have hfrom1 : args.fromMigrate = false := hfrom
  have hkey1 : getShardKeyAndId args = .ok key.getShardKeyAndId := by
    simp only [getShardKeyAndId, hargs, hkey]
  cases hc : MigrationSourceManager.getCurrentCloner (opCtx.collectionShardingState coll.ns) with
  | none =>
    have hout : out = ⟨.OK, [Effect.checkShardVersionOrThrow coll.ns,
        Effect.assertMatchingDbVersion coll.ns.dbName]⟩ := by
      simp only [out, onDelete, hfrom1, hns, if_false, ShardingWriteRouter.getCss, hsv, hdbv,
        check_ok, hmeta, hsharded, htxn, hc, done, Bool.not_true, Bool.false_eq_true]
    rw [hout]
    refine ⟨rfl, rfl, ?_, fun _ => rfl⟩
    intro cloner h
    exact absurd h (by simp)
  | some cl =>
    by_cases hm : args.isMigrating = true
    · have hout : out = ⟨.OK, [Effect.checkShardVersionOrThrow coll.ns,
          Effect.assertMatchingDbVersion coll.ns.dbName,
          Effect.onDeleteOp cl key.getShardKeyAndId opAccumulator.writeOpTime]⟩ := by
        simp only [out, onDelete, hfrom1, hns, if_false, ShardingWriteRouter.getCss, hsv, hdbv,
          check_ok, hmeta, hsharded, htxn, hc, hm, hkey1, if_true, Bool.not_true,
          Bool.false_eq_true]
      rw [hout]
      refine ⟨rfl, rfl, ?_, ?_⟩
      · intro cloner h _
        cases h
        rfl
      · intro h
        rcases h with h | h
        · exact absurd h (by simp)
        · rw [hm] at h; exact absurd h (by simp)
    · have hm1 : args.isMigrating = false := by simpa using hm
      have hout : out = ⟨.OK, [Effect.checkShardVersionOrThrow coll.ns,
          Effect.assertMatchingDbVersion coll.ns.dbName]⟩ := by
        simp only [out, onDelete, hfrom1, hns, if_false, ShardingWriteRouter.getCss, hsv, hdbv,
          check_ok, hmeta, hsharded, htxn, hc, hm1, done, Bool.not_true, Bool.false_eq_true]
      rw [hout]
      refine ⟨rfl, rfl, ?_, fun _ => rfl⟩
      intro cloner _ h
      rw [hm1] at h
      exact absurd h (by simp)

/-- Witness of the amended C11: the delete of a migrating document of `db.orders`. -/
theorem onDelete_mirrors_witness :
    (onDelete plainOpCtx ordersCollPtr 0
      (aboutToDelete plainOpCtx ordersCollPtr [("x", 4), ("_id", 1)] idleDelete)
      ordersAccumulator).effects.filter Effect.isClonerCall =
      [Effect.onDeleteOp ordersCloner [("x", 4), ("_id", 1)] ⟨101, 1⟩] :=
  (onDelete_mirrors plainOpCtx ordersCollPtr 0 idleDelete [("x", 4), ("_id", 1)]
    ordersAccumulator ordersMetadata ⟨[("x", 4), ("_id", 1)]⟩ rfl (by decide) rfl rfl rfl rfl rfl
    rfl).2.2.1 ordersCloner rfl rfl

/-- Counterexample to C11 as stated: the delete of a migrating document on the sharded
collection `db.orders` with an active cloner, outside a transaction and not from a
migration, by an operation that carries a stale shard version: `onDelete` fails and calls
`onDeleteOp` zero times, not once. -/
theorem onDelete_mirrors_counterexample :
    ((staleOpCtx.collectionShardingState ordersCollPtr.ns).getCurrentMetadataIfKnown.map
        (fun m => m.isSharded) = some true ∧
     MigrationSourceManager.getCurrentCloner (staleOpCtx.collectionShardingState ordersCollPtr.ns)
        = some ordersCloner ∧
     inMultiDocumentTransaction staleOpCtx = false ∧
     (aboutToDelete staleOpCtx ordersCollPtr [("x", 4), ("_id", 1)] idleDelete).fromMigrate
        = false ∧
     (aboutToDelete staleOpCtx ordersCollPtr [("x", 4), ("_id", 1)] idleDelete).isMigrating
        = true) ∧
    (onDelete staleOpCtx ordersCollPtr 0
      (aboutToDelete staleOpCtx ordersCollPtr [("x", 4), ("_id", 1)] idleDelete)
      ordersAccumulator).effects.countP Effect.isDeleteOp ≠ 1 ∧
    (onDelete staleOpCtx ordersCollPtr 0
      (aboutToDelete staleOpCtx ordersCollPtr [("x", 4), ("_id", 1)] idleDelete)
      ordersAccumulator).status = .error ErrorCodes.StaleConfig "stale shard version" := by
  refine ⟨⟨rfl, rfl, rfl, rfl, rfl⟩, ?_, ?_⟩ <;> decide

/-- C12. Exempt writes take no action: an insert with the migration flag
(`defaultFromMigrate`), an update whose source is a migration, a delete flagged from a
migration, and any of the three on the session-transactions table make the hook return
normally without any effect: no shard-version check, no move-primary check, no
chunk-ownership validation and no cloner call. -/
theorem exempt_writes_take_no_action (opCtx : OperationContext) (coll : CollectionPtr)
    (docs : List InsertStatement) (fromMigrate : List Bool) (defaultFromMigrate : Bool)
    (updateArgs : CollectionUpdateArgs) (stmtId : StmtId) (deleteArgs : OplogDeleteEntryArgs)
    (opAccumulator : OpStateAccumulator) :
    ((defaultFromMigrate = true ∨
        coll.ns = NamespaceString.kSessionTransactionsTableNamespace) →
      onInserts opCtx coll docs fromMigrate defaultFromMigrate opAccumulator = ⟨.OK, []⟩) ∧
    ((updateArgs.source = .kFromMigrate ∨
        coll.ns = NamespaceString.kSessionTransactionsTableNamespace) →
      onUpdate opCtx ⟨updateArgs, coll⟩ opAccumulator = ⟨.OK, []⟩) ∧
    ((deleteArgs.fromMigrate = true ∨
        coll.ns = NamespaceString.kSessionTransactionsTableNamespace) →
      onDelete opCtx coll stmtId deleteArgs opAccumulator = ⟨.OK, []⟩) := by
  refine ⟨?_, ?_, ?_⟩
  · intro h
    unfold onInserts
    cases opAccumulator.shardingWriteRouter with
    | none => rfl
    | some r =>
      simp only
      by_cases h1 : defaultFromMigrate = true
      · simp only [h1, if_true]; rfl
      · have h2 := h.resolve_left h1
        simp only [h1, h2, if_true, if_false]; rfl
  · intro h
    unfold onUpdate
    cases opAccumulator.shardingWriteRouter with
    | none => rfl
    | some r =>
      simp only
      by_cases h1 : updateArgs.source = .kFromMigrate
      · simp only [h1, if_true]; rfl
      · have h2 := h.resolve_left h1
        simp only [h1, if_false, h2, if_true]
        split <;> rfl
  · intro h
    unfold onDelete
    by_cases h1 : deleteArgs.fromMigrate = true
    · simp only [h1, if_true]; rfl
    · have h2 := h.resolve_left h1
      simp only [h1, h2, if_true, if_false]; rfl

/-- Witness of C12: an insert from a migration into the sharded collection `db.orders`
with an active cloner. -/
theorem exempt_writes_take_no_action_witness :
    onInserts plainOpCtx ordersCollPtr ordersBatch [true, true] true ordersAccumulator
      = ⟨.OK, []⟩ :=
  (exempt_writes_take_no_action plainOpCtx ordersCollPtr ordersBatch [true, true] true
    ordersUpdate.updateArgs 0 ordersDelete ordersAccumulator).1 (Or.inl rfl)

theorem validateAtClusterTime_no_cloner (opCtx : OperationContext)
    (metadata : CollectionMetadata) (extracted : Except Status BSONObj) :
    ∀ x ∈ (validateAtClusterTime opCtx metadata extracted).effects, x.isClonerCall = false := by
  unfold validateAtClusterTime
  cases opCtx.argsAtClusterTime with
  | none => exact done_no_cloner
  | some ts =>
    cases extracted with
    | error st => intro x hx; simp at hx
    | ok key => exact check_no_cloner _ _ _ rfl done_no_cloner

theorem onInsertsLoop_txn_no_cloner (opCtx : OperationContext)
    (csr : CollectionShardingRuntime) (metadata : CollectionMetadata)
    (opTimeList : List repl.OpTime) (docs : List InsertStatement) (index : Nat) :
    ∀ x ∈ (onInsertsLoop opCtx csr metadata true opTimeList docs index).effects,
      x.isClonerCall = false := by
  cases docs with
  | nil => exact done_no_cloner
  | cons it rest =>
    unfold onInsertsLoop
    split
    · intro x hx; simp at hx
    · simp only [if_true]
      exact validateAtClusterTime_no_cloner _ _ _

/-- C13. Transactional writes are not mirrored from the hook: while a multi-document
transaction is open (participant present, writes replicated, transaction open),
`onInserts`, `onUpdate` and `onDelete` call no cloner method, whatever the other inputs
are: with or without an active cloner, with or without a snapshot timestamp. -/
theorem transactional_writes_not_mirrored (opCtx : OperationContext) (coll : CollectionPtr)
    (docs : List InsertStatement) (fromMigrate : List Bool) (defaultFromMigrate : Bool)
    (updateArgs : CollectionUpdateArgs) (stmtId : StmtId) (deleteArgs : OplogDeleteEntryArgs)
    (opAccumulator : OpStateAccumulator)
    (hparticipant : opCtx.txnParticipant = true)
    (hreplicated : opCtx.writesAreReplicated = true)
    (hopen : opCtx.transactionIsOpen = true) :
    (∀ e ∈ (onInserts opCtx coll docs fromMigrate defaultFromMigrate opAccumulator).effects,
      e.isClonerCall = false) ∧
    (∀ e ∈ (onUpdate opCtx ⟨updateArgs, coll⟩ opAccumulator).effects,
      e.isClonerCall = false) ∧
    (∀ e ∈ (onDelete opCtx coll stmtId deleteArgs opAccumulator).effects,
      e.isClonerCall = false) := by
  have htxn : inMultiDocumentTransaction opCtx = true := by
    simp [inMultiDocumentTransaction, hparticipant, hreplicated, hopen]
  refine ⟨?_, ?_, ?_⟩
  · unfold onInserts
    cases hr : opAccumulator.shardingWriteRouter with
    | none => exact done_no_cloner
    | some r =>
      simp only
      by_cases h1 : defaultFromMigrate = true
      · simp only [h1, if_true]; exact done_no_cloner
      · simp only [h1, if_false]
        by_cases h2 : coll.ns = NamespaceString.kSessionTransactionsTableNamespace
        · simp only [h2, if_true]; exact done_no_cloner
        · simp only [h2, if_false]
          refine check_no_cloner _ _ _ ?_ (check_no_cloner _ _ _ ?_ ?_)
          · rfl
          · rfl
          · cases hm : r.getCss.getCurrentMetadataIfKnown with
            | none => exact assertNoMovePrimaryInProgress_no_cloner _ _
            | some m =>
              simp only [htxn]
              split
              · exact assertNoMovePrimaryInProgress_no_cloner _ _
              · split
                · exact done_no_cloner
                · exact onInsertsLoop_txn_no_cloner _ _ _ _ _ _
  · unfold onUpdate
    cases hr : opAccumulator.shardingWriteRouter with
    | none => exact done_no_cloner
    | some r =>
      simp only
      by_cases h1 : updateArgs.source = .kFromMigrate
      · simp only [h1, if_true]; exact done_no_cloner
      · simp only [h1, if_false]
        by_cases h0 : updateArgs.update.isEmpty = true
        · simp only [h0, if_true]; exact done_no_cloner
        · simp only [h0, if_false]
          by_cases h2 : coll.ns = NamespaceString.kSessionTransactionsTableNamespace
          · simp only [h2, if_true]; exact done_no_cloner
          · simp only [h2, if_false]
            refine check_no_cloner _ _ _ ?_ (check_no_cloner _ _ _ ?_ ?_)
            · rfl
            · rfl
            · cases hm : r.getCss.getCurrentMetadataIfKnown with
              | none => exact assertNoMovePrimaryInProgress_no_cloner _ _
              | some m =>
                simp only [htxn, if_true]
                split
                · exact assertNoMovePrimaryInProgress_no_cloner _ _
                · exact validateAtClusterTime_no_cloner _ _ _
  · unfold onDelete
    by_cases h1 : deleteArgs.fromMigrate = true
    · simp only [h1, if_true]; exact done_no_cloner
    · simp only [h1, if_false]
      by_cases h2 : coll.ns = NamespaceString.kSessionTransactionsTableNamespace
      · simp only [h2, if_true]; exact done_no_cloner
      · simp only [h2, if_false]
        refine check_no_cloner _ _ _ ?_ (check_no_cloner _ _ _ ?_ ?_)
        · rfl
        · rfl
        · simp only [ShardingWriteRouter.getCss]
          cases hm : (opCtx.collectionShardingState coll.ns).getCurrentMetadataIfKnown with
          | none => exact assertNoMovePrimaryInProgress_no_cloner _ _
          | some m =>
            simp only [htxn, if_true]
            split
            · exact assertNoMovePrimaryInProgress_no_cloner _ _
            · cases opCtx.argsAtClusterTime with
              | none => exact done_no_cloner
              | some ts =>
                simp only
                cases getShardKeyAndId deleteArgs with
                | error st => intro x hx; simp at hx
                | ok key => exact validateAtClusterTime_no_cloner _ _ _

/-- Witness of C13: a batch inserted into `db.orders`, which has an active cloner, inside
an open transaction. -/
theorem transactional_writes_not_mirrored_witness :
    (txnOpCtx.txnParticipant = true ∧ txnOpCtx.writesAreReplicated = true ∧
      txnOpCtx.transactionIsOpen = true) ∧
    ∀ e ∈ (onInserts txnOpCtx ordersCollPtr ordersBatch [false, false] false
      ordersAccumulator).effects, e.isClonerCall = false :=
  ⟨⟨rfl, rfl, rfl⟩,
    (transactional_writes_not_mirrored txnOpCtx ordersCollPtr ordersBatch [false, false] false
      ordersUpdate.updateArgs 0 ordersDelete ordersAccumulator rfl rfl rfl).1⟩

theorem check_done (e : Effect) (st : Status) : check e st done = ⟨st, [e]⟩ := by
  cases st <;> rfl

/-- The first step of the loop of `onInserts` inside a transaction: the first document is
validated and the loop is left. -/
theorem onInsertsLoop_txn_first (opCtx : OperationContext) (csr : CollectionShardingRuntime)
    (metadata : CollectionMetadata) (opTimeList : List repl.OpTime) (it : InsertStatement)
    (rest : List InsertStatement) :
    onInsertsLoop opCtx csr metadata true opTimeList (it :: rest) 0 =
      validateAtClusterTime opCtx metadata (metadata.extractShardKeyFromDocThrows it.doc) := by
  unfold onInsertsLoop
  cases opTimeList with
  | nil => simp
  | cons t l => simp

/-- C14, the code at a failing input.  Inside an open transaction on the sharded
collection `db.orders` that reads at cluster time 4, with a router attached and both
version checks passing, a batch of two documents is inserted.  Their shard keys are
`x: 4` and `x: 12`, and the chunk of `x: 12` moved at time 5: its validation fails with
`MigrationConflict`, and so does the insert of the second document alone.  Yet `onInserts`
on the batch validates the first document only and returns `OK`: the `return` after the
validation is inside the loop over the documents, so the second document is never
looked at. -/
theorem transactional_ownership_validation_failing_input :
    (inMultiDocumentTransaction txnOpCtx = true ∧ txnOpCtx.argsAtClusterTime = some 4 ∧
      txnOpCtx.hasWriteUnitOfWork = true ∧ ordersMetadata.isSharded = true ∧
      ordersAccumulator.shardingWriteRouter = some ⟨ordersCsr⟩) ∧
    ordersBatch.map (fun it => ordersMetadata.extractShardKeyFromDocThrows it.doc
        |>.toOption) = [some [("x", 4)], some [("x", 12)]] ∧
    assertIntersectingChunkHasNotMoved ordersMetadata [("x", 4)] 4 = .OK ∧
    assertIntersectingChunkHasNotMoved ordersMetadata [("x", 12)] 4 =
      .error ErrorCodes.MigrationConflict "chunk has moved since the snapshot" ∧
    onInserts txnOpCtx ordersCollPtr [⟨1, [("x", 12), ("_id", 2)]⟩] [false] false
        ordersAccumulator =
      ⟨.error ErrorCodes.MigrationConflict "chunk has moved since the snapshot",
        [Effect.checkShardVersionOrThrow ordersCollPtr.ns,
          Effect.assertMatchingDbVersion ordersCollPtr.ns.dbName,
          Effect.assertIntersectingChunkHasNotMoved [("x", 12)] 4]⟩ ∧
    onInserts txnOpCtx ordersCollPtr ordersBatch [false, false] false ordersAccumulator =
      ⟨.OK, [Effect.checkShardVersionOrThrow ordersCollPtr.ns,
        Effect.assertMatchingDbVersion ordersCollPtr.ns.dbName,
        Effect.assertIntersectingChunkHasNotMoved [("x", 4)] 4]⟩ := by
  refine ⟨⟨rfl, rfl, rfl, rfl, rfl⟩, ?_, ?_, ?_, ?_, ?_⟩ <;> decide

theorem check_error (e : Effect) (c : Nat) (r : String) (next : HookOutcome) :
    check e (.error c r) next = ⟨.error c r, [e]⟩ := rfl

/-- C15. Stale version fails the write before any decision: for every insert, update or
delete that none of the early returns of its hook exempts (a router is attached, the
write is not from a migration, the update is not empty, the namespace is not the
session-transactions table), when `checkShardVersionOrThrow` fails the hook fails with
that error having made that check only, and when it passes and the database-version
check fails the hook fails with that error having made these two checks only: no
move-primary check, no ownership validation, no cloner call. -/
theorem stale_version_fails_first (opCtx : OperationContext) (coll : CollectionPtr)
    (docs : List InsertStatement) (fromMigrate : List Bool) (updateArgs : CollectionUpdateArgs)
    (stmtId : StmtId) (deleteArgs : OplogDeleteEntryArgs) (opAccumulator : OpStateAccumulator)
    (router : ShardingWriteRouter) (c : Nat) (r : String)
    (hns : coll.ns ≠ NamespaceString.kSessionTransactionsTableNamespace) :
    (opAccumulator.shardingWriteRouter = some router →
      (router.getCss.shardVersionCheck = .error c r →
        onInserts opCtx coll docs fromMigrate false opAccumulator =
          ⟨.error c r, [Effect.checkShardVersionOrThrow coll.ns]⟩) ∧
      (router.getCss.shardVersionCheck = .OK →
        opCtx.dbVersionCheck coll.ns.dbName = .error c r →
        onInserts opCtx coll docs fromMigrate false opAccumulator =
          ⟨.error c r, [Effect.checkShardVersionOrThrow coll.ns,
            Effect.assertMatchingDbVersion coll.ns.dbName]⟩)) ∧
    (opAccumulator.shardingWriteRouter = some router →
      updateArgs.source ≠ .kFromMigrate → updateArgs.update.isEmpty = false →
      (router.getCss.shardVersionCheck = .error c r →
        onUpdate opCtx ⟨updateArgs, coll⟩ opAccumulator =
          ⟨.error c r, [Effect.checkShardVersionOrThrow coll.ns]⟩) ∧
      (router.getCss.shardVersionCheck = .OK →
        opCtx.dbVersionCheck coll.ns.dbName = .error c r →
        onUpdate opCtx ⟨updateArgs, coll⟩ opAccumulator =
          ⟨.error c r, [Effect.checkShardVersionOrThrow coll.ns,
            Effect.assertMatchingDbVersion coll.ns.dbName]⟩)) ∧
    (deleteArgs.fromMigrate = false →
      ((opCtx.collectionShardingState coll.ns).shardVersionCheck = .error c r →
        onDelete opCtx coll stmtId deleteArgs opAccumulator =
          ⟨.error c r, [Effect.checkShardVersionOrThrow coll.ns]⟩) ∧
      ((opCtx.collectionShardingState coll.ns).shardVersionCheck = .OK →
        opCtx.dbVersionCheck coll.ns.dbName = .error c r →
        onDelete opCtx coll stmtId deleteArgs opAccumulator =
          ⟨.error c r, [Effect.checkShardVersionOrThrow coll.ns,
            Effect.assertMatchingDbVersion coll.ns.dbName]⟩)) := by
  refine ⟨fun hrouter => ⟨fun hsv => ?_, fun hsv hdb => ?_⟩,
    fun hrouter hsrc hupd => ⟨fun hsv => ?_, fun hsv hdb => ?_⟩,
    fun hfrom => ⟨fun hsv => ?_, fun hsv hdb => ?_⟩⟩
  · simp only [onInserts, hrouter, hns, if_false, hsv, check_error, Bool.false_eq_true]
  · simp only [onInserts, hrouter, hns, if_false, hsv, hdb, check_error, check_ok,
      Bool.false_eq_true]
  · simp only [onUpdate, hrouter, hsrc, hupd, hns, if_false, hsv, check_error,
      Bool.false_eq_true]
  · simp only [onUpdate, hrouter, hsrc, hupd, hns, if_false, hsv, hdb, check_error, check_ok,
      Bool.false_eq_true]
  · simp only [onDelete, hfrom, hns, if_false, ShardingWriteRouter.getCss, hsv, check_error,
      Bool.false_eq_true]
  · simp only [onDelete, hfrom, hns, if_false, ShardingWriteRouter.getCss, hsv, hdb,
      check_error, check_ok, Bool.false_eq_true]

/-- Witness of C15: an insert into `db.orders` by an operation whose shard version is
stale, and a delete by an operation whose database version is stale. -/
theorem stale_version_fails_first_witness :
    onInserts plainOpCtx ordersCollPtr ordersBatch [false, false] false staleAccumulator =
      ⟨.error ErrorCodes.StaleConfig "stale shard version",
        [Effect.checkShardVersionOrThrow ordersCollPtr.ns]⟩ ∧
    onDelete staleDbOpCtx ordersCollPtr 0 ordersDelete ordersAccumulator =
      ⟨.error ErrorCodes.StaleDbVersion "stale database version",
        [Effect.checkShardVersionOrThrow ordersCollPtr.ns,
          Effect.assertMatchingDbVersion ordersCollPtr.ns.dbName]⟩ :=
  ⟨((stale_version_fails_first plainOpCtx ordersCollPtr ordersBatch [false, false]
      ordersUpdate.updateArgs 0 ordersDelete staleAccumulator ⟨staleOrdersCsr⟩
      ErrorCodes.StaleConfig "stale shard version" (by decide)).1 rfl).1 rfl,
    ((stale_version_fails_first staleDbOpCtx ordersCollPtr ordersBatch [false, false]
      ordersUpdate.updateArgs 0 ordersDelete ordersAccumulator ⟨ordersCsr⟩
      ErrorCodes.StaleDbVersion "stale database version" (by decide)).2.2 rfl).2 rfl rfl⟩

/-- The status of `assertNoMovePrimaryInProgress`. -/
theorem assertNoMovePrimaryInProgress_status (opCtx : OperationContext)
    (nss : NamespaceString) :
    (assertNoMovePrimaryInProgress opCtx nss).status =
      if (opCtx.isNormalCollection nss = true ∨ nss.coll = "system.views" ∨
          opCtx.isTimeseriesBucketsCollection nss = true) ∧
          opCtx.isMovePrimaryInProgress nss.dbName = true then
        .error ErrorCodes.MovePrimaryInProgress "movePrimary is in progress for namespace"
      else .OK := by
  unfold assertNoMovePrimaryInProgress
  by_cases h1 : opCtx.isNormalCollection nss = true <;>
  by_cases h2 : nss.coll = "system.views" <;>
  by_cases h3 : opCtx.isTimeseriesBucketsCollection nss = true <;>
  by_cases h4 : opCtx.isMovePrimaryInProgress nss.dbName = true <;>
  simp [h1, h2, h3, h4, done]

/-- C16. Move-primary guard: for every insert, update or delete that none of the early
returns of its hook exempts, on a collection whose metadata is unknown or not sharded and
after both version checks passed, the hook fails with `MovePrimaryInProgress` when the
namespace is a normal collection, `system.views` or a time-series buckets collection and
a movePrimary is in progress for its database, and returns without error otherwise. -/
theorem move_primary_guard (opCtx : OperationContext) (coll : CollectionPtr)
    (docs : List InsertStatement) (fromMigrate : List Bool) (updateArgs : CollectionUpdateArgs)
    (stmtId : StmtId) (deleteArgs : OplogDeleteEntryArgs) (opAccumulator : OpStateAccumulator)
    (router : ShardingWriteRouter)
    (hns : coll.ns ≠ NamespaceString.kSessionTransactionsTableNamespace)
    (hdbv : opCtx.dbVersionCheck coll.ns.dbName = .OK) :
    let guarded : Prop :=
      (opCtx.isNormalCollection coll.ns = true ∨ coll.ns.coll = "system.views" ∨
        opCtx.isTimeseriesBucketsCollection coll.ns = true) ∧
      opCtx.isMovePrimaryInProgress coll.ns.dbName = true
    let verdict : Status :=
      if guarded then
        .error ErrorCodes.MovePrimaryInProgress "movePrimary is in progress for namespace"
      else .OK
    (opAccumulator.shardingWriteRouter = some router →
      router.getCss.shardVersionCheck = .OK →
      notSharded router.getCss.getCurrentMetadataIfKnown = true →
      (onInserts opCtx coll docs fromMigrate false opAccumulator).status = verdict ∧
      (updateArgs.source ≠ .kFromMigrate → updateArgs.update.isEmpty = false →
        (onUpdate opCtx ⟨updateArgs, coll⟩ opAccumulator).status = verdict)) ∧
    (deleteArgs.fromMigrate = false →
      (opCtx.collectionShardingState coll.ns).shardVersionCheck = .OK →
      notSharded (opCtx.collectionShardingState coll.ns).getCurrentMetadataIfKnown = true →
      (onDelete opCtx coll stmtId deleteArgs opAccumulator).status = verdict) ∧
    (verdict = .error ErrorCodes.MovePrimaryInProgress "movePrimary is in progress for namespace"
      ↔ guarded) ∧
    (verdict = .OK ↔ ¬ guarded) := by
  intro guarded verdict
  have hv : (assertNoMovePrimaryInProgress opCtx coll.ns).status = verdict :=
    assertNoMovePrimaryInProgress_status opCtx coll.ns
  refine ⟨fun hrouter hsv hnot => ⟨?_, fun hsrc hupd => ?_⟩, fun hfrom hsv hnot => ?_, ?_, ?_⟩
  · rw [← hv]
    cases hm : router.getCss.getCurrentMetadataIfKnown with
    | none =>
      simp only [onInserts, hrouter, hns, if_false, hsv, hdbv, check_ok, hm,
        Bool.false_eq_true]
    | some m =>
      rw [hm] at hnot
      simp only [notSharded] at hnot
      simp only [onInserts, hrouter, hns, if_false, hsv, hdbv, check_ok, hm, hnot, if_true,
        Bool.false_eq_true]
  · rw [← hv]
    cases hm : router.getCss.getCurrentMetadataIfKnown with
    | none =>
      simp only [onUpdate, hrouter, hsrc, hupd, hns, if_false, hsv, hdbv, check_ok, hm,
        Bool.false_eq_true]
    | some m =>
      rw [hm] at hnot
      simp only [notSharded] at hnot
      simp only [onUpdate, hrouter, hsrc, hupd, hns, if_false, hsv, hdbv, check_ok, hm, hnot,
        if_true, Bool.false_eq_true]
  · rw [← hv]
    cases hm : (opCtx.collectionShardingState coll.ns).getCurrentMetadataIfKnown with
    | none =>
      simp only [onDelete, hfrom, hns, if_false, ShardingWriteRouter.getCss, hsv, hdbv,
        check_ok, hm, Bool.false_eq_true]
    | some m =>
      rw [hm] at hnot
      simp only [notSharded] at hnot
      simp only [onDelete, hfrom, hns, if_false, ShardingWriteRouter.getCss, hsv, hdbv,
        check_ok, hm, hnot, if_true, Bool.false_eq_true]
  · by_cases hg : guarded
    · have hver : verdict = .error ErrorCodes.MovePrimaryInProgress
          "movePrimary is in progress for namespace" := if_pos hg
      exact ⟨fun _ => hg, fun _ => hver⟩
    · have hver : verdict = .OK := if_neg hg
      rw [hver]
      exact ⟨fun h => Status.noConfusion h, fun h => absurd h hg⟩
  · by_cases hg : guarded
    · have hver : verdict = .error ErrorCodes.MovePrimaryInProgress
          "movePrimary is in progress for namespace" := if_pos hg
      rw [hver]
      exact ⟨fun h => Status.noConfusion h, fun h => absurd hg h⟩
    · have hver : verdict = .OK := if_neg hg
      exact ⟨fun _ => hg, fun _ => hver⟩

/-- Witness of C16: an insert into an unsharded collection of a database that is being
moved. -/
theorem move_primary_guard_witness :
    (onInserts movePrimaryOpCtx ordersCollPtr ordersBatch [false, false] false
      unshardedAccumulator).status =
      .error ErrorCodes.MovePrimaryInProgress "movePrimary is in progress for namespace" :=
  ((move_primary_guard movePrimaryOpCtx ordersCollPtr ordersBatch [false, false]
    ordersUpdate.updateArgs 0 ordersDelete unshardedAccumulator ⟨unshardedCsr⟩ (by decide)
    rfl).1 rfl rfl rfl).1

/-- C17. Commit/prepare hand-off: for an operation with a session id,
`onUnpreparedTransactionCommit` (when writes are replicated, the operation list is not
empty, an accumulator is present and, as its invariant requires, the commit op time is
not null) and `onTransactionPrepare` (when writes are replicated, `reservedSlots` is not
empty and, as its invariant requires, its last slot is not null) each register exactly
one handler, which carries the session id, the complete list of the operations of the
transaction in their order and one op time (the commit op time, respectively the last
reserved slot); when the stated condition does not hold no handler is registered. -/
theorem commit_prepare_handoff (opCtx : OperationContext)
    (transactionOperations : TransactionOperations) (opAccumulator : Option OpStateAccumulator)
    (reservedSlots : List repl.OpTime) (numberOfPrePostImagesToWrite wallClockTime : Nat)
    (lsid : LogicalSessionId) (hlsid : opCtx.logicalSessionId = some lsid) :
    (∀ acc, opCtx.writesAreReplicated = true → transactionOperations.operations ≠ [] →
      opAccumulator = some acc → acc.writeOpTime.isNull = false →
      onUnpreparedTransactionCommit opCtx transactionOperations opAccumulator =
        ⟨.OK, [⟨lsid, transactionOperations.operations, acc.writeOpTime⟩]⟩) ∧
    (¬ (opCtx.writesAreReplicated = true ∧ transactionOperations.operations ≠ [] ∧
        opAccumulator.isSome = true) →
      onUnpreparedTransactionCommit opCtx transactionOperations opAccumulator = ⟨.OK, []⟩) ∧
    (∀ last, opCtx.writesAreReplicated = true → reservedSlots.getLast? = some last →
      last.isNull = false →
      onTransactionPrepare opCtx reservedSlots transactionOperations
        numberOfPrePostImagesToWrite wallClockTime =
        ⟨.OK, [⟨lsid, transactionOperations.operations, last⟩]⟩) ∧
    (¬ (opCtx.writesAreReplicated = true ∧ reservedSlots ≠ []) →
      onTransactionPrepare opCtx reservedSlots transactionOperations
        numberOfPrePostImagesToWrite wallClockTime = ⟨.OK, []⟩) := by
  refine ⟨?_, ?_, ?_, ?_⟩
  · intro acc hrep hops hacc hnull
    have hne : transactionOperations.operations.isEmpty = false := by
      cases h : transactionOperations.operations with
      | nil => exact absurd h hops
      | cons a l => rfl
    simp only [onUnpreparedTransactionCommit, hrep, hacc, hnull, registerChange, hlsid,
      TransactionOperations.getOperationsForOpObserver, hne, Bool.not_true, Bool.false_eq_true,
      if_false]
  · intro hcond
    unfold onUnpreparedTransactionCommit
    by_cases hrep : opCtx.writesAreReplicated = true
    · simp only [hrep, Bool.not_true, Bool.false_eq_true, if_false]
      cases hops : transactionOperations.operations with
      | nil => simp [TransactionOperations.getOperationsForOpObserver, hops]
      | cons a l =>
        cases hacc : opAccumulator with
        | none => simp [TransactionOperations.getOperationsForOpObserver, hops]
        | some acc =>
          exact absurd ⟨hrep, by rw [hops]; simp, by rw [hacc]; rfl⟩ hcond
    · have hrep1 : opCtx.writesAreReplicated = false := by simpa using hrep
      simp [hrep1]
  · intro last hrep hlast hnull
    simp only [onTransactionPrepare, hrep, hlast, hnull, registerChange, hlsid,
      TransactionOperations.getOperationsForOpObserver, Bool.not_true, Bool.false_eq_true,
      if_false]
  · intro hcond
    unfold onTransactionPrepare
    by_cases hrep : opCtx.writesAreReplicated = true
    · have hnil : reservedSlots = [] := by
        by_contra hne
        exact hcond ⟨hrep, hne⟩
      simp [hrep, hnil]
    · have hrep1 : opCtx.writesAreReplicated = false := by simpa using hrep
      simp [hrep1]

/-- Witness of C17: the commit and the prepare of a transaction of three operations on
`db.orders` in session 9. -/
theorem commit_prepare_handoff_witness :
    onUnpreparedTransactionCommit txnOpCtx ordersTxnOps (some ordersAccumulator) =
      ⟨.OK, [⟨9, ordersTxnOps.operations, ⟨101, 1⟩⟩]⟩ ∧
    onTransactionPrepare txnOpCtx [⟨100, 1⟩, ⟨102, 1⟩] ordersTxnOps 0 0 =
      ⟨.OK, [⟨9, ordersTxnOps.operations, ⟨102, 1⟩⟩]⟩ :=
  ⟨(commit_prepare_handoff txnOpCtx ordersTxnOps (some ordersAccumulator) [⟨100, 1⟩, ⟨102, 1⟩]
      0 0 9 rfl).1 ordersAccumulator rfl (by decide) rfl rfl,
    (commit_prepare_handoff txnOpCtx ordersTxnOps (some ordersAccumulator) [⟨100, 1⟩, ⟨102, 1⟩]
      0 0 9 rfl).2.2.1 ⟨102, 1⟩ rfl rfl rfl⟩

/-- C18. Chunk ownership validator: for every collection metadata, shard-key value and
snapshot timestamp, `assertIntersectingChunkHasNotMoved` pins the chunk map at the
snapshot timestamp, selects the chunk whose range `[min, max)` contains the shard key
under the simple comparison (the only such chunk when ranges do not overlap), and fails
if and only if the last move of that chunk is later than the snapshot timestamp. -/
theorem chunk_ownership_validator (metadata : CollectionMetadata) (shardKey : BSONObj)
    (atClusterTime : Timestamp) :
    (ChunkManager.makeAtTime metadata.chunkManager atClusterTime).clusterTime
      = some atClusterTime ∧
    (ChunkManager.makeAtTime metadata.chunkManager atClusterTime).chunks
      = metadata.chunkManager.chunks ∧
    (∀ chunk, metadata.chunkManager.chunks.find? (fun c => c.containsKey shardKey) = some chunk →
      chunk ∈ metadata.chunkManager.chunks ∧
      (simpleLt (shardKey.map Prod.snd) (chunk.min.map Prod.snd) = false ∧
        simpleLt (shardKey.map Prod.snd) (chunk.max.map Prod.snd) = true) ∧
      (assertIntersectingChunkHasNotMoved metadata shardKey atClusterTime ≠ .OK ↔
        atClusterTime < chunk.lastMoved)) ∧
    (∀ chunk ∈ metadata.chunkManager.chunks, chunk.containsKey shardKey = true →
      (∀ other ∈ metadata.chunkManager.chunks, other.containsKey shardKey = true →
        other = chunk) →
      metadata.chunkManager.chunks.find? (fun c => c.containsKey shardKey) = some chunk) := by
  refine ⟨rfl, rfl, ?_, ?_⟩
  · intro chunk hfind
    have hmem := List.mem_of_find?_eq_some hfind
    have hcont : chunk.containsKey shardKey = true := by
      simpa using List.find?_some hfind
    refine ⟨hmem, ?_, ?_⟩
    · simpa [ChunkInfo.containsKey] using hcont
    · simp only [assertIntersectingChunkHasNotMoved,
        ChunkManager.findIntersectingChunkWithSimpleCollation, ChunkManager.makeAtTime, hfind,
        ChunkInfo.throwIfMoved]
      by_cases hlt : atClusterTime < chunk.lastMoved
      · simp [hlt]
      · simp [hlt]
  · intro chunk hmem hcont huniq
    cases hfind : metadata.chunkManager.chunks.find? (fun c => c.containsKey shardKey) with
    | none =>
      have := List.find?_eq_none.1 hfind chunk hmem
      simp [hcont] at this
    | some other =>
      have hm := List.mem_of_find?_eq_some hfind
      have hc : other.containsKey shardKey = true := by simpa using List.find?_some hfind
      rw [huniq other hm hc]

/-- Witness of C18: in `db.orders` the key `x = 12` lies in the chunk `[10, 20)`, moved at
time 5: the validation fails at snapshot 4 and passes at snapshot 5. -/
theorem chunk_ownership_validator_witness :
    assertIntersectingChunkHasNotMoved ordersMetadata [("x", 12)] 4 ≠ .OK ∧
    ¬ (assertIntersectingChunkHasNotMoved ordersMetadata [("x", 12)] 5 ≠ .OK) :=
  ⟨((chunk_ownership_validator ordersMetadata [("x", 12)] 4).2.2.1
      ⟨[("x", 10)], [("x", 20)], "shard1", 5⟩ (by decide)).2.2.2 (by decide),
    fun h => absurd (((chunk_ownership_validator ordersMetadata [("x", 12)] 5).2.2.1
      ⟨[("x", 10)], [("x", 20)], "shard1", 5⟩ (by decide)).2.2.1 h) (by decide)⟩

end MigrationChunkClonerSourceOpObserver

/-! ## More helpers of `sharding_ddl_util`: the claims -/

namespace sharding_ddl_util

/-- C19. The error filter of `setAllowMigrations`: for every effective status returned by
the config server, `setAllowMigrations` (and so `stopMigrations` and `resumeMigrations`)
sends one command and returns normally when the status is `OK`, `NamespaceNotSharded` or
`ConflictingOperationInProgress`, and fails with the same error code for every other
status; `stopMigrations` sends `allowMigrations = false` and `resumeMigrations` sends
`allowMigrations = true`. -/
theorem setAllowMigrations_error_filter (configsvr : ConfigsvrSetAllowMigrations → Status)
    (nss : NamespaceString) (expectedCollectionUUID : Option UUID)
    (osi : Option OperationSessionInfo) (allowMigrations : Bool) :
    let cmd : ConfigsvrSetAllowMigrations :=
      { nss := nss, allowMigrations := allowMigrations,
        collectionUUID := expectedCollectionUUID, osi := osi,
        writeConcern := kMajorityWriteConcern }
    let out := setAllowMigrations configsvr nss expectedCollectionUUID osi allowMigrations
    out.sent = [cmd] ∧
    (configsvr cmd = .OK → out.status = .OK) ∧
    (∀ c r, configsvr cmd = .error c r →
      (c = ErrorCodes.NamespaceNotSharded ∨ c = ErrorCodes.ConflictingOperationInProgress) →
      out.status = .OK) ∧
    (∀ c r, configsvr cmd = .error c r →
      c ≠ ErrorCodes.NamespaceNotSharded → c ≠ ErrorCodes.ConflictingOperationInProgress →
      ∃ reason, out.status = .error c reason) ∧
    stopMigrations configsvr nss expectedCollectionUUID osi =
      setAllowMigrations configsvr nss expectedCollectionUUID osi false ∧
    resumeMigrations configsvr nss expectedCollectionUUID osi =
      setAllowMigrations configsvr nss expectedCollectionUUID osi true ∧
    (stopMigrations configsvr nss expectedCollectionUUID osi).sent.map
      (fun m => m.allowMigrations) = [false] ∧
    (resumeMigrations configsvr nss expectedCollectionUUID osi).sent.map
      (fun m => m.allowMigrations) = [true] := by
  intro cmd out
  have hsent : ∀ (allow : Bool),
      (setAllowMigrations configsvr nss expectedCollectionUUID osi allow).sent =
        [{ nss := nss, allowMigrations := allow, collectionUUID := expectedCollectionUUID,
           osi := osi, writeConcern := kMajorityWriteConcern }] := by
    intro allow
    simp only [setAllowMigrations]
    split
    · rfl
    · split
      · rfl
      · split <;> rfl
  refine ⟨hsent allowMigrations, ?_, ?_, ?_, rfl, rfl, ?_, ?_⟩
  · intro h
    simp only [out, setAllowMigrations]
    rw [show configsvr cmd = .OK from h]
    rfl
  · intro c r h hc
    simp only [out, setAllowMigrations]
    rw [show configsvr cmd = .error c r from h]
    simp only [withContext]
    rcases hc with hc | hc
    · simp [hc]
    · simp [hc]
  · intro c r h h1 h2
    simp only [out, setAllowMigrations]
    rw [show configsvr cmd = .error c r from h]
    simp only [withContext, h1, h2, if_false]
    exact ⟨_, rfl⟩
  · simp only [stopMigrations, hsent, List.map_cons, List.map_nil]
  · simp only [resumeMigrations, hsent, List.map_cons, List.map_nil]

/-- Witness of C19: `stopMigrations` on a collection that is no longer sharded returns
normally, and fails with the code of the error when the config server is unreachable. -/
theorem setAllowMigrations_error_filter_witness :
    (stopMigrations notShardedConfigsvr ⟨"db", "orders"⟩ (some 7) none).status = .OK ∧
    ∃ reason, (stopMigrations unreachableConfigsvr ⟨"db", "orders"⟩ (some 7) none).status
      = .error 6 reason :=
  ⟨(setAllowMigrations_error_filter notShardedConfigsvr ⟨"db", "orders"⟩ (some 7) none
      false).2.2.1 ErrorCodes.NamespaceNotSharded "collection is not sharded" rfl (Or.inl rfl),
    (setAllowMigrations_error_filter unreachableConfigsvr ⟨"db", "orders"⟩ (some 7) none
      false).2.2.2.1 6 "host unreachable" rfl (by decide) (by decide)⟩

/-- The loop over successful responses collects the mismatching shards in order. -/
theorem collectMismatches_eq (uuidToString : UUID → String) (collectionUuid : UUID) :
    ∀ (responses : List AsyncResponse) (mismatches : List MismatchedShard),
      allSuccessful responses →
      collectMismatches uuidToString collectionUuid responses mismatches =
        .ok (mismatches ++ mismatchingShards uuidToString collectionUuid responses) := by
  intro responses
  induction responses with
  | nil =>
    intro mismatches _
    simp [collectMismatches, mismatchingShards]
  | cons resp rest ih =>
    intro mismatches hall
    have hrest : allSuccessful rest := fun x hx => hall x (List.mem_cons_of_mem _ hx)
    obtain ⟨batch, hb⟩ := hall resp (List.mem_cons_self _ _)
    cases batch with
    | nil =>
      simp only [collectMismatches, hb, ih mismatches hrest, mismatchingShards,
        List.filterMap_cons]
    | cons front tail =>
      by_cases hu : collectionUuid = front.uuid
      · have h1 : (collectionUuid = front.uuid) = True := eq_true hu
        have h2 : (front.uuid = collectionUuid) = True := eq_true hu.symm
        simp only [collectMismatches, hb, ih mismatches hrest, mismatchingShards,
          List.filterMap_cons, h1, h2, ne_eq, not_true_eq_false, if_false]
      · have h1 : (collectionUuid = front.uuid) = False := eq_false hu
        have h2 : (front.uuid = collectionUuid) = False := eq_false (fun h => hu h.symm)
        simp only [collectMismatches, hb, ih _ hrest, mismatchingShards,
          List.filterMap_cons, ne_eq, h1, h2, not_false_eq_true, if_true,
          List.append_assoc, List.singleton_append]

theorem mismatchingShards_ne_nil_iff (uuidToString : UUID → String) (collectionUuid : UUID)
    (responses : List AsyncResponse) :
    mismatchingShards uuidToString collectionUuid responses ≠ [] ↔
      ∃ r ∈ responses, ∃ front tail,
        r.swResponse = .ok (front :: tail) ∧ front.uuid ≠ collectionUuid := by
  constructor
  · intro h
    obtain ⟨x, hx⟩ := List.exists_mem_of_ne_nil _ h
    obtain ⟨r, hr, hf⟩ := List.mem_filterMap.1 hx
    refine ⟨r, hr, ?_⟩
    cases hsw : r.swResponse with
    | error st => simp [hsw] at hf
    | ok batch =>
      cases batch with
      | nil => simp [hsw] at hf
      | cons front tail =>
        refine ⟨front, tail, rfl, ?_⟩
        intro heq
        simp [hsw, heq] at hf
  · rintro ⟨r, hr, front, tail, hsw, hne⟩ hnil
    have hmem : (⟨r.shardId, uuidToString front.uuid⟩ : MismatchedShard) ∈
        mismatchingShards uuidToString collectionUuid responses := by
      refine List.mem_filterMap.2 ⟨r, hr, ?_⟩
      simp [hsw, hne]
    rw [hnil] at hmem
    simp at hmem

theorem mismatchingShards_filter (uuidToString : UUID → String) (collectionUuid : UUID)
    (responses : List AsyncResponse) :
    mismatchingShards uuidToString collectionUuid
      (responses.filter (fun r => match r.swResponse with
        | .ok [] => false
        | _ => true)) = mismatchingShards uuidToString collectionUuid responses := by
  induction responses with
  | nil => rfl
  | cons r rest ih =>
    simp only [mismatchingShards] at ih ⊢
    cases hsw : r.swResponse with
    | error st => simp only [List.filter_cons, List.filterMap_cons, hsw, ih, if_true]
    | ok batch =>
      cases batch with
      | nil =>
        simp only [List.filter_cons, List.filterMap_cons, hsw, ih, if_false,
          Bool.false_eq_true]
      | cons front tail => simp only [List.filter_cons, List.filterMap_cons, hsw, ih, if_true]

/-- C20. Cross-shard UUID consistency: for every list of successful `listCollections`
responses, `checkCollectionUUIDConsistencyAcrossShards` fails with `InvalidUUID` if and
only if some shard returned a non-empty collection list whose first entry has another
uuid than the expected one, and returns normally otherwise; the error message is the
text `The collection <nss> with expected UUID: <uuid> has different UUIDs on the following
shards: [...]` in which the brackets hold one entry `\x7b <shard>:<uuid found> \x7d,` for
each mismatching shard and for no other shard, in response order; and shards that returned
an empty list are ignored: leaving them out changes nothing. -/
theorem checkCollectionUUIDConsistencyAcrossShards_spec (uuidToString : UUID → String)
    (nss : NamespaceString) (collectionUuid : UUID) (responses : List AsyncResponse)
    (hall : allSuccessful responses) :
    let st := checkCollectionUUIDConsistencyAcrossShards uuidToString nss collectionUuid responses
    let mismatching : Prop :=
      ∃ r ∈ responses, ∃ front tail,
        r.swResponse = .ok (front :: tail) ∧ front.uuid ≠ collectionUuid
    ((∃ msg, st = .error ErrorCodes.InvalidUUID msg) ↔ mismatching) ∧
    (st = .OK ↔ ¬ mismatching) ∧
    (mismatching →
      st = .error ErrorCodes.InvalidUUID
        ("The collection " ++ (nss.db ++ "." ++ nss.coll) ++ " with expected UUID: " ++
          uuidToString collectionUuid ++ " has different UUIDs on the following shards: [" ++
          String.join (responses.filterMap (fun r =>
            match r.swResponse with
            | .ok (front :: _) =>
                if front.uuid ≠ collectionUuid then
                  some ("\x7b " ++ r.shardId ++ ":" ++ uuidToString front.uuid ++ " \x7d,")
                else none
            | _ => none)) ++ "]")) ∧
    checkCollectionUUIDConsistencyAcrossShards uuidToString nss collectionUuid
      (responses.filter (fun r => match r.swResponse with
        | .ok [] => false
        | _ => true)) = st := by
  intro st mismatching
  have hst : ∀ rs, allSuccessful rs →
      checkCollectionUUIDConsistencyAcrossShards uuidToString nss collectionUuid rs =
        if (mismatchingShards uuidToString collectionUuid rs).isEmpty then .OK
        else .error ErrorCodes.InvalidUUID
          (mismatchMessage uuidToString nss collectionUuid
            (mismatchingShards uuidToString collectionUuid rs)) := by
    intro rs hrs
    simp only [checkCollectionUUIDConsistencyAcrossShards,
      collectMismatches_eq uuidToString collectionUuid rs [] hrs, List.nil_append]
    cases mismatchingShards uuidToString collectionUuid rs <;> simp
  have hiff := mismatchingShards_ne_nil_iff uuidToString collectionUuid responses
  have hst0 : st = _ := hst responses hall
  refine ⟨?_, ?_, ?_, ?_⟩
  · constructor
    · rintro ⟨msg, hmsg⟩
      apply hiff.1
      intro hnil
      rw [hst0, hnil] at hmsg
      simp at hmsg
    · intro hm
      have hne := hiff.2 hm
      have hemp : (mismatchingShards uuidToString collectionUuid responses).isEmpty = false := by
        cases h : mismatchingShards uuidToString collectionUuid responses with
        | nil => exact absurd h hne
        | cons a l => rfl
      exact ⟨_, by rw [hst0, hemp]; rfl⟩
  · constructor
    · intro hok hm
      have hne := hiff.2 hm
      have hemp : (mismatchingShards uuidToString collectionUuid responses).isEmpty = false := by
        cases h : mismatchingShards uuidToString collectionUuid responses with
        | nil => exact absurd h hne
        | cons a l => rfl
      rw [hst0, hemp] at hok
      simp at hok
    · intro hm
      have hnil : mismatchingShards uuidToString collectionUuid responses = [] := by
        by_contra hne
        exact hm (hiff.1 hne)
      rw [hst0, hnil]
      rfl
  · intro hm
    have hne := hiff.2 hm
    have hemp : (mismatchingShards uuidToString collectionUuid responses).isEmpty = false := by
      cases h : mismatchingShards uuidToString collectionUuid responses with
      | nil => exact absurd h hne
      | cons a l => rfl
    have hlist : (mismatchingShards uuidToString collectionUuid responses).map
        (fun mismatch => "\x7b " ++ mismatch.shardId ++ ":" ++ mismatch.uuid ++ " \x7d,") =
        responses.filterMap (fun r =>
          match r.swResponse with
          | .ok (front :: _) =>
              if front.uuid ≠ collectionUuid then
                some ("\x7b " ++ r.shardId ++ ":" ++ uuidToString front.uuid ++ " \x7d,")
              else none
          | _ => none) := by
      unfold mismatchingShards
      rw [List.map_filterMap]
      apply congrArg (fun f => List.filterMap f responses)
      funext r
      cases r.swResponse with
      | error e => rfl
      | ok l =>
        cases l with
        | nil => rfl
        | cons front tail =>
          by_cases h : front.uuid ≠ collectionUuid
          · simp only [if_pos h, Option.map_some']
          · simp only [if_neg h, Option.map_none']
    rw [hst0, hemp]
    simp only [Bool.false_eq_true, if_false, mismatchMessage, toStringForErrorMsg, hlist]
  · have hfall : allSuccessful (responses.filter (fun r => match r.swResponse with
        | .ok [] => false
        | _ => true)) := fun x hx => hall x (List.mem_of_mem_filter hx)
    rw [hst _ hfall, mismatchingShards_filter, hst0]

/-- Witness of C20: of three shards, one agrees, one does not have the collection and one
has it under another uuid: the check fails and names the third shard only. -/
theorem checkCollectionUUIDConsistencyAcrossShards_spec_witness :
    allSuccessful ordersResponses ∧
    checkCollectionUUIDConsistencyAcrossShards exampleUuidText ⟨"db", "orders"⟩ 7
      ordersResponses =
      .error ErrorCodes.InvalidUUID
        ("The collection db.orders with expected UUID: uuid7 has different UUIDs on the " ++
          "following shards: [\x7b shard2:uuid9 \x7d,]") :=
  ⟨fun r hr => by
      simp only [ordersResponses, List.mem_cons, List.mem_singleton, List.not_mem_nil,
        or_false] at hr
      rcases hr with h | h | h <;> rw [h] <;> exact ⟨_, rfl⟩,
    (checkCollectionUUIDConsistencyAcrossShards_spec exampleUuidText ⟨"db", "orders"⟩ 7
      ordersResponses (fun r hr => by
        simp only [ordersResponses, List.mem_cons, List.mem_singleton, List.not_mem_nil,
          or_false] at hr
        rcases hr with h | h | h <;> rw [h] <;> exact ⟨_, rfl⟩)).2.2.1
      ⟨⟨"shard2", .ok [⟨"orders", 9⟩]⟩, by simp [ordersResponses], ⟨"orders", 9⟩, [], rfl,
        by decide⟩⟩

/-! ### Rename preconditions -/

/-- When all responses are successful the loop of
`checkTargetCollectionDoesNotExistInCluster` returns the shards with a non-empty reply. -/
theorem collectShardsContainingTarget_eq (responses : List AsyncResponse) :
    ∀ acc : List String, allSuccessful responses →
      collectShardsContainingTarget responses acc = .ok (acc ++ shardsWithTarget responses) := by
  induction responses with
  | nil => intro acc _; simp [collectShardsContainingTarget, shardsWithTarget]
  | cons r rest ih =>
    intro acc hall
    have hrest : allSuccessful rest := fun x hx => hall x (List.mem_cons_of_mem _ hx)
    obtain ⟨batch, hb⟩ := hall r (List.mem_cons_self _ _)
    cases batch with
    | nil =>
      simp only [collectShardsContainingTarget, hb, List.isEmpty_nil, Bool.not_true,
        Bool.false_eq_true, if_false]
      rw [ih acc hrest]
      simp [shardsWithTarget, List.filterMap_cons, hb]
    | cons e es =>
      simp only [collectShardsContainingTarget, hb, List.isEmpty_cons, Bool.not_false, if_true]
      rw [ih _ hrest]
      simp [shardsWithTarget, List.filterMap_cons, hb]

/-- A shard is listed by `shardsWithTarget` exactly when some response is a non-empty
collection list. -/
theorem shardsWithTarget_ne_nil_iff (responses : List AsyncResponse) :
    shardsWithTarget responses ≠ [] ↔
      ∃ r ∈ responses, ∃ e batch, r.swResponse = .ok (e :: batch) := by
  induction responses with
  | nil => simp [shardsWithTarget]
  | cons r rest ih =>
    have hstep : shardsWithTarget (r :: rest) =
        (match r.swResponse with
          | .ok (_ :: _) => [r.shardId]
          | _ => []) ++ shardsWithTarget rest := by
      unfold shardsWithTarget
      rw [List.filterMap_cons]
      split <;> rename_i h <;> split at h <;> simp_all
    rw [hstep]
    constructor
    · intro hne
      by_cases hr : ∃ e batch, r.swResponse = .ok (e :: batch)
      · exact ⟨r, List.mem_cons_self _ _, hr⟩
      · have hnil : (match r.swResponse with
            | .ok (_ :: _) => [r.shardId]
            | _ => ([] : List String)) = [] := by
          split
          · rename_i e batch h; exact absurd ⟨_, _, h⟩ hr
          · rfl
        rw [hnil, List.nil_append] at hne
        obtain ⟨x, hx, hx2⟩ := ih.mp hne
        exact ⟨x, List.mem_cons_of_mem _ hx, hx2⟩
    · rintro ⟨x, hx, e, batch, hxe⟩
      rcases List.mem_cons.mp hx with rfl | hx
      · rw [hxe]; simp
      · have := ih.mpr ⟨x, hx, e, batch, hxe⟩
        intro h
        exact this (List.append_eq_nil.mp h).2

/-- C21, original wording refuted: with `dropTarget` false and a target that exists on
`shard1`, the rename check on `db.orders` fails with `InvalidUUID` (the source has
different uuids across the shards), not with `NamespaceExists`. -/
theorem checkCatalogConsistencyAcrossShardsForRename_counterexample :
    allSuccessful archiveResponses ∧
    (∃ r ∈ archiveResponses, ∃ e batch, r.swResponse = .ok (e :: batch)) ∧
    (∃ reason, checkCatalogConsistencyAcrossShardsForRename exampleUuidText ⟨"db", "orders"⟩
        ⟨"db", "archive"⟩ false (some 7) ordersResponses archiveResponses
        = .error ErrorCodes.InvalidUUID reason) ∧
    ∀ reason, checkCatalogConsistencyAcrossShardsForRename exampleUuidText ⟨"db", "orders"⟩
        ⟨"db", "archive"⟩ false (some 7) ordersResponses archiveResponses
        ≠ .error ErrorCodes.NamespaceExists reason := by
  refine ⟨?_, ?_, ⟨_, rfl⟩, ?_⟩
  · intro r hr
    simp only [archiveResponses, List.mem_cons, List.mem_singleton, List.not_mem_nil,
      or_false] at hr
    rcases hr with rfl | rfl | rfl <;> exact ⟨_, rfl⟩
  · exact ⟨⟨"shard1", .ok [⟨"archive", 11⟩]⟩, by simp [archiveResponses], _, _, rfl⟩
  · intro reason h
    have h2 : checkCatalogConsistencyAcrossShardsForRename exampleUuidText ⟨"db", "orders"⟩
        ⟨"db", "archive"⟩ false (some 7) ordersResponses archiveResponses
        = .error ErrorCodes.InvalidUUID (mismatchMessage exampleUuidText ⟨"db", "orders"⟩ 7
            [⟨"shard2", "uuid9"⟩]) := rfl
    rw [h2] at h
    injection h with hc _
    exact absurd hc (by decide)

/-- C21 (amended): with `dropTarget` true the outcome of
`checkCatalogConsistencyAcrossShardsForRename` does not depend on the replies for the target
(the target is not checked); with `dropTarget` false, a source whose uuid check passes and
successful replies for the target, it fails with `NamespaceExists` if and only if some reply
for the target name is non-empty, and succeeds otherwise. -/
theorem checkCatalogConsistencyAcrossShardsForRename_target_check
    (uuidToString : UUID → String) (fromNss toNss : NamespaceString) (dropTarget : Bool)
    (sourceCollUuid : Option UUID) (sourceResponses targetResponses : List AsyncResponse) :
    (dropTarget = true →
      ∀ otherTargetResponses,
        checkCatalogConsistencyAcrossShardsForRename uuidToString fromNss toNss dropTarget
          sourceCollUuid sourceResponses targetResponses =
        checkCatalogConsistencyAcrossShardsForRename uuidToString fromNss toNss dropTarget
          sourceCollUuid sourceResponses otherTargetResponses) ∧
    (dropTarget = true →
      ∀ uuid, sourceCollUuid = some uuid →
        checkCatalogConsistencyAcrossShardsForRename uuidToString fromNss toNss dropTarget
          sourceCollUuid sourceResponses targetResponses =
        checkCollectionUUIDConsistencyAcrossShards uuidToString fromNss uuid sourceResponses) ∧
    (dropTarget = false →
      ∀ uuid, sourceCollUuid = some uuid →
        checkCollectionUUIDConsistencyAcrossShards uuidToString fromNss uuid sourceResponses
          = .OK →
        allSuccessful targetResponses →
        ((∃ reason, checkCatalogConsistencyAcrossShardsForRename uuidToString fromNss toNss
              dropTarget sourceCollUuid sourceResponses targetResponses
              = .error ErrorCodes.NamespaceExists reason) ↔
          ∃ r ∈ targetResponses, ∃ e batch, r.swResponse = .ok (e :: batch)) ∧
        ((¬ ∃ r ∈ targetResponses, ∃ e batch, r.swResponse = .ok (e :: batch)) →
          checkCatalogConsistencyAcrossShardsForRename uuidToString fromNss toNss
              dropTarget sourceCollUuid sourceResponses targetResponses = .OK)) := by
  refine ⟨?_, ?_, ?_⟩
  · intro hd other
    subst hd
    cases sourceCollUuid with
    | none => rfl
    | some uuid =>
      simp only [checkCatalogConsistencyAcrossShardsForRename]
      cases checkCollectionUUIDConsistencyAcrossShards uuidToString fromNss uuid
        sourceResponses <;> rfl
  · intro hd uuid hu
    subst hd hu
    simp only [checkCatalogConsistencyAcrossShardsForRename]
    cases checkCollectionUUIDConsistencyAcrossShards uuidToString fromNss uuid
      sourceResponses <;> rfl
  · intro hd uuid hu hsource hall
    subst hd hu
    have hres : checkCatalogConsistencyAcrossShardsForRename uuidToString fromNss toNss
        false (some uuid) sourceResponses targetResponses =
        if shardsWithTarget targetResponses ≠ [] then
          .error ErrorCodes.NamespaceExists
            (targetExistsMessage toNss (shardsWithTarget targetResponses))
        else .OK := by
      simp only [checkCatalogConsistencyAcrossShardsForRename, hsource,
        checkTargetCollectionDoesNotExistInCluster,
        collectShardsContainingTarget_eq targetResponses [] hall, List.nil_append]
      cases shardsWithTarget targetResponses <;> simp
    rw [hres, ← shardsWithTarget_ne_nil_iff]
    constructor
    · constructor
      · rintro ⟨reason, h⟩
        intro hnil
        rw [if_neg (not_not.mpr hnil)] at h
        exact Status.noConfusion h
      · intro hne
        exact ⟨_, if_pos hne⟩
    · intro hnil
      exact if_neg hnil

/-- C21 witness: the source `db.orders` agrees on uuid 7, `shard1` has the target
`db.archive`, and the check fails with `NamespaceExists`. -/
theorem checkCatalogConsistencyAcrossShardsForRename_target_check_witness :
    (∃ reason, checkCatalogConsistencyAcrossShardsForRename exampleUuidText ⟨"db", "orders"⟩
        ⟨"db", "archive"⟩ false (some 7) agreeingResponses archiveResponses
        = .error ErrorCodes.NamespaceExists reason) ↔
      ∃ r ∈ archiveResponses, ∃ e batch, r.swResponse = .ok (e :: batch) :=
  ((checkCatalogConsistencyAcrossShardsForRename_target_check exampleUuidText ⟨"db", "orders"⟩
      ⟨"db", "archive"⟩ false (some 7) agreeingResponses archiveResponses).2.2 rfl 7 rfl rfl
    (by
      intro r hr
      simp only [archiveResponses, List.mem_cons, List.mem_singleton, List.not_mem_nil,
        or_false] at hr
      rcases hr with rfl | rfl | rfl <;> exact ⟨_, rfl⟩)).1

/-- The check of the tags fails with the error of a failed lookup, fails with
`CommandFailed` when there are tags, and succeeds otherwise. -/
theorem checkNoTags_cases (env : RenameEnvironment) (toNss : NamespaceString) :
    (∀ c r, env.getTagsForCollection toNss = .error (c, r) →
      checkNoTags env toNss = .error c r) ∧
    (∀ tags, env.getTagsForCollection toNss = .ok tags → tags ≠ [] →
      ∃ r, checkNoTags env toNss = .error ErrorCodes.CommandFailed r) ∧
    (env.getTagsForCollection toNss = .ok [] → checkNoTags env toNss = .OK) := by
  refine ⟨?_, ?_, ?_⟩
  · intro c r h
    simp [checkNoTags, h]
  · intro tags h hne
    cases tags with
    | nil => exact absurd rfl hne
    | cons t ts => exact ⟨_, by simp only [checkNoTags, h, List.isEmpty_cons]; rfl⟩
  · intro h
    simp [checkNoTags, h]

/-- C22, original wording refuted: the source is not sharded, `dropTarget` is true and the
lookup of the tags returns no tag (it fails), so none of the listed failures applies; yet
`checkRenamePreconditions` does not succeed, it fails with the error of the lookup. -/
theorem checkRenamePreconditions_counterexample :
    (∀ tags, tagsUnreachableEnvironment.getTagsForCollection ⟨"db", "archive"⟩ ≠ .ok tags) ∧
    checkRenamePreconditions tagsUnreachableEnvironment false ⟨"db", "archive"⟩ true
      = .error 6 "host unreachable" ∧
    (checkRenamePreconditions tagsUnreachableEnvironment false ⟨"db", "archive"⟩ true).isOK
      = false := by
  refine ⟨?_, rfl, rfl⟩
  intro tags h
  simp [tagsUnreachableEnvironment] at h

/-- C22 (amended): `checkRenamePreconditions` fails with `InvalidNamespace` when the source
is sharded and the target namespace is longer than `MaxNsShardedCollectionLen`; otherwise,
when `dropTarget` is false, it fails with `NamespaceExists` if the sharded-catalog lookup of
the target succeeds or (the lookup failing with `NamespaceNotFound` or
`NamespaceNotSharded`) an unsharded target exists locally, and rethrows any other lookup
error; otherwise it fails with the error of the tags lookup if that lookup fails, with
`CommandFailed` if the target has any tags, and succeeds in every remaining case. -/
theorem checkRenamePreconditions_outcome (env : RenameEnvironment) (sourceIsSharded : Bool)
    (toNss : NamespaceString) (dropTarget : Bool) :
    ((sourceIsSharded = true ∧ env.MaxNsShardedCollectionLen < NamespaceString_size toNss) →
      ∃ r, checkRenamePreconditions env sourceIsSharded toNss dropTarget
        = .error ErrorCodes.InvalidNamespace r) ∧
    (¬ (sourceIsSharded = true ∧ env.MaxNsShardedCollectionLen < NamespaceString_size toNss) →
      (dropTarget = false → ∀ coll, env.getCollection toNss = .ok coll →
        ∃ r, checkRenamePreconditions env sourceIsSharded toNss dropTarget
          = .error ErrorCodes.NamespaceExists r) ∧
      (dropTarget = false → ∀ c r, env.getCollection toNss = .error (c, r) →
        c ≠ ErrorCodes.NamespaceNotFound → c ≠ ErrorCodes.NamespaceNotSharded →
        checkRenamePreconditions env sourceIsSharded toNss dropTarget = .error c r) ∧
      (dropTarget = false → ∀ c r, env.getCollection toNss = .error (c, r) →
        (c = ErrorCodes.NamespaceNotFound ∨ c = ErrorCodes.NamespaceNotSharded) →
        (env.lookupCollectionByNamespace toNss).isSome = true →
        ∃ r, checkRenamePreconditions env sourceIsSharded toNss dropTarget
          = .error ErrorCodes.NamespaceExists r) ∧
      ((dropTarget = true ∨
          ∃ c r, env.getCollection toNss = .error (c, r) ∧
            (c = ErrorCodes.NamespaceNotFound ∨ c = ErrorCodes.NamespaceNotSharded) ∧
            env.lookupCollectionByNamespace toNss = none) →
        (∀ c r, env.getTagsForCollection toNss = .error (c, r) →
          checkRenamePreconditions env sourceIsSharded toNss dropTarget = .error c r) ∧
        (∀ tags, env.getTagsForCollection toNss = .ok tags → tags ≠ [] →
          ∃ r, checkRenamePreconditions env sourceIsSharded toNss dropTarget
            = .error ErrorCodes.CommandFailed r) ∧
        (env.getTagsForCollection toNss = .ok [] →
          checkRenamePreconditions env sourceIsSharded toNss dropTarget = .OK))) := by
  constructor
  · intro hlong
    have hg : sourceIsSharded = true ∧
        ¬ NamespaceString_size toNss ≤ env.MaxNsShardedCollectionLen :=
      ⟨hlong.1, Nat.not_le.mpr hlong.2⟩
    exact ⟨_, by simp only [checkRenamePreconditions]; rw [if_pos hg]⟩
  · intro hshort
    have hg : ¬ (sourceIsSharded = true ∧
        ¬ NamespaceString_size toNss ≤ env.MaxNsShardedCollectionLen) := by
      rintro ⟨h1, h2⟩
      exact hshort ⟨h1, Nat.not_le.mp h2⟩
    have hbody : checkRenamePreconditions env sourceIsSharded toNss dropTarget =
        if (!dropTarget) = true then
          match checkShardedTargetDoesNotExist env toNss with
          | some st => st
          | none =>
            if (env.lookupCollectionByNamespace toNss).isSome = true then
              .error ErrorCodes.NamespaceExists
                ("Target collection " ++ toStringForErrorMsg toNss ++
                  " exists but dropTarget is not set")
            else checkNoTags env toNss
        else checkNoTags env toNss := by
      simp only [checkRenamePreconditions]
      rw [if_neg hg]
    have hbenign : ∀ c r, env.getCollection toNss = .error (c, r) →
        (c = ErrorCodes.NamespaceNotFound ∨ c = ErrorCodes.NamespaceNotSharded) →
        checkShardedTargetDoesNotExist env toNss = none := by
      intro c r h hc
      simp only [checkShardedTargetDoesNotExist, h]
      rw [if_neg]
      rintro ⟨h1, h2⟩
      rcases hc with hc | hc
      · exact h1 hc
      · exact h2 hc
    refine ⟨?_, ?_, ?_, ?_⟩
    · intro hd coll h
      subst hd
      refine ⟨"Sharded target collection " ++ toStringForErrorMsg toNss ++
          " exists but dropTarget is not set", ?_⟩
      rw [hbody]
      simp only [Bool.not_false, if_true, checkShardedTargetDoesNotExist, h]
      rw [if_pos (by decide)]
    · intro hd c r h h1 h2
      subst hd
      rw [hbody]
      simp only [Bool.not_false, if_true, checkShardedTargetDoesNotExist, h]
      rw [if_pos ⟨h1, h2⟩]
    · intro hd c r h hc hsome
      subst hd
      refine ⟨"Target collection " ++ toStringForErrorMsg toNss ++
          " exists but dropTarget is not set", ?_⟩
      rw [hbody]
      simp only [Bool.not_false, if_true, hbenign c r h hc]
      rw [if_pos hsome]
    · intro hcase
      have htags : checkRenamePreconditions env sourceIsSharded toNss dropTarget =
          checkNoTags env toNss := by
        rw [hbody]
        rcases hcase with hd | ⟨c, r, h, hc, hlocal⟩
        · subst hd; rfl
        · cases dropTarget with
          | true => rfl
          | false =>
            simp only [Bool.not_false, if_true, hbenign c r h hc, hlocal, Option.isSome_none,
              Bool.false_eq_true, if_false]
      rw [htags]
      exact checkNoTags_cases env toNss

/-- C22 witness: a target that exists nowhere and has no tags passes the check, and a
target whose namespace is too long for a sharded source fails with `InvalidNamespace`. -/
theorem checkRenamePreconditions_outcome_witness :
    checkRenamePreconditions freeTargetEnvironment true ⟨"db", "archive"⟩ false = .OK ∧
    ∃ r, checkRenamePreconditions { freeTargetEnvironment with MaxNsShardedCollectionLen := 5 }
      true ⟨"db", "archive"⟩ false = .error ErrorCodes.InvalidNamespace r :=
  ⟨((checkRenamePreconditions_outcome freeTargetEnvironment true ⟨"db", "archive"⟩ false).2
      (by decide)).2.2.2
      (Or.inr ⟨ErrorCodes.NamespaceNotFound, "collection not found", rfl, Or.inl rfl, rfl⟩)
      |>.2.2 rfl,
   (checkRenamePreconditions_outcome { freeTargetEnvironment with MaxNsShardedCollectionLen := 5 }
      true ⟨"db", "archive"⟩ false).1 ⟨rfl, by decide⟩⟩

/-! ### Write concern and session of the statements -/

/-- Every statement issued by `removeCollAndChunksMetadataFromConfig` is one of the four
statements it builds. -/
theorem removeCollAndChunksMetadataFromConfig_requests (srv : ConfigServer)
    (isConfigServer : Bool) (t : Timestamp) (coll : CollectionType) (wc : WriteConcernOptions)
    (osi : OperationSessionInfo) (uct : Bool) (cat : ConfigCatalog) :
    ∀ e ∈ (removeCollAndChunksMetadataFromConfig srv isConfigServer t coll wc osi uct
        cat).issued,
      e.1 = runCRUDOp (newOpCtx wc osi) (deleteCollectionOp coll.nss coll.uuid) 0 ∨
      e.1 = runCRUDOp (newOpCtx wc osi) (insertPlacementEntryOp coll.nss coll.uuid t) 1 ∨
      e.1 = runBatchWriteCommand (deleteChunksOp coll.uuid) wc ∨
      e.1 = runBatchWriteCommand (deleteShardingIndexCatalogMetadataOp coll.uuid) wc := by
  intro e he
  have h := removeCollAndChunksMetadataFromConfig_courses srv isConfigServer t coll wc osi uct
    cat
  simp only at h
  rcases h with ⟨hi, _⟩ | ⟨rd, hi, _⟩ | ⟨rd, rp, hi, _⟩ | ⟨rd, rc, hi, _⟩ |
    ⟨rd, rp, rc, hi, _⟩ | ⟨rd, rc, rx, hi, _⟩ | ⟨rd, rp, rc, rx, hi, _⟩
  · rw [hi] at he
    exact absurd he (List.not_mem_nil _)
  · rw [hi, List.mem_singleton] at he
    subst he; simp
  · rw [hi] at he
    simp only [List.mem_cons, List.mem_singleton, List.not_mem_nil, or_false] at he
    rcases he with rfl | rfl <;> simp
  · rw [hi] at he
    simp only [List.mem_cons, List.mem_singleton, List.not_mem_nil, or_false] at he
    rcases he with rfl | rfl <;> simp
  · rw [hi] at he
    simp only [List.mem_cons, List.mem_singleton, List.not_mem_nil, or_false] at he
    rcases he with rfl | rfl | rfl <;> simp
  · rw [hi] at he
    simp only [List.mem_cons, List.mem_singleton, List.not_mem_nil, or_false] at he
    rcases he with rfl | rfl | rfl <;> simp
  · rw [hi] at he
    simp only [List.mem_cons, List.mem_singleton, List.not_mem_nil, or_false] at he
    rcases he with rfl | rfl | rfl | rfl <;> simp

/-- The command sent by `appendMajorityWriteConcern` asks for majority. -/
theorem appendMajorityWriteConcern_isMajority (cmdObj : CommandObj) :
    ∃ w, (appendMajorityWriteConcern cmdObj).writeConcern = some w ∧ isMajority w := by
  unfold appendMajorityWriteConcern
  cases h : cmdObj.writeConcern with
  | none => exact ⟨kMajorityWriteConcern, rfl, rfl⟩
  | some wc => exact ⟨{ wc with w := "majority" }, rfl, rfl⟩

/-- C23, original wording refuted: called with the write concern `w: 1`, the drop of
`db.orders` issues its four catalog writes, none of them with majority write concern. -/
theorem majority_write_concern_counterexample :
    (removeCollAndChunksMetadataFromConfig (configServer noFault) true 42 ordersColl
      kLocalWriteConcern ordersOsi false ordersCatalog).issued.map
        (fun e => (e.1.op, e.1.writeConcern)) =
      [(deleteCollectionOp ordersColl.nss ordersColl.uuid, kLocalWriteConcern),
       (insertPlacementEntryOp ordersColl.nss ordersColl.uuid 42, kLocalWriteConcern),
       (deleteChunksOp ordersColl.uuid, kLocalWriteConcern),
       (deleteShardingIndexCatalogMetadataOp ordersColl.uuid, kLocalWriteConcern)] ∧
    ¬ isMajority kLocalWriteConcern := by
  constructor
  · decide
  · decide

/-- C23 (amended): the commands sent by `setAllowMigrations`,
`removeTagsMetadataFromConfig`, `removeQueryAnalyzerMetadataFromConfig` and
`sendDropCollectionParticipantCommandToShards` carry majority write concern for every value
of the arguments; the collection-entry, placement, chunk and index-catalog writes of
`removeCollAndChunksMetadataFromConfig` carry the write concern given by the caller, so
they are majority writes when the caller passes a majority write concern. -/
theorem majority_write_concern (configsvrSetAllow : ConfigsvrSetAllowMigrations → Status)
    (configsvr : CommandObj → Status) (filterText : BSONObj → String)
    (srv : ConfigServer) (isConfigServer : Bool) (t : Timestamp) (coll : CollectionType)
    (wc : WriteConcernOptions) (osi : OperationSessionInfo) (uct : Bool) (cat : ConfigCatalog)
    (nss : NamespaceString) (expectedCollectionUUID : Option UUID)
    (optOsi : Option OperationSessionInfo) (allowMigrations : Bool) (filter : BSONObj)
    (shardIds : List ShardId) (fromMigrate : Bool) :
    (∀ m ∈ (setAllowMigrations configsvrSetAllow nss expectedCollectionUUID optOsi
        allowMigrations).sent, isMajority m.writeConcern) ∧
    (∀ m ∈ (removeTagsMetadataFromConfig configsvr nss osi).sent,
      ∃ w, m.writeConcern = some w ∧ isMajority w) ∧
    (∀ m ∈ (removeQueryAnalyzerMetadataFromConfig configsvr filterText filter).sent,
      ∃ w, m.writeConcern = some w ∧ isMajority w) ∧
    (∀ e ∈ sendDropCollectionParticipantCommandToShards nss shardIds osi fromMigrate,
      ∃ w, e.2.writeConcern = some w ∧ isMajority w) ∧
    (∀ e ∈ (removeCollAndChunksMetadataFromConfig srv isConfigServer t coll wc osi uct
        cat).issued, e.1.writeConcern = wc) ∧
    (isMajority wc →
      ∀ e ∈ (removeCollAndChunksMetadataFromConfig srv isConfigServer t coll wc osi uct
        cat).issued, isMajority e.1.writeConcern) := by
  have hwc : ∀ e ∈ (removeCollAndChunksMetadataFromConfig srv isConfigServer t coll wc osi uct
      cat).issued, e.1.writeConcern = wc := by
    intro e he
    rcases removeCollAndChunksMetadataFromConfig_requests srv isConfigServer t coll wc osi uct
      cat e he with h | h | h | h <;> rw [h] <;> rfl
  refine ⟨?_, ?_, ?_, ?_, hwc, ?_⟩
  · intro m hm
    have hsent : (setAllowMigrations configsvrSetAllow nss expectedCollectionUUID optOsi
        allowMigrations).sent =
        [{ nss := nss, allowMigrations := allowMigrations,
           collectionUUID := expectedCollectionUUID, osi := optOsi,
           writeConcern := kMajorityWriteConcern }] := by
      simp only [setAllowMigrations]
      split
      · rfl
      · split
        · rfl
        · split <;> rfl
    rw [hsent, List.mem_singleton] at hm
    rw [hm]
    rfl
  · intro m hm
    simp only [removeTagsMetadataFromConfig, List.mem_singleton] at hm
    rw [hm]
    exact appendMajorityWriteConcern_isMajority _
  · intro m hm
    simp only [removeQueryAnalyzerMetadataFromConfig, List.mem_singleton] at hm
    rw [hm]
    exact appendMajorityWriteConcern_isMajority _
  · intro e he
    simp only [sendDropCollectionParticipantCommandToShards, List.mem_map] at he
    obtain ⟨shardId, _, rfl⟩ := he
    exact appendMajorityWriteConcern_isMajority _
  · intro hmaj e he
    rw [hwc e he]
    exact hmaj

/-- C23 witness: the drop of `db.orders` called with majority write concern issues four
writes, all of them with majority write concern. -/
theorem majority_write_concern_witness :
    (removeCollAndChunksMetadataFromConfig (configServer noFault) true 42 ordersColl
      kMajorityWriteConcern ordersOsi false ordersCatalog).issued.length = 4 ∧
    ∀ e ∈ (removeCollAndChunksMetadataFromConfig (configServer noFault) true 42 ordersColl
      kMajorityWriteConcern ordersOsi false ordersCatalog).issued,
      isMajority e.1.writeConcern :=
  ⟨by decide,
    (majority_write_concern notShardedConfigsvr (fun _ => .OK) (fun _ => "")
      (configServer noFault) true 42 ordersColl kMajorityWriteConcern ordersOsi false
      ordersCatalog ⟨"db", "orders"⟩ none none false [] [] false).2.2.2.2.2 rfl⟩

/-- C26. For every routing information, `checkIfCollectionAlreadySharded` returns none when
the collection is not sharded; when it is sharded it returns a response with the collection
version and the collection uuid if the shard-key pattern equals the requested key, the
default collation (empty without a default collator) equals the requested collation and the
uniqueness flag equals the requested one, and fails with `AlreadyInitialized` if any of the
three differs. -/
theorem checkIfCollectionAlreadySharded_spec (cri : CollectionRoutingInfo)
    (nss : NamespaceString) (key collation : BSONObj) (unique : Bool) :
    (cri.cm.isSharded = false →
      checkIfCollectionAlreadySharded cri nss key collation unique = .ok none) ∧
    (cri.cm.isSharded = true →
      cri.cm.getShardKeyPattern = key ∧ cri.cm.getDefaultCollator.getD [] = collation ∧
        cri.cm.isUnique = unique →
      checkIfCollectionAlreadySharded cri nss key collation unique =
        .ok (some ⟨cri.getCollectionVersion, some cri.cm.getUUID⟩)) ∧
    (cri.cm.isSharded = true →
      (cri.cm.getShardKeyPattern ≠ key ∨ cri.cm.getDefaultCollator.getD [] ≠ collation ∨
        cri.cm.isUnique ≠ unique) →
      ∃ reason, checkIfCollectionAlreadySharded cri nss key collation unique =
        .error (.error ErrorCodes.AlreadyInitialized reason)) := by
  have hcoll : (match cri.cm.getDefaultCollator with
      | some spec => spec
      | none => ([] : BSONObj)) = cri.cm.getDefaultCollator.getD [] := by
    cases cri.cm.getDefaultCollator <;> rfl
  refine ⟨?_, ?_, ?_⟩
  · intro hs
    simp [checkIfCollectionAlreadySharded, hs]
  · intro hs hsame
    simp only [checkIfCollectionAlreadySharded, hs, hcoll, Bool.not_true, Bool.false_eq_true,
      if_false]
    rw [if_neg (not_not.mpr hsame)]
  · intro hs hdiff
    refine ⟨"sharding already enabled for collection " ++ toStringForErrorMsg nss, ?_⟩
    simp only [checkIfCollectionAlreadySharded, hs, hcoll, Bool.not_true, Bool.false_eq_true,
      if_false]
    rw [if_pos]
    rintro ⟨h1, h2, h3⟩
    rcases hdiff with h | h | h
    · exact h h1
    · exact h h2
    · exact h h3

/-- C26 witness: `db.orders` is sharded on `x`; the same options give its version and uuid,
a request for a unique key fails with `AlreadyInitialized`. -/
theorem checkIfCollectionAlreadySharded_spec_witness :
    checkIfCollectionAlreadySharded ordersRoutingInfo ⟨"db", "orders"⟩ [("x", 1)] [] false =
      .ok (some ⟨3, some 7⟩) ∧
    ∃ reason, checkIfCollectionAlreadySharded ordersRoutingInfo ⟨"db", "orders"⟩ [("x", 1)] []
      true = .error (.error ErrorCodes.AlreadyInitialized reason) :=
  ⟨(checkIfCollectionAlreadySharded_spec ordersRoutingInfo ⟨"db", "orders"⟩ [("x", 1)] []
      false).2.1 rfl ⟨rfl, rfl, rfl⟩,
   (checkIfCollectionAlreadySharded_spec ordersRoutingInfo ⟨"db", "orders"⟩ [("x", 1)] []
      true).2.2 rfl (Or.inr (Or.inr (by decide)))⟩

end sharding_ddl_util

namespace ShardingDDLCoordinatorService

/-! ### Waiting across a recovery -/

theorem Service.after_cons (s : Service) (e : Option Event) (pre : List (Option Event)) :
    Service.after s (e :: pre) = Service.after (Service.after s [e]) pre := by
  cases e <;> rfl

/-- When recovery completes at the end of the ticks, the state is `Recovered` after
them. -/
theorem completesRecoveryAfter_state (pre : List (Option Event)) :
    ∀ s : Service, completesRecoveryAfter s pre = true →
      (Service.after s pre).state = .kRecovered := by
  induction pre with
  | nil =>
    intro s h
    simpa [completesRecoveryAfter, Service.after] using h
  | cons e pre ih =>
    intro s h
    simp only [completesRecoveryAfter, Bool.and_eq_true] at h
    rw [Service.after_cons]
    exact ih _ h.2

/-- A wait whose deadline is not before the end of recovery returns when recovery
completes, with the time that is left. -/
theorem waitForRecovery_completes (pre : List (Option Event)) :
    ∀ (s : Service) (timeout : Nat) (rest : List (Option Event)),
      completesRecoveryAfter s pre = true → pre.length ≤ timeout →
      waitForRecovery timeout s (pre ++ rest) =
        .returned (Service.after s pre) (timeout - pre.length) rest := by
  induction pre with
  | nil =>
    intro s timeout rest h _
    have hs : s.state = .kRecovered := by simpa [completesRecoveryAfter] using h
    simpa [Service.after] using waitForRecovery_recovered timeout s rest hs
  | cons e pre ih =>
    intro s timeout rest h hlen
    simp only [completesRecoveryAfter, Bool.and_eq_true, decide_eq_true_eq] at h
    obtain ⟨⟨hs, he⟩, hrest⟩ := h
    cases timeout with
    | zero => simp at hlen
    | succ t =>
      have hlen1 : pre.length ≤ t := by simpa using hlen
      have hsub : t + 1 - (e :: pre).length = t - pre.length := by simp
      rw [hsub, Service.after_cons]
      rw [← ih (Service.after s [e]) t rest hrest hlen1]
      cases e with
      | none =>
        rw [List.cons_append]
        conv_lhs => unfold waitForRecovery
        simp [hs, Service.after]
      | some ev =>
        cases ev with
        | stepDown => exact absurd rfl he
        | stepUp =>
          rw [List.cons_append]
          conv_lhs => unfold waitForRecovery
          simp [hs, Service.after]
        | recoveryDone =>
          rw [List.cons_append]
          conv_lhs => unfold waitForRecovery
          simp [hs, Service.after]

/-- A wait whose deadline is before the end of recovery fails with `LockTimeout`. -/
theorem waitForRecovery_times_out (pre : List (Option Event)) :
    ∀ (s : Service) (timeout : Nat) (rest : List (Option Event)),
      completesRecoveryAfter s pre = true → timeout < pre.length →
      ∃ s1, waitForRecovery timeout s (pre ++ rest) =
        .failed (.error ErrorCodes.LockTimeout "timed out waiting for recovery") s1 := by
  induction pre with
  | nil => intro s timeout rest _ hlen; simp at hlen
  | cons e pre ih =>
    intro s timeout rest h hlen
    simp only [completesRecoveryAfter, Bool.and_eq_true, decide_eq_true_eq] at h
    obtain ⟨⟨hs, he⟩, hrest⟩ := h
    cases timeout with
    | zero =>
      refine ⟨s, ?_⟩
      rw [waitForRecovery_zero, if_neg hs]
    | succ t =>
      have hlen1 : t < pre.length := by simpa using hlen
      obtain ⟨s1, h1⟩ := ih (Service.after s [e]) t rest hrest hlen1
      refine ⟨s1, ?_⟩
      rw [← h1]
      cases e with
      | none =>
        rw [List.cons_append]
        conv_lhs => unfold waitForRecovery
        simp [hs, Service.after]
      | some ev =>
        cases ev with
        | stepDown => exact absurd rfl he
        | stepUp =>
          rw [List.cons_append]
          conv_lhs => unfold waitForRecovery
          simp [hs, Service.after]
        | recoveryDone =>
          rw [List.cons_append]
          conv_lhs => unfold waitForRecovery
          simp [hs, Service.after]

end ShardingDDLCoordinatorService

namespace DDLLockManager

open ShardingDDLCoordinatorService

/-- C25. Eventual lock availability: a lock request that waits for recovery, issued on an
uncontended resource while the service is `Paused` or `Recovering`, recovery completing
exactly after the ticks `pre` of the timeline: with a timeout that spans those ticks the
one request succeeds, at the moment the state is `Recovered` (the ticks `pre` have passed,
the rest of the timeline is still to come); with a shorter timeout it fails with
`LockTimeout`; so whenever it succeeds the state is `Recovered`. -/
theorem eventual_lock_availability (node : Node) (resource : ResourceName) (reason : String)
    (mode : LockMode) (timeout : Nat) (pre rest : List (Option Event))
    (hstate : node.service.state = .kPaused ∨ node.service.state = .kRecovering)
    (htimeline : node.timeline = pre ++ rest)
    (hrecovery : completesRecoveryAfter node.service pre = true)
    (hfree : uncontended node.locks resource mode = true) :
    0 < pre.length ∧
    (pre.length ≤ timeout →
      ScopedBaseDDLLock node resource reason mode timeout true =
        .ok { service := Service.after node.service pre
              locks := ⟨resource, mode, reason⟩ :: node.locks
              timeline := rest } ∧
      (Service.after node.service pre).state = .kRecovered) ∧
    (timeout < pre.length →
      failsWithLockTimeout (ScopedBaseDDLLock node resource reason mode timeout true)) ∧
    (∀ node1, ScopedBaseDDLLock node resource reason mode timeout true = .ok node1 →
      pre.length ≤ timeout ∧ node1.service.state = .kRecovered ∧ node1.timeline = rest) := by
  have hnot : node.service.state ≠ .kRecovered := by
    rcases hstate with h | h <;> rw [h] <;> decide
  have hpos : 0 < pre.length := by
    cases pre with
    | nil =>
      simp only [completesRecoveryAfter, decide_eq_true_eq] at hrecovery
      exact absurd hrecovery hnot
    | cons e pre => simp
  have hok : pre.length ≤ timeout →
      ScopedBaseDDLLock node resource reason mode timeout true =
        .ok { service := Service.after node.service pre
              locks := ⟨resource, mode, reason⟩ :: node.locks
              timeline := rest } := by
    intro hlen
    simp only [ScopedBaseDDLLock, htimeline, if_true,
      waitForRecovery_completes pre node.service timeout rest hrecovery hlen, hfree]
  have hfail : timeout < pre.length →
      failsWithLockTimeout (ScopedBaseDDLLock node resource reason mode timeout true) := by
    intro hlen
    obtain ⟨s1, h1⟩ := waitForRecovery_times_out pre node.service timeout rest hrecovery hlen
    exact ⟨"timed out waiting for DDL coordinator recovery",
      by simp only [ScopedBaseDDLLock, htimeline, if_true, h1]⟩
  refine ⟨hpos, fun hlen => ⟨hok hlen, completesRecoveryAfter_state pre _ hrecovery⟩, hfail, ?_⟩
  intro node1 h1
  by_cases hlen : pre.length ≤ timeout
  · rw [hok hlen] at h1
    injection h1 with h1
    subst h1
    exact ⟨hlen, completesRecoveryAfter_state pre _ hrecovery, rfl⟩
  · obtain ⟨r, hr⟩ := hfail (Nat.lt_of_not_le hlen)
    rw [hr] at h1
    exact Except.noConfusion h1

/-- C25 witness: the node has stepped down; it steps up at the second tick and recovery
ends at the fifth.  A request for `test.coll` with a timeout of ten ticks is granted when
recovery ends, a request with a timeout of three ticks fails with `LockTimeout`. -/
theorem eventual_lock_availability_witness :
    ScopedBaseDDLLock
        { service := ⟨.kPaused, ["drop db.orders"], []⟩, locks := [],
          timeline := [none, some .stepUp, none, none, some .recoveryDone, none, none] }
        (.collection testNss) "dummyReason" .MODE_X 10 true =
      .ok { service := ⟨.kRecovered, ["drop db.orders"], ["drop db.orders"]⟩
            locks := [⟨.collection testNss, .MODE_X, "dummyReason"⟩]
            timeline := [none, none] } ∧
    failsWithLockTimeout (ScopedBaseDDLLock
        { service := ⟨.kPaused, ["drop db.orders"], []⟩, locks := [],
          timeline := [none, some .stepUp, none, none, some .recoveryDone, none, none] }
        (.collection testNss) "dummyReason" .MODE_X 3 true) :=
  ⟨((eventual_lock_availability
      { service := ⟨.kPaused, ["drop db.orders"], []⟩, locks := [],
        timeline := [none, some .stepUp, none, none, some .recoveryDone, none, none] }
      (.collection testNss) "dummyReason" .MODE_X 10
      [none, some .stepUp, none, none, some .recoveryDone] [none, none]
      (Or.inl rfl) rfl (by decide) (by decide)).2.1 (by decide)).1,
   (eventual_lock_availability
      { service := ⟨.kPaused, ["drop db.orders"], []⟩, locks := [],
        timeline := [none, some .stepUp, none, none, some .recoveryDone, none, none] }
      (.collection testNss) "dummyReason" .MODE_X 3
      [none, some .stepUp, none, none, some .recoveryDone] [none, none]
      (Or.inl rfl) rfl (by decide) (by decide)).2.2.1 (by decide)⟩

end DDLLockManager

/-! ## Truncate markers of the pre-images collection -/

/-- C27. The expiry rule of pre-images: with a tenant id `isExpired` is true exactly when
the wall time is at most the current time minus `expireAfterSeconds` of the tenant,
whatever the oplog holds; without a tenant id it is true exactly when an expiration time
is configured and the wall time is at most that time, or the timestamp of the record id is
strictly earlier than the earliest oplog timestamp; `_hasExcessMarkers` is false without
markers and is otherwise `isExpired` of the front marker. -/
theorem isExpired_rule (opCtx : PreImageContext) (highestRecordId : RecordId)
    (highestWallTime : Date_t) (self : PreImagesTruncateMarkersPerNsUUID) :
    (∀ tenant, isExpired opCtx (some tenant) highestRecordId highestWallTime = true ↔
      highestWallTime ≤
        opCtx.getCurrentTimeForPreImageRemoval - 1000 * opCtx.getExpireAfterSeconds tenant) ∧
    (∀ tenant earliestOplogTimestamp preImageTimestamp,
      isExpired { opCtx with getEarliestOplogTimestamp := earliestOplogTimestamp,
                             getPreImageTimestamp := preImageTimestamp }
          (some tenant) highestRecordId highestWallTime =
        isExpired opCtx (some tenant) highestRecordId highestWallTime) ∧
    (isExpired opCtx none highestRecordId highestWallTime = true ↔
      ((∃ expirationTime,
          opCtx.getPreImageExpirationTime opCtx.getCurrentTimeForPreImageRemoval
            = some expirationTime ∧ highestWallTime ≤ expirationTime) ∨
        opCtx.getPreImageTimestamp highestRecordId < opCtx.getEarliestOplogTimestamp)) ∧
    (self.markers = [] → self._hasExcessMarkers opCtx = false) ∧
    (∀ front rest, self.markers = front :: rest →
      self._hasExcessMarkers opCtx =
        isExpired opCtx self.tenantId front.lastRecord front.wallTime) := by
  refine ⟨?_, ?_, ?_, ?_, ?_⟩
  · intro tenant
    simp [isExpired]
  · intro tenant ts f
    rfl
  · simp only [isExpired, Bool.or_eq_true, decide_eq_true_eq]
    cases h : opCtx.getPreImageExpirationTime opCtx.getCurrentTimeForPreImageRemoval with
    | none => simp
    | some t => simp
  · intro h
    simp [PreImagesTruncateMarkersPerNsUUID._hasExcessMarkers, h]
  · intro front rest h
    simp [PreImagesTruncateMarkersPerNsUUID._hasExcessMarkers, h]

/-- C27 witness: at time 100000 with sixty seconds of retention for the tenant, a marker
of wall time 40000 is expired and one of wall time 40001 is not. -/
theorem isExpired_rule_witness :
    isExpired exampleContext (some 1) 70 40000 = true ∧
    ¬ isExpired exampleContext (some 1) 70 40001 = true :=
  ⟨((isExpired_rule exampleContext 70 40000 ⟨some 1, []⟩).1 1).mpr (by decide),
   fun h => absurd (((isExpired_rule exampleContext 70 40001 ⟨some 1, []⟩).1 1).mp h)
     (by decide)⟩

/-! ### Scanning for the initial markers -/

theorem totalSize_nil : totalSize [] = 0 := rfl

theorem totalSize_append (a b : List Record) :
    totalSize (a ++ b) = totalSize a + totalSize b := by
  simp [totalSize, List.map_append, List.sum_append]

theorem totalSize_singleton (r : Record) : totalSize [r] = r.size := by
  simp [totalSize]

/-- On an ordered store the first loop after `seekNear` ends where it would end from the
start of the store. -/
theorem skipBelow_seekNear (minRecordId : RecordId) :
    ∀ rs : RecordStore, RecordStore.ordered rs →
      skipBelow minRecordId (seekNear rs minRecordId) = skipBelow minRecordId rs := by
  intro rs
  induction rs with
  | nil => intro _; rfl
  | cons r rest ih =>
    intro hord
    cases rest with
    | nil => rfl
    | cons f rest =>
      have hrest : RecordStore.ordered (f :: rest) := (List.pairwise_cons.mp hord).2
      have hlt : r.id < f.id := (List.pairwise_cons.mp hord).1 f (List.mem_cons_self _ _)
      by_cases hf : f.id ≤ minRecordId
      · have hr : r.id < minRecordId := Nat.lt_of_lt_of_le hlt hf
        have h1 : seekNear (r :: f :: rest) minRecordId = seekNear (f :: rest) minRecordId := by
          simp only [seekNear, if_pos hf]
        have h2 : skipBelow minRecordId (r :: f :: rest) = skipBelow minRecordId (f :: rest) := by
          simp only [skipBelow, if_pos hr]
        rw [h1, h2]
        exact ih hrest
      · have h1 : seekNear (r :: f :: rest) minRecordId = r :: f :: rest := by
          simp only [seekNear, if_neg hf]
        rw [h1]

/-- On an ordered store the first loop ends on nothing, or on a record above `maxRecordId`,
exactly when no record has an id between the two bounds (included). -/
theorem skipBelow_empty_iff (minRecordId maxRecordId : RecordId) :
    ∀ rs : RecordStore, RecordStore.ordered rs →
      ((skipBelow minRecordId rs = [] ∨
          ∃ first tail, skipBelow minRecordId rs = first :: tail ∧ maxRecordId < first.id) ↔
        ¬ ∃ record ∈ rs, minRecordId ≤ record.id ∧ record.id ≤ maxRecordId) := by
  intro rs
  induction rs with
  | nil => intro _; simp [skipBelow]
  | cons a rest ih =>
    intro hord
    have hrest : RecordStore.ordered rest := (List.pairwise_cons.mp hord).2
    have hlt : ∀ b ∈ rest, a.id < b.id := (List.pairwise_cons.mp hord).1
    by_cases ha : a.id < minRecordId
    · have h1 : skipBelow minRecordId (a :: rest) = skipBelow minRecordId rest := by
        simp only [skipBelow, if_pos ha]
      rw [h1, ih hrest]
      constructor
      · rintro h ⟨record, hmem, hmin, hmax⟩
        rcases List.mem_cons.mp hmem with rfl | hmem
        · exact absurd ha (Nat.not_lt.mpr hmin)
        · exact h ⟨record, hmem, hmin, hmax⟩
      · rintro h ⟨record, hmem, hmin, hmax⟩
        exact h ⟨record, List.mem_cons_of_mem _ hmem, hmin, hmax⟩
    · have h1 : skipBelow minRecordId (a :: rest) = a :: rest := by
        simp only [skipBelow, if_neg ha]
      rw [h1]
      constructor
      · rintro (h | ⟨first, tail, h, hmax⟩)
        · exact absurd h (List.cons_ne_nil _ _)
        · injection h with h2 h3
          subst h2
          rintro ⟨record, hmem, _, hle⟩
          rcases List.mem_cons.mp hmem with rfl | hmem
          · exact absurd hmax (Nat.not_lt.mpr hle)
          · exact absurd (Nat.lt_trans hmax (hlt record hmem)) (Nat.not_lt.mpr hle)
      · intro h
        right
        refine ⟨a, rest, rfl, ?_⟩
        by_contra hle
        exact h ⟨a, List.mem_cons_self _ _, Nat.not_lt.mp ha, Nat.not_lt.mp hle⟩

/-- On an ordered list the records taken while below `maxRecordId` are all the records
below it. -/
theorem takeWhile_below_eq_filter (maxRecordId : RecordId) :
    ∀ l : List Record, RecordStore.ordered l →
      l.takeWhile (fun r => decide (r.id < maxRecordId)) =
        l.filter (fun r => decide (r.id < maxRecordId)) := by
  intro l
  induction l with
  | nil => intro _; rfl
  | cons a rest ih =>
    intro hord
    have hrest : RecordStore.ordered rest := (List.pairwise_cons.mp hord).2
    have hlt : ∀ b ∈ rest, a.id < b.id := (List.pairwise_cons.mp hord).1
    by_cases ha : a.id < maxRecordId
    · simp only [List.takeWhile_cons, List.filter_cons, ha, decide_True, if_true]
      rw [ih hrest]
    · have hnone : rest.filter (fun r => decide (r.id < maxRecordId)) = [] := by
        rw [List.filter_eq_nil_iff]
        intro b hb
        simp only [decide_eq_true_eq]
        intro h
        exact ha (Nat.lt_trans (hlt b hb) h)
      simp only [List.takeWhile_cons, List.filter_cons, ha, decide_False, hnone]
      simp

/-- On an ordered store the records the second loop walks over are those with an id in
`[minRecordId, maxRecordId)`. -/
theorem skipBelow_takeWhile (minRecordId maxRecordId : RecordId) :
    ∀ rs : RecordStore, RecordStore.ordered rs →
      (skipBelow minRecordId rs).takeWhile (fun r => decide (r.id < maxRecordId)) =
        scannedRecords rs minRecordId maxRecordId := by
  intro rs
  induction rs with
  | nil => intro _; rfl
  | cons a rest ih =>
    intro hord
    have hrest : RecordStore.ordered rest := (List.pairwise_cons.mp hord).2
    have hlt : ∀ b ∈ rest, a.id < b.id := (List.pairwise_cons.mp hord).1
    by_cases ha : a.id < minRecordId
    · have h1 : skipBelow minRecordId (a :: rest) = skipBelow minRecordId rest := by
        simp only [skipBelow, if_pos ha]
      have h2 : scannedRecords (a :: rest) minRecordId maxRecordId =
          scannedRecords rest minRecordId maxRecordId := by
        unfold scannedRecords
        rw [List.filter_cons]
        have : ¬ (minRecordId ≤ a.id ∧ a.id < maxRecordId) :=
          fun h => absurd ha (Nat.not_lt.mpr h.1)
        simp [this]
      rw [h1, h2]
      exact ih hrest
    · have h1 : skipBelow minRecordId (a :: rest) = a :: rest := by
        simp only [skipBelow, if_neg ha]
      rw [h1, takeWhile_below_eq_filter maxRecordId _ hord]
      unfold scannedRecords
      apply List.filter_congr
      intro b hb
      have hge : minRecordId ≤ b.id := by
        rcases List.mem_cons.mp hb with rfl | hb
        · exact Nat.not_lt.mp ha
        · exact Nat.le_trans (Nat.not_lt.mp ha) (Nat.le_of_lt (hlt b hb))
      simp [hge]

/-- The second loop, started with the records `pending` since the last marker: the
records it walks over split into segments, each closed by the record that made the bytes
reach `minBytesPerMarker`, and a tail below it; the markers are those of the segments and
the leftovers those of the tail. -/
theorem scanRecords_segments (minBytesPerMarker : Int) (maxRecordId : RecordId)
    (hpos : 0 < minBytesPerMarker) :
    ∀ (l pending : List Record) (markers : List Marker),
      totalSize pending < minBytesPerMarker →
      ∃ (segments : List (List Record × Record)) (tail : List Record),
        pending ++ l.takeWhile (fun r => decide (r.id < maxRecordId)) =
          (segments.map segmentRecords).flatten ++ tail ∧
        scanRecords minBytesPerMarker maxRecordId l pending.length (totalSize pending) markers =
          ⟨markers ++ segments.map markerClosedBy, tail.length, totalSize tail, .Scanning⟩ ∧
        (∀ segment ∈ segments, minBytesPerMarker ≤ (markerClosedBy segment).bytes) ∧
        totalSize tail < minBytesPerMarker := by
  intro l
  induction l with
  | nil =>
    intro pending markers hp
    exact ⟨[], pending, by simp, by simp [scanRecords], by simp, hp⟩
  | cons record rest ih =>
    intro pending markers hp
    by_cases hid : record.id < maxRecordId
    · by_cases hbytes : totalSize pending + record.size ≥ minBytesPerMarker
      · obtain ⟨segments, tail, hsplit, hscan, hseg, htail⟩ :=
          ih [] (markers ++ [⟨pending.length + 1, totalSize pending + record.size, record.id,
            record.operationTime⟩]) (by rw [totalSize_nil]; exact hpos)
        refine ⟨(pending, record) :: segments, tail, ?_, ?_, ?_, htail⟩
        · simp only [List.takeWhile_cons, hid, decide_True, if_true, List.map_cons,
            List.flatten_cons, segmentRecords]
          rw [List.nil_append] at hsplit
          rw [hsplit]
          simp
        · simp only [scanRecords, if_pos hid, if_pos hbytes]
          rw [totalSize_nil] at hscan
          simp only [List.length_nil, Nat.cast_zero] at hscan
          rw [hscan]
          simp [markerClosedBy]
        · intro segment hmem
          rcases List.mem_cons.mp hmem with rfl | hmem
          · exact hbytes
          · exact hseg segment hmem
      · have hp2 : totalSize (pending ++ [record]) < minBytesPerMarker := by
          rw [totalSize_append, totalSize_singleton]
          exact lt_of_not_ge hbytes
        obtain ⟨segments, tail, hsplit, hscan, hseg, htail⟩ :=
          ih (pending ++ [record]) markers hp2
        refine ⟨segments, tail, ?_, ?_, hseg, htail⟩
        · simp only [List.takeWhile_cons, hid, decide_True, if_true]
          rw [← hsplit]
          simp
        · simp only [scanRecords, if_pos hid, if_neg hbytes]
          rw [totalSize_append, totalSize_singleton] at hscan
          simp only [List.length_append, List.length_singleton, Nat.cast_add,
            Nat.cast_one] at hscan
          exact hscan
    · refine ⟨[], pending, ?_, ?_, by simp, hp⟩
      · simp [List.takeWhile_cons, hid]
      · simp [scanRecords, hid]

/-- The record counts of the markers of segments add up to the records of the segments. -/
theorem markers_records_sum (segments : List (List Record × Record)) :
    ((segments.map markerClosedBy).map (fun m => m.records)).sum =
      ((segments.map segmentRecords).flatten.length : Int) := by
  induction segments with
  | nil => rfl
  | cons segment rest ih =>
    simp only [List.map_cons, List.sum_cons, List.flatten_cons, List.length_append, Nat.cast_add]
    rw [ih]
    simp [markerClosedBy, segmentRecords]

/-- The bytes of the markers of segments add up to the bytes of the segments. -/
theorem markers_bytes_sum (segments : List (List Record × Record)) :
    ((segments.map markerClosedBy).map (fun m => m.bytes)).sum =
      totalSize (segments.map segmentRecords).flatten := by
  induction segments with
  | nil => rfl
  | cons segment rest ih =>
    simp only [List.map_cons, List.sum_cons, List.flatten_cons]
    rw [ih, totalSize_append]
    simp [markerClosedBy, segmentRecords, totalSize_append, totalSize_singleton]

/-- The outcome of `createInitialMarkersScanning` on an ordered store, by the place where
the first loop ends. -/
theorem createInitialMarkersScanning_cases (rs : RecordStore) (minRecordId maxRecordId : RecordId)
    (minBytesPerMarker : Int) (hord : RecordStore.ordered rs) :
    ((¬ ∃ record ∈ rs, minRecordId ≤ record.id ∧ record.id ≤ maxRecordId) ∧
      createInitialMarkersScanning rs minRecordId maxRecordId minBytesPerMarker =
        ⟨[], 0, 0, .EmptyCollection⟩ ∧
      scannedRecords rs minRecordId maxRecordId = []) ∨
    ((∃ record ∈ rs, minRecordId ≤ record.id ∧ record.id ≤ maxRecordId) ∧
      createInitialMarkersScanning rs minRecordId maxRecordId minBytesPerMarker =
        scanRecords minBytesPerMarker maxRecordId (skipBelow minRecordId rs) 0 0 []) := by
  have hiff := skipBelow_empty_iff minRecordId maxRecordId rs hord
  have htake := skipBelow_takeWhile minRecordId maxRecordId rs hord
  have hdef : createInitialMarkersScanning rs minRecordId maxRecordId minBytesPerMarker =
      match skipBelow minRecordId rs with
      | [] => ⟨[], 0, 0, .EmptyCollection⟩
      | first :: _ =>
        if first.id > maxRecordId then ⟨[], 0, 0, .EmptyCollection⟩
        else scanRecords minBytesPerMarker maxRecordId (skipBelow minRecordId rs) 0 0 [] := by
    simp only [createInitialMarkersScanning, skipBelow_seekNear minRecordId rs hord]
  cases hskip : skipBelow minRecordId rs with
  | nil =>
    left
    refine ⟨hiff.mp (Or.inl hskip), ?_, ?_⟩
    · rw [hdef, hskip]
    · rw [← htake, hskip]
      rfl
  | cons first tail =>
    by_cases hfirst : first.id > maxRecordId
    · left
      refine ⟨hiff.mp (Or.inr ⟨first, tail, hskip, hfirst⟩), ?_, ?_⟩
      · rw [hdef, hskip]
        simp only [if_pos hfirst]
      · rw [← htake, hskip]
        have hnot : ¬ first.id < maxRecordId := Nat.not_lt.mpr (Nat.le_of_lt hfirst)
        simp [List.takeWhile_cons, hnot]
    · right
      constructor
      · by_contra hnone
        rcases hiff.mpr hnone with h | ⟨f, t, h, hmax⟩
        · rw [hskip] at h
          exact absurd h (List.cons_ne_nil _ _)
        · rw [hskip] at h
          injection h with h2 _
          subst h2
          exact hfirst hmax
      · rw [hdef, hskip]
        simp only [if_neg hfirst]

/-- C29. Scanning conservation: on a store in key order and for a positive
`minBytesPerMarker`, the markers and leftovers returned by `createInitialMarkersScanning`
account for the records with an id in `[minRecordId, maxRecordId)`: record counts and
bytes add up to those of these records, every marker holds at least `minBytesPerMarker`
bytes, the leftover bytes are below it, the records split into consecutive segments of
which each marker carries the count, the bytes and the id and time of its closing record;
the result is `EmptyCollection` without markers exactly when no record has an id in
`[minRecordId, maxRecordId]`. -/
theorem createInitialMarkersScanning_conservation (rs : RecordStore)
    (minRecordId maxRecordId : RecordId) (minBytesPerMarker : Int)
    (hord : RecordStore.ordered rs) (hpos : 0 < minBytesPerMarker) :
    ((createInitialMarkersScanning rs minRecordId maxRecordId minBytesPerMarker).markers.map
        (fun m => m.records)).sum +
      (createInitialMarkersScanning rs minRecordId maxRecordId
        minBytesPerMarker).leftoverRecordsCount =
      (scannedRecords rs minRecordId maxRecordId).length ∧
    ((createInitialMarkersScanning rs minRecordId maxRecordId minBytesPerMarker).markers.map
        (fun m => m.bytes)).sum +
      (createInitialMarkersScanning rs minRecordId maxRecordId
        minBytesPerMarker).leftoverRecordsBytes =
      totalSize (scannedRecords rs minRecordId maxRecordId) ∧
    (∀ m ∈ (createInitialMarkersScanning rs minRecordId maxRecordId
        minBytesPerMarker).markers, minBytesPerMarker ≤ m.bytes) ∧
    (createInitialMarkersScanning rs minRecordId maxRecordId
      minBytesPerMarker).leftoverRecordsBytes < minBytesPerMarker ∧
    (∃ (segments : List (List Record × Record)) (tail : List Record),
      scannedRecords rs minRecordId maxRecordId =
        (segments.map segmentRecords).flatten ++ tail ∧
      (createInitialMarkersScanning rs minRecordId maxRecordId minBytesPerMarker).markers =
        segments.map markerClosedBy ∧
      (createInitialMarkersScanning rs minRecordId maxRecordId
        minBytesPerMarker).leftoverRecordsCount = tail.length ∧
      (createInitialMarkersScanning rs minRecordId maxRecordId
        minBytesPerMarker).leftoverRecordsBytes = totalSize tail) ∧
    (((createInitialMarkersScanning rs minRecordId maxRecordId minBytesPerMarker).methodUsed
        = .EmptyCollection ∧
      (createInitialMarkersScanning rs minRecordId maxRecordId minBytesPerMarker).markers = [])
      ↔ ¬ ∃ record ∈ rs, minRecordId ≤ record.id ∧ record.id ≤ maxRecordId) := by
  rcases createInitialMarkersScanning_cases rs minRecordId maxRecordId minBytesPerMarker hord
    with ⟨hnone, hres, hscanned⟩ | ⟨hsome, hres⟩
  · rw [hres, hscanned]
    refine ⟨rfl, rfl, ?_, hpos, ⟨[], [], rfl, rfl, rfl, rfl⟩, ?_⟩
    · intro m hm
      exact absurd hm (List.not_mem_nil _)
    · exact ⟨fun _ => hnone, fun _ => ⟨rfl, rfl⟩⟩
  · obtain ⟨segments, tail, hsplit, hscan, hseg, htail⟩ :=
      scanRecords_segments minBytesPerMarker maxRecordId hpos (skipBelow minRecordId rs) [] []
        (by rw [totalSize_nil]; exact hpos)
    rw [totalSize_nil] at hscan
    simp only [List.length_nil, Nat.cast_zero, List.nil_append] at hscan hsplit
    rw [skipBelow_takeWhile minRecordId maxRecordId rs hord] at hsplit
    rw [hres, hscan, hsplit]
    refine ⟨?_, ?_, ?_, htail, ⟨segments, tail, rfl, rfl, rfl, rfl⟩, ?_⟩
    · simp only [List.length_append, Nat.cast_add]
      rw [markers_records_sum]
    · simp only
      rw [markers_bytes_sum, totalSize_append]
    · intro m hm
      simp only [List.mem_map] at hm
      obtain ⟨segment, hmem, rfl⟩ := hm
      exact hseg segment hmem
    · constructor
      · rintro ⟨hmethod, _⟩
        exact MarkersCreationMethod.noConfusion hmethod
      · intro hnone
        exact absurd hsome hnone

/-- C29 witness: the scan of the example store between the ids 10 and 20 with markers of
at least 100 bytes closes one marker on the record 12 (two records, 110 bytes) and leaves
two records of 50 bytes. -/
theorem createInitialMarkersScanning_conservation_witness :
    RecordStore.ordered exampleStore ∧
    createInitialMarkersScanning exampleStore 10 20 100 =
      ⟨[⟨2, 110, 12, 120⟩], 2, 50, .Scanning⟩ ∧
    ((createInitialMarkersScanning exampleStore 10 20 100).markers.map
        (fun m => m.records)).sum +
      (createInitialMarkersScanning exampleStore 10 20 100).leftoverRecordsCount =
      (scannedRecords exampleStore 10 20).length :=
  ⟨by simp [RecordStore.ordered, exampleStore], by decide,
   (createInitialMarkersScanning_conservation exampleStore 10 20 100
      (by simp [RecordStore.ordered, exampleStore]) (by decide)).1⟩

/-! ### Serialization of an error status -/

/-- The truncation keeps at most `maxLen` bytes. -/
theorem UTF8SafeTruncationChars_size (l : List Char) :
    ∀ maxLen : Nat, String.utf8ByteSize.go (UTF8SafeTruncationChars l maxLen) ≤ maxLen := by
  induction l with
  | nil => intro maxLen; simp [UTF8SafeTruncationChars, String.utf8ByteSize.go]
  | cons c cs ih =>
    intro maxLen
    by_cases hc : c.utf8Size ≤ maxLen
    · simp only [UTF8SafeTruncationChars, if_pos hc, String.utf8ByteSize.go]
      have := ih (maxLen - c.utf8Size)
      omega
    · simp [UTF8SafeTruncationChars, if_neg hc, String.utf8ByteSize.go]

theorem UTF8SafeTruncation_size (input : String) (maxLen : Nat) :
    (UTF8SafeTruncation input maxLen).utf8ByteSize ≤ maxLen := by
  unfold UTF8SafeTruncation
  exact UTF8SafeTruncationChars_size input.data maxLen

/-- A serialized error status is read back as the same code and reason. -/
theorem deserialize_serialize (errorString : Nat → String) (code : Nat) (reason : String)
    (fieldName : String) (hcode : code ≠ ErrorCodes.OK) :
    sharding_ddl_util_deserializeErrorStatusFromBSON
        ⟨fieldName, Status.serialize errorString (.error code reason)⟩ =
      .ok (.error code reason) := by
  have hne : ¬ ((code : Int) = ((ErrorCodes.OK : Nat) : Int)) := by
    intro h
    exact hcode (Int.ofNat_inj.mp h)
  have h1 : bsonExtractIntegerField (Status.serialize errorString (.error code reason)) "code"
      = .ok (code : Int) := by
    simp [bsonExtractIntegerField, Status.serialize, List.find?]
  have h2 : bsonExtractStringField (Status.serialize errorString (.error code reason)) "errmsg"
      = .ok reason := by
    simp [bsonExtractStringField, Status.serialize, List.find?]
  simp only [sharding_ddl_util_deserializeErrorStatusFromBSON, h1, h2]
  rw [if_neg (not_not.mpr hne)]
  simp

/-- C28. The round trip of an error status: for every status with an error code other than
`OK` whose serialized form is at most 2048 bytes, deserializing the element written by the
serialization returns the same code and the same message; for a larger status other than
`TruncatedSerialization` it returns the code `TruncatedSerialization` with a message of at
most 2048 bytes; serializing an `OK` status fails with 7418500 and deserializing an object
whose code is `OK` fails with 7418501. -/
theorem error_status_round_trip (errorString : Nat → String) (code : Nat) (reason : String)
    (fieldName : String) (hcode : code ≠ ErrorCodes.OK) :
    (objsize (Status.serialize errorString (.error code reason))
        ≤ kSerializedErrorStatusMaxSize →
      ∃ elem, sharding_ddl_util_serializeErrorStatusToBSON errorString (.error code reason)
          fieldName = .ok elem ∧ elem.fieldName = fieldName ∧
        sharding_ddl_util_deserializeErrorStatusFromBSON elem = .ok (.error code reason)) ∧
    (kSerializedErrorStatusMaxSize < objsize (Status.serialize errorString (.error code reason))
        → code ≠ ErrorCodes.TruncatedSerialization →
      ∃ elem message, sharding_ddl_util_serializeErrorStatusToBSON errorString
          (.error code reason) fieldName = .ok elem ∧ elem.fieldName = fieldName ∧
        sharding_ddl_util_deserializeErrorStatusFromBSON elem =
          .ok (.error ErrorCodes.TruncatedSerialization message) ∧
        message.utf8ByteSize ≤ 2048) ∧
    sharding_ddl_util_serializeErrorStatusToBSON errorString .OK fieldName =
      .error (.error 7418500 "Status must be an error") ∧
    (∀ elem : BSONElement, bsonExtractIntegerField elem.obj "code" = .ok (ErrorCodes.OK : Nat) →
      sharding_ddl_util_deserializeErrorStatusFromBSON elem =
        .error (.error 7418501 "Status must be an error")) := by
  refine ⟨?_, ?_, ?_, ?_⟩
  · intro hsize
    refine ⟨⟨fieldName, Status.serialize errorString (.error code reason)⟩, ?_, rfl,
      deserialize_serialize errorString code reason fieldName hcode⟩
    simp only [sharding_ddl_util_serializeErrorStatusToBSON, Status.isOK]
    rw [if_neg (by simp), if_neg]
    rintro ⟨_, h⟩
    exact absurd hsize (Nat.not_le.mpr h)
  · intro hsize hnot
    refine ⟨⟨fieldName, Status.serialize errorString
        (.error ErrorCodes.TruncatedSerialization
          (UTF8SafeTruncation (Status.toString errorString (.error code reason))
            kSerializedErrorStatusMaxSize))⟩, _, ?_, rfl,
      deserialize_serialize errorString _ _ fieldName (by decide),
      UTF8SafeTruncation_size _ _⟩
    simp only [sharding_ddl_util_serializeErrorStatusToBSON, Status.isOK]
    rw [if_neg (by simp), if_pos]
    refine ⟨?_, hsize⟩
    simp [hnot]
  · simp [sharding_ddl_util_serializeErrorStatusToBSON, Status.isOK]
  · intro elem h
    simp only [sharding_ddl_util_deserializeErrorStatusFromBSON, h]
    rw [if_pos (by simp)]

/-- C28 witness: the status `ConflictingOperationInProgress: busy` takes 55 bytes and comes
back as it was. -/
theorem error_status_round_trip_witness :
    objsize (Status.serialize exampleErrorString
      (.error ErrorCodes.ConflictingOperationInProgress "busy")) = 55 ∧
    ∃ elem, sharding_ddl_util_serializeErrorStatusToBSON exampleErrorString
        (.error ErrorCodes.ConflictingOperationInProgress "busy") "status" = .ok elem ∧
      elem.fieldName = "status" ∧
      sharding_ddl_util_deserializeErrorStatusFromBSON elem =
        .ok (.error ErrorCodes.ConflictingOperationInProgress "busy") :=
  ⟨by decide,
   (error_status_round_trip exampleErrorString ErrorCodes.ConflictingOperationInProgress "busy"
      "status" (by decide)).1 (by decide)⟩

/-! ## The window function `$addToSet` -/

namespace WindowFunctionAddToSet

theorem multisetInsert_perm (value : Value) (l : List Value) :
    (multisetInsert value l).Perm (value :: l) := by
  induction l with
  | nil => exact List.Perm.refl _
  | cons front rest ih =>
    by_cases h : value < front
    · simp only [multisetInsert, if_pos h]
      exact List.Perm.refl _
    · simp only [multisetInsert, if_neg h]
      exact (List.Perm.cons front ih).trans (List.Perm.swap value front rest)

theorem multisetInsert_sorted (value : Value) (l : List Value)
    (hl : l.Pairwise (fun a b => a ≤ b)) :
    (multisetInsert value l).Pairwise (fun a b => a ≤ b) := by
  induction l with
  | nil => simp [multisetInsert]
  | cons front rest ih =>
    have hrest := (List.pairwise_cons.mp hl).2
    have hfront := (List.pairwise_cons.mp hl).1
    by_cases h : value < front
    · simp only [multisetInsert, if_pos h]
      refine List.pairwise_cons.mpr ⟨?_, hl⟩
      intro b hb
      rcases List.mem_cons.mp hb with rfl | hb
      · exact le_of_lt h
      · exact le_trans (le_of_lt h) (hfront b hb)
    · simp only [multisetInsert, if_neg h]
      refine List.pairwise_cons.mpr ⟨?_, ih hrest⟩
      intro b hb
      rcases List.mem_cons.mp ((multisetInsert_perm value rest).subset hb) with rfl | hb
      · exact not_lt.mp h
      · exact hfront b hb

/-- In an ordered list whose elements are all at least `it`, what `upper_bound` skips is
equal to `it` and what it leaves is greater. -/
theorem dropWhile_upper_bound (it : Value) (rest : List Value)
    (hge : ∀ v ∈ rest, it ≤ v) (hsorted : rest.Pairwise (fun a b => a ≤ b)) :
    (∀ v ∈ rest.dropWhile (fun v => decide (v ≤ it)), it < v) ∧
    (∀ v ∈ rest, v = it ∨ v ∈ rest.dropWhile (fun v => decide (v ≤ it))) := by
  induction rest with
  | nil => simp
  | cons a t ih =>
    have ht := (List.pairwise_cons.mp hsorted).2
    have ha := (List.pairwise_cons.mp hsorted).1
    have hita : it ≤ a := hge a (List.mem_cons_self _ _)
    by_cases hle : a ≤ it
    · have hdrop : (a :: t).dropWhile (fun v => decide (v ≤ it)) =
          t.dropWhile (fun v => decide (v ≤ it)) := by
        simp [List.dropWhile_cons, hle]
      rw [hdrop]
      obtain ⟨h1, h2⟩ := ih (fun v hv => hge v (List.mem_cons_of_mem _ hv)) ht
      refine ⟨h1, ?_⟩
      intro v hv
      rcases List.mem_cons.mp hv with rfl | hv
      · exact Or.inl (le_antisymm hle hita)
      · exact h2 v hv
    · have hdrop : (a :: t).dropWhile (fun v => decide (v ≤ it)) = a :: t := by
        simp [List.dropWhile_cons, hle]
      rw [hdrop]
      refine ⟨?_, fun v hv => Or.inr hv⟩
      intro v hv
      rcases List.mem_cons.mp hv with rfl | hv
      · exact not_le.mp hle
      · exact lt_of_lt_of_le (not_le.mp hle) (ha v hv)

/-- With enough iterations the loop of `getValue` over an ordered multiset returns its
distinct values in strictly ascending order. -/
theorem getValueLoop_spec :
    ∀ (fuel : Nat) (l : List Value), l.length ≤ fuel → l.Pairwise (fun a b => a ≤ b) →
      (getValueLoop fuel l).Pairwise (fun a b => a < b) ∧
      ∀ v, v ∈ getValueLoop fuel l ↔ v ∈ l := by
  intro fuel
  induction fuel with
  | zero =>
    intro l hlen _
    have hnil : l = [] := List.length_eq_zero.mp (Nat.le_zero.mp hlen)
    subst hnil
    simp [getValueLoop]
  | succ fuel ih =>
    intro l hlen hsorted
    cases l with
    | nil => simp [getValueLoop]
    | cons it rest =>
      have hrest := (List.pairwise_cons.mp hsorted).2
      have hge := (List.pairwise_cons.mp hsorted).1
      have hsub : (rest.dropWhile (fun v => decide (v ≤ it))).Sublist rest :=
        List.dropWhile_sublist _
      have hlen1 : (rest.dropWhile (fun v => decide (v ≤ it))).length ≤ fuel :=
        le_trans hsub.length_le (Nat.le_of_succ_le_succ hlen)
      obtain ⟨ihs, ihm⟩ := ih _ hlen1 (hrest.sublist hsub)
      obtain ⟨hgt, hcover⟩ := dropWhile_upper_bound it rest hge hrest
      simp only [getValueLoop]
      constructor
      · refine List.pairwise_cons.mpr ⟨?_, ihs⟩
        intro b hb
        exact hgt b ((ihm b).mp hb)
      · intro v
        simp only [List.mem_cons, ihm]
        constructor
        · rintro (h | h)
          · exact Or.inl h
          · exact Or.inr (hsub.subset h)
        · rintro (h | h)
          · exact Or.inl h
          · exact (hcover v h).imp id id

/-- The method `getValue` on an ordered multiset: the distinct values, strictly
ascending. -/
theorem getValue_of_sorted (self : State) (hsorted : self._values.Pairwise (fun a b => a ≤ b)) :
    (getValue self).Pairwise (fun a b => a < b) ∧ ∀ v, v ∈ getValue self ↔ v ∈ self._values := by
  unfold getValue
  cases h : self._values with
  | nil => simp [kDefault]
  | cons a t =>
    simp only [List.isEmpty_cons, Bool.false_eq_true, if_false]
    rw [← h]
    exact getValueLoop_spec _ _ (le_refl _) hsorted

/-- A sequence of calls whose removes target the window succeeds, and leaves an ordered
multiset holding the values of the window. -/
theorem run_window (getApproximateSize : Value → Int) (sizeofThis : Int) (calls : List Call) :
    ∀ (self : State) (w : List Value),
      self._values.Pairwise (fun a b => a ≤ b) → self._values.Perm w →
      removesTargetWindow w calls →
      ∃ s, run getApproximateSize sizeofThis self calls = .ok s ∧
        s._values.Pairwise (fun a b => a ≤ b) ∧ s._values.Perm (window w calls) := by
  induction calls with
  | nil => intro self w hs hp _; exact ⟨self, rfl, hs, hp⟩
  | cons call calls ih =>
    intro self w hs hp hvalid
    cases call with
    | add value =>
      simp only [run, window]
      exact ih _ _ (multisetInsert_sorted value _ hs)
        ((multisetInsert_perm value _).trans (List.Perm.cons value hp)) hvalid
    | remove value =>
      simp only [removesTargetWindow] at hvalid
      have hmem : value ∈ self._values := hp.symm.subset hvalid.1
      simp only [run, window, remove, if_neg (not_not.mpr hmem)]
      exact ih _ _ (hs.sublist (List.erase_sublist _ _)) (hp.erase value) hvalid.2
    | reset =>
      simp only [run, window, reset]
      exact ih _ _ List.Pairwise.nil (List.Perm.refl _) hvalid

theorem window_append (a b : List Call) :
    ∀ w : List Value, window w (a ++ b) = window (window w a) b := by
  induction a with
  | nil => intro w; rfl
  | cons call a ih => intro w; cases call <;> exact ih _

theorem removesTargetWindow_append (a b : List Call) :
    ∀ w : List Value, removesTargetWindow w (a ++ b) ↔
      removesTargetWindow w a ∧ removesTargetWindow (window w a) b := by
  induction a with
  | nil => intro w; simp [removesTargetWindow, window]
  | cons call a ih =>
    intro w
    cases call with
    | add value => exact ih _
    | remove value =>
      show (value ∈ w ∧ removesTargetWindow (w.erase value) (a ++ b)) ↔
        (value ∈ w ∧ removesTargetWindow (w.erase value) a) ∧
          removesTargetWindow (window (w.erase value) a) b
      rw [ih, and_assoc]
    | reset => exact ih _

/-- After `k` more adds of a value the window holds it `k` more times. -/
theorem window_adds (value : Value) (k : Nat) :
    ∀ w : List Value, removesTargetWindow w (List.replicate k (Call.add value)) ∧
      (window w (List.replicate k (Call.add value))).count value = w.count value + k := by
  induction k with
  | zero => intro w; simp [removesTargetWindow, window]
  | succ k ih =>
    intro w
    simp only [List.replicate_succ, removesTargetWindow, window]
    obtain ⟨h1, h2⟩ := ih (value :: w)
    refine ⟨h1, ?_⟩
    rw [h2, List.count_cons_self]
    omega

/-- Up to as many removes as the window holds a value target the window, and each takes
one occurrence out. -/
theorem window_removes (value : Value) (j : Nat) :
    ∀ w : List Value, j ≤ w.count value →
      removesTargetWindow w (List.replicate j (Call.remove value)) ∧
      (window w (List.replicate j (Call.remove value))).count value = w.count value - j := by
  induction j with
  | zero => intro w _; simp [removesTargetWindow, window]
  | succ j ih =>
    intro w hj
    have hmem : value ∈ w := List.count_pos_iff.mp (by omega)
    have hcount : (w.erase value).count value = w.count value - 1 := List.count_erase_self _ _
    simp only [List.replicate_succ, removesTargetWindow, window]
    obtain ⟨h1, h2⟩ := ih (w.erase value) (by rw [hcount]; omega)
    refine ⟨⟨hmem, h1⟩, ?_⟩
    rw [h2, hcount]
    omega

/-- C30. The result of `WindowFunctionAddToSet`: for every sequence of `add`, `remove` and
`reset` calls in which each `remove` targets a value of the window, the calls succeed and
`getValue` returns the distinct values of the window, each once, in strictly ascending
order, and the empty array for an empty window; a value that is not in the window and is
then added `k` times is in the result after `j ≤ k` removes exactly when `j < k`; removing
a value that is not in the window fails with the assertion 5423800. -/
theorem getValue_spec (getApproximateSize : Value → Int) (sizeofThis : Int)
    (calls : List Call) (hvalid : removesTargetWindow [] calls) :
    (∃ s, run getApproximateSize sizeofThis (create sizeofThis) calls = .ok s ∧
      (getValue s).Pairwise (fun a b => a < b) ∧
      (∀ v, v ∈ getValue s ↔ v ∈ window [] calls) ∧
      (window [] calls = [] → getValue s = kDefault) ∧
      (∀ v, s._values.count v = (window [] calls).count v)) ∧
    (∀ (v : Value) (k j : Nat), (window [] calls).count v = 0 → j ≤ k →
      ∃ s, run getApproximateSize sizeofThis (create sizeofThis)
          (calls ++ List.replicate k (Call.add v) ++ List.replicate j (Call.remove v))
          = .ok s ∧
        (v ∈ getValue s ↔ j < k)) ∧
    (∀ (self : State) (v : Value), v ∉ self._values →
      remove getApproximateSize self v =
        .error (.error 5423800 "Can't remove from an empty WindowFunctionAddToSet")) := by
  have hmain : ∀ cs : List Call, removesTargetWindow [] cs →
      ∃ s, run getApproximateSize sizeofThis (create sizeofThis) cs = .ok s ∧
        (getValue s).Pairwise (fun a b => a < b) ∧
        (∀ v, v ∈ getValue s ↔ v ∈ window [] cs) ∧
        (window [] cs = [] → getValue s = kDefault) ∧
        (∀ v, s._values.count v = (window [] cs).count v) := by
    intro cs hcs
    obtain ⟨s, hrun, hsorted, hperm⟩ := run_window getApproximateSize sizeofThis cs
      (create sizeofThis) [] List.Pairwise.nil (List.Perm.refl _) hcs
    obtain ⟨hasc, hmem⟩ := getValue_of_sorted s hsorted
    refine ⟨s, hrun, hasc, ?_, ?_, ?_⟩
    · intro v
      rw [hmem v]
      exact hperm.mem_iff
    · intro hempty
      rw [hempty] at hperm
      have hnil : s._values = [] := List.Perm.eq_nil hperm
      simp [getValue, hnil]
    · intro v
      exact hperm.count_eq v
  refine ⟨hmain calls hvalid, ?_, ?_⟩
  · intro v k j hzero hjk
    obtain ⟨hadds, hcountAdds⟩ := window_adds v k (window [] calls)
    have hjle : j ≤ (window (window [] calls) (List.replicate k (Call.add v))).count v := by
      rw [hcountAdds]; omega
    obtain ⟨hremoves, hcountRemoves⟩ := window_removes v j _ hjle
    have hvalid2 : removesTargetWindow []
        (calls ++ List.replicate k (Call.add v) ++ List.replicate j (Call.remove v)) := by
      rw [removesTargetWindow_append, removesTargetWindow_append, window_append]
      exact ⟨⟨hvalid, hadds⟩, hremoves⟩
    obtain ⟨s, hrun, _, hmem, _, _⟩ := hmain _ hvalid2
    refine ⟨s, hrun, ?_⟩
    rw [hmem v, window_append, window_append, ← List.count_pos_iff, hcountRemoves,
      hcountAdds, hzero]
    omega
  · intro self v hv
    simp only [remove, if_pos hv]

/-- C30 witness: after adding 5, 3, 5 and 1 and removing one 5, the calls have succeeded
and the result is `[1, 3, 5]`: the 5 added twice is still there. -/
theorem getValue_spec_witness :
    removesTargetWindow [] [.add 5, .add 3, .add 5, .add 1, .remove 5] ∧
    run (fun _ => 16) 64 (create 64) [.add 5, .add 3, .add 5, .add 1, .remove 5] =
      .ok ⟨[1, 3, 5], 112⟩ ∧
    getValue ⟨[1, 3, 5], 112⟩ = [1, 3, 5] ∧
    ∃ s, run (fun _ => 16) 64 (create 64) [.add 5, .add 3, .add 5, .add 1, .remove 5] = .ok s ∧
      (getValue s).Pairwise (fun a b => a < b) ∧
      (∀ v, v ∈ getValue s ↔ v ∈ window [] [.add 5, .add 3, .add 5, .add 1, .remove 5]) ∧
      (window [] [.add 5, .add 3, .add 5, .add 1, .remove 5] = [] → getValue s = kDefault) ∧
      (∀ v, s._values.count v =
        (window [] [.add 5, .add 3, .add 5, .add 1, .remove 5]).count v) :=
  ⟨by simp [removesTargetWindow], rfl, by decide,
   (getValue_spec (fun _ => 16) 64 [.add 5, .add 3, .add 5, .add 1, .remove 5]
      (by simp [removesTargetWindow])).1⟩

end WindowFunctionAddToSet

end mongo
